import Mathlib

/-!
Sam Sampler DSP: envelope, filter, voice and engine.

A shallow embedding of `SamSamplerDSP_Pure.cpp` / `SamSamplerDSP.h`.

Numbers: the C++ `double` and `float` values are modelled as elements of a
linearly ordered field `α` with a floor function (`ℚ` for evaluation, `ℝ` for
the analytic statements); rounding is not modelled and the casts between
`float` and `double` are the identity.  `int` values are `Int`; the index
arithmetic of the two interpolators is reduced to the 32-bit range by
`wrapInt`, and `static_cast<int>` of a `double` truncates toward zero within
that range (`truncToInt`).  The `<cmath>` functions and the constant `M_PI`
are supplied through a `Libm` record.
-/

namespace DSP

/-- The `<cmath>` functions and the constant `M_PI` used by the DSP code. -/
structure Libm (α : Type) where
  sqrt : α → α
  cos : α → α
  tan : α → α
  pi : α

/-- The C++ conversion `static_cast<int>(x)` of a `double` to the 32-bit `int`: truncation
toward zero.  For a value whose integer part is outside the range of `int` the conversion is
undefined behaviour in C++; the model takes the nearest end of the range, the result of the
conversion instruction of the ARM64 targets of the plug-in. -/
def truncToInt {α : Type} [LinearOrderedField α] [FloorRing α] (x : α) : Int :=
  if (if 0 ≤ x then Int.floor x else Int.ceil x) < -2147483648 then -2147483648
  else if 2147483647 < (if 0 ≤ x then Int.floor x else Int.ceil x) then 2147483647
  else (if 0 ≤ x then Int.floor x else Int.ceil x)

/-- The value that an arithmetic operation on C++ `int` operands stores, given its exact
result: the result reduced modulo 2^32 into the range of `int`.  (Signed overflow is undefined
behaviour in C++; this is the two's-complement result that the compiled code computes.) -/
def wrapInt (x : Int) : Int :=
  (x + 2147483648) % 4294967296 - 2147483648

/-! ## Envelope -/

/-- The envelope curve types (`enum class EnvelopeCurve`), by underlying value, so that
`static_cast<EnvelopeCurve>(int)` is the identity. -/
abbrev EnvelopeCurve := Int

namespace EnvelopeCurve

/-- Straight line. -/
def Linear : EnvelopeCurve := 0
/-- Natural decay/growth curve. -/
def Exponential : EnvelopeCurve := 1
/-- Inverted exponential. -/
def Logarithmic : EnvelopeCurve := 2
/-- Smooth S-curve (ease-in-ease-out). -/
def SCurve : EnvelopeCurve := 3

end EnvelopeCurve

/-- The multi-stage envelope generator (`struct ADSREnvelope`). -/
structure ADSREnvelope (α : Type) where
  attack : α
  hold : α
  decay : α
  sustain : α
  releaseTime : α
  attackCurve : EnvelopeCurve
  decayCurve : EnvelopeCurve
  releaseCurve : EnvelopeCurve
  currentLevel : α
  envelopeTime : α
  isReleased : Bool
  isActive : Bool

namespace ADSREnvelope

variable {α : Type} [LinearOrderedField α]

/-- The default member initialisers of `struct ADSREnvelope`. -/
def init : ADSREnvelope α :=
  { attack := 1 / 100, hold := 0, decay := 1 / 10, sustain := 7 / 10, releaseTime := 2 / 10,
    attackCurve := EnvelopeCurve.Exponential, decayCurve := EnvelopeCurve.Exponential,
    releaseCurve := EnvelopeCurve.Exponential,
    currentLevel := 0, envelopeTime := 0, isReleased := false, isActive := false }

/-- Embedding of `ADSREnvelope::reset`. -/
def reset (e : ADSREnvelope α) : ADSREnvelope α :=
  { e with currentLevel := 0, envelopeTime := 0, isReleased := false, isActive := false }

/-- Embedding of `ADSREnvelope::start`. -/
def start (e : ADSREnvelope α) : ADSREnvelope α :=
  { e with currentLevel := 0, envelopeTime := 0, isReleased := false, isActive := true }

/-- Embedding of `ADSREnvelope::release`. -/
def release (e : ADSREnvelope α) : ADSREnvelope α :=
  { e with isReleased := true, envelopeTime := 0 }

/-- Embedding of `ADSREnvelope::applyCurve`; `std::pow(t, 2.0)` is the square of `t`, and
the last branch is the `default:` of the `switch`. -/
def applyCurve (m : Libm α) (t : α) (curve : EnvelopeCurve) : α :=
  if curve = EnvelopeCurve.Linear then t
  else if curve = EnvelopeCurve.Exponential then t ^ 2
  else if curve = EnvelopeCurve.Logarithmic then m.sqrt t
  else if curve = EnvelopeCurve.SCurve then (1 - m.cos (t * m.pi)) / 2
  else t

/-- Embedding of `ADSREnvelope::process`: the new envelope state and the returned level. -/
def process (m : Libm α) (e : ADSREnvelope α) (sampleRate : α) (numSamples : Int) :
    ADSREnvelope α × α :=
  if !e.isActive then
    ({ e with currentLevel := 0 }, 0)
  else
    let time := e.envelopeTime / sampleRate
    if !e.isReleased then
      let target :=
        if time < e.attack then
          applyCurve m (time / e.attack) e.attackCurve
        else if time < e.attack + e.hold then
          1
        else if time < e.attack + e.hold + e.decay then
          e.sustain + (1 - e.sustain) *
            applyCurve m (1 - (time - e.attack - e.hold) / e.decay) e.decayCurve
        else
          e.sustain
      ({ e with envelopeTime := e.envelopeTime + (numSamples : α), currentLevel := target },
        target)
    else
      if time < e.releaseTime then
        let target := e.currentLevel * applyCurve m (1 - time / e.releaseTime) e.releaseCurve
        ({ e with envelopeTime := e.envelopeTime + (numSamples : α), currentLevel := target },
          target)
      else
        ({ e with isActive := false, currentLevel := 0 }, 0)

end ADSREnvelope

/-! ## State variable filter -/

/-- The filter types (`enum class FilterType`), by underlying value. -/
abbrev FilterType := Int

namespace FilterType

/-- Lowpass output tap. -/
def Lowpass : FilterType := 0
/-- Bandpass output tap. -/
def Bandpass : FilterType := 1
/-- Highpass output tap. -/
def Highpass : FilterType := 2
/-- Notch output (input minus bandpass). -/
def Notch : FilterType := 3

end FilterType

/-- The TPT state variable filter (`struct StateVariableFilter`).  The two-element arrays
`s1` and `s2` are maps from the channel index. -/
structure StateVariableFilter (α : Type) where
  type : FilterType
  cutoff : α
  resonance : α
  sampleRate : α
  s1 : Nat → α
  s2 : Nat → α
  cutoffSmooth : α
  resonanceSmooth : α
  smoothingCoeff : α
  coefficientsDirty : Bool
  cachedG : α
  cachedR : α
  cachedH : α

namespace StateVariableFilter

variable {α : Type} [LinearOrderedField α]

/-- The default member initialisers of `struct StateVariableFilter`. -/
def init : StateVariableFilter α :=
  { type := FilterType.Lowpass, cutoff := 20000, resonance := 0, sampleRate := 48000,
    s1 := fun _ => 0, s2 := fun _ => 0,
    cutoffSmooth := 20000, resonanceSmooth := 0, smoothingCoeff := 999 / 1000,
    coefficientsDirty := true, cachedG := 0, cachedR := 0, cachedH := 0 }

/-- Embedding of `StateVariableFilter::reset`. -/
def reset (f : StateVariableFilter α) : StateVariableFilter α :=
  { f with
    s1 := Function.update (Function.update f.s1 1 0) 0 0
    s2 := Function.update (Function.update f.s2 1 0) 0 0
    cutoffSmooth := f.cutoff
    resonanceSmooth := f.resonance
    coefficientsDirty := true }

/-- Embedding of `StateVariableFilter::prepare`.  The statement `sampleRate = sampleRate;`
assigns the parameter to itself (the parameter hides the member), so only `reset()` has an
effect. -/
def prepare (f : StateVariableFilter α) (_sampleRate : α) : StateVariableFilter α :=
  f.reset

/-- Embedding of `StateVariableFilter::setParameters`. -/
def setParameters (f : StateVariableFilter α) (cutoff resonance : α) : StateVariableFilter α :=
  if f.cutoffSmooth ≠ cutoff ∨ f.resonanceSmooth ≠ resonance then
    { f with cutoffSmooth := cutoff, resonanceSmooth := resonance, coefficientsDirty := true }
  else f

/-- One pass of the body of the channel loop of `StateVariableFilter::process` at frame `i`
for channel `ch`: the new states and the sample buffers. -/
def processSample (type : FilterType) (g R h : α) (i ch : Nat)
    (st : (Nat → α) × (Nat → α) × (Nat → Nat → α)) : (Nat → α) × (Nat → α) × (Nat → Nat → α) :=
  let s1 := st.1
  let s2 := st.2.1
  let samples := st.2.2
  let input := samples ch i
  let highpass := (input - (1 + g * 2 * R) * s1 ch - g * g * s2 ch) * h
  let bandpass := g * highpass + s1 ch
  let lowpass := g * bandpass + s2 ch
  let output :=
    if type = FilterType.Lowpass then lowpass
    else if type = FilterType.Bandpass then bandpass
    else if type = FilterType.Highpass then highpass
    else if type = FilterType.Notch then input - bandpass
    else 0
  (Function.update s1 ch (2 * bandpass - s1 ch),
   Function.update s2 ch (2 * lowpass - s2 ch),
   Function.update samples ch (Function.update (samples ch) i output))

/-- Embedding of `StateVariableFilter::process`: the new filter state and the filtered buffers. -/
def process (m : Libm α) (f : StateVariableFilter α) (samples : Nat → Nat → α)
    (numChannels numSamples : Nat) : StateVariableFilter α × (Nat → Nat → α) :=
  let cutoff0 := f.cutoff + (f.cutoffSmooth - f.cutoff) * (1 - f.smoothingCoeff)
  let resonance0 := f.resonance + (f.resonanceSmooth - f.resonance) * (1 - f.smoothingCoeff)
  let cutoff := max 20 (min 20000 cutoff0)
  let resonance := max 0 (min 1 resonance0)
  let g := if f.coefficientsDirty then m.tan (m.pi * cutoff / f.sampleRate) else f.cachedG
  let R := if f.coefficientsDirty then 1 - resonance * (99 / 100) else f.cachedR
  let h := if f.coefficientsDirty then 1 / (1 + g * (2 * R + g)) else f.cachedH
  let st := (List.range numSamples).foldl
    (fun st i => (List.range numChannels).foldl (fun st ch => processSample f.type g R h i ch st) st)
    (f.s1, f.s2, samples)
  ({ f with cutoff := cutoff, resonance := resonance, cachedG := g, cachedR := R, cachedH := h,
            coefficientsDirty := false, s1 := st.1, s2 := st.2.1 }, st.2.2)

end StateVariableFilter

/-! ## Sample and lookup tables -/

/-- Audio sample data (`struct Sample`). -/
structure Sample (α : Type) where
  audioData : List α
  numChannels : Int
  sampleRate : Int
  numSamples : Int
  rootNote : α
  pitchCorrection : α

namespace Sample

variable {α : Type} [LinearOrderedField α]

/-- Embedding of `Sample::isValid`. -/
def isValid (s : Sample α) : Bool :=
  !s.audioData.isEmpty && decide (s.numSamples > 0)

/-- The element `audioData[i]` read as a `double`; an index outside the vector (undefined
behaviour in C++) reads 0. -/
def read (s : Sample α) (i : Int) : α :=
  if 0 ≤ i then s.audioData.getD i.toNat 0 else 0

end Sample

/-- The functions of `SchillingerEcosystem::DSP::LookupTables` (declared in
`LookupTables.h`) that the sampler calls. -/
structure LookupTables (α : Type) where
  midiToFreq : α → α
  detuneToRatio : α → α
  fastSineLookup : α → α

/-- A shared pointer to a sample is valid: `sample_ && sample_->isValid()`. -/
def sampleOk {α : Type} [LinearOrderedField α] (s : Option (Sample α)) : Bool :=
  match s with
  | none => false
  | some smp => smp.isValid

/-! ## Sampler voice -/

/-- A single polyphonic voice (`class SamSamplerVoice`). -/
structure SamSamplerVoice (α : Type) where
  midiNote : Int
  frequency : α
  velocity : α
  isActive : Bool
  sample : Option (Sample α)
  playPosition : α
  playbackRate : α
  envelope : ADSREnvelope α
  filter : StateVariableFilter α
  filterEnabled : Bool
  interpolationQuality : Int
  isLooping : Bool
  loopStart : α
  loopEnd : α
  loopCrossfade : α

namespace SamSamplerVoice

variable {α : Type} [LinearOrderedField α] [FloorRing α]

/-- The constructor `SamSamplerVoice::SamSamplerVoice`: the default member initialisers,
then `filter_.prepare(48000.0)`. -/
def init : SamSamplerVoice α :=
  { midiNote := 0, frequency := 440, velocity := 0, isActive := false, sample := none,
    playPosition := 0, playbackRate := 1,
    envelope := ADSREnvelope.init,
    filter := (StateVariableFilter.init : StateVariableFilter α).prepare 48000,
    filterEnabled := false, interpolationQuality := 1,
    isLooping := false, loopStart := 0, loopEnd := 0, loopCrossfade := 0 }

/-- Embedding of `SamSamplerVoice::setFilterParameters`. -/
def setFilterParameters (v : SamSamplerVoice α) (cutoff resonance : α) (type : FilterType) :
    SamSamplerVoice α :=
  { v with
    filter := ({ v.filter with type := type } : StateVariableFilter α).setParameters cutoff resonance
    filterEnabled := true }

/-- Embedding of `SamSamplerVoice::setEnvelopeParameters`. -/
def setEnvelopeParameters (v : SamSamplerVoice α) (attack hold decay sustain release : α)
    (attackCurve decayCurve releaseCurve : EnvelopeCurve) : SamSamplerVoice α :=
  { v with
    envelope := { v.envelope with
      attack := attack, hold := hold, decay := decay, sustain := sustain,
      releaseTime := release, attackCurve := attackCurve, decayCurve := decayCurve,
      releaseCurve := releaseCurve } }

/-- Embedding of `SamSamplerVoice::setInterpolationQuality`. -/
def setInterpolationQuality (v : SamSamplerVoice α) (quality : Int) : SamSamplerVoice α :=
  { v with interpolationQuality := quality }

/-- Embedding of `SamSamplerVoice::midiToFrequency`. -/
def midiToFrequency (lt : LookupTables α) (midiNote : Int) : α :=
  lt.midiToFreq (midiNote : α)

/-- Embedding of `SamSamplerVoice::interpolateLinear`.  The indices are C++ `int`s: every
arithmetic operation on them is reduced by `wrapInt`. -/
def interpolateLinear (v : SamSamplerVoice α) (position : α) : α :=
  match v.sample with
  | none => 0
  | some smp =>
    if !smp.isValid then 0
    else
      let index0 := truncToInt position
      let index1 := wrapInt (index0 + 1)
      let frac := position - (index0 : α)
      if smp.numChannels = 1 then
        if index0 ≥ 0 ∧ index0 < wrapInt (smp.numSamples - 1) then
          smp.read index0 * (1 - frac) + smp.read index1 * frac
        else 0
      else if smp.numChannels = 2 then
        let index0 := wrapInt (index0 * 2)
        let index1 := wrapInt (index0 + 2)
        if index0 ≥ 0 ∧ index0 < wrapInt (wrapInt (smp.numSamples * 2) - 2) then
          smp.read index0 * (1 - frac) + smp.read index1 * frac
        else 0
      else 0

/-- Embedding of `SamSamplerVoice::interpolateCubic`.  The indices are C++ `int`s: every
arithmetic operation on them is reduced by `wrapInt`. -/
def interpolateCubic (v : SamSamplerVoice α) (position : α) : α :=
  match v.sample with
  | none => 0
  | some smp =>
    if !smp.isValid then 0
    else
      let index := truncToInt position
      let frac := position - (index : α)
      if smp.numChannels = 1 then
        if index ≥ 1 ∧ index < wrapInt (smp.numSamples - 2) then
          let y0 := smp.read (wrapInt (index - 1))
          let y1 := smp.read index
          let y2 := smp.read (wrapInt (index + 1))
          let y3 := smp.read (wrapInt (index + 2))
          y1 + (1 / 2) * frac * (y2 - y0 +
            frac * (2 * y0 - 5 * y1 + 4 * y2 - y3 +
            frac * (3 * (y1 - y2) + y3 - y0)))
        else interpolateLinear v position
      else if smp.numChannels = 2 then
        let index := wrapInt (index * 2)
        if index ≥ 2 ∧ index < wrapInt (wrapInt (smp.numSamples * 2) - 4) then
          let y0 := smp.read (wrapInt (index - 2))
          let y1 := smp.read index
          let y2 := smp.read (wrapInt (index + 2))
          let y3 := smp.read (wrapInt (index + 4))
          y1 + (1 / 2) * frac * (y2 - y0 +
            frac * (2 * y0 - 5 * y1 + 4 * y2 - y3 +
            frac * (3 * (y1 - y2) + y3 - y0)))
        else interpolateLinear v position
      else interpolateLinear v position

/-- The selection `(interpolationQuality_ == 1) ? interpolateCubic(p) : interpolateLinear(p)`. -/
def interpolate (v : SamSamplerVoice α) (position : α) : α :=
  if v.interpolationQuality = 1 then interpolateCubic v position
  else interpolateLinear v position

/-- Embedding of `SamSamplerVoice::processLoopCrossfade` (the `channel` argument is unused). -/
def processLoopCrossfade (v : SamSamplerVoice α) (position : α) (_channel : Int) : α :=
  match v.sample with
  | none => 0
  | some smp =>
    if !smp.isValid then 0
    else if v.isLooping ∧ position ≥ v.loopEnd - v.loopCrossfade * (smp.sampleRate : α) then
      let crossfadeSamples := v.loopCrossfade * (smp.sampleRate : α)
      let distanceToEnd := v.loopEnd - position
      let crossfadeAmount := max 0 (min 1 (1 - distanceToEnd / crossfadeSamples))
      let sample1 := interpolate v position
      let loopPosition := v.loopStart + (position - (v.loopEnd - crossfadeSamples))
      let sample2 := interpolate v loopPosition
      sample1 * (1 - crossfadeAmount) + sample2 * crossfadeAmount
    else interpolate v position

/-- Embedding of `SamSamplerVoice::startNote`. -/
def startNote (lt : LookupTables α) (v : SamSamplerVoice α) (midiNote : Int) (velocity : α)
    (sample : Option (Sample α)) : SamSamplerVoice α :=
  let frequency := midiToFrequency lt midiNote
  let playbackRate :=
    match sample with
    | none => 1
    | some smp =>
      if smp.isValid then
        frequency / midiToFrequency lt (truncToInt smp.rootNote) *
          lt.detuneToRatio smp.pitchCorrection
      else 1
  { v with
    midiNote := midiNote, velocity := velocity, frequency := frequency, sample := sample,
    isActive := true, envelope := v.envelope.start, filter := v.filter.reset,
    playbackRate := playbackRate, playPosition := 0 }

/-- Embedding of `SamSamplerVoice::stopNote`. -/
def stopNote (v : SamSamplerVoice α) (_velocity : α) : SamSamplerVoice α :=
  { v with envelope := v.envelope.release }

/-- Embedding of `SamSamplerVoice::reset`. -/
def reset (v : SamSamplerVoice α) : SamSamplerVoice α :=
  { v with
    envelope := v.envelope.reset, isActive := false, midiNote := 0, velocity := 0,
    frequency := 440, playPosition := 0, playbackRate := 1, sample := none }

/-- The per-sample loop of `SamSamplerVoice::process` for a valid sample with `numSamples`
frames: `remaining` iterations starting at frame `i`, filling `voiceBuffer`.  Both `break`
statements leave the rest of the buffer as it is. -/
def renderLoop (m : Libm α) (sampleRate : α) (sampleFrames : Int) :
    (remaining : Nat) → (i : Nat) → SamSamplerVoice α → (Nat → α) → SamSamplerVoice α × (Nat → α)
  | 0, _, v, voiceBuffer => (v, voiceBuffer)
  | remaining + 1, i, v, voiceBuffer =>
    let r := v.envelope.process m sampleRate 1
    let env := r.2
    let v1 := { v with envelope := r.1 }
    if !v1.envelope.isActive then
      ({ v1 with isActive := false }, voiceBuffer)
    else
      let output := processLoopCrossfade v1 v1.playPosition 0 * (env * v1.velocity)
      let voiceBuffer1 := Function.update voiceBuffer i output
      let v2 := { v1 with playPosition := v1.playPosition + v1.playbackRate }
      if v2.isLooping ∧ v2.playPosition ≥ v2.loopEnd then
        renderLoop m sampleRate sampleFrames remaining (i + 1)
          { v2 with playPosition := v2.loopStart + (v2.playPosition - v2.loopEnd) } voiceBuffer1
      else if v2.playPosition ≥ (sampleFrames : α) then
        ({ v2 with isActive := false }, voiceBuffer1)
      else
        renderLoop m sampleRate sampleFrames remaining (i + 1) v2 voiceBuffer1

/-- Embedding of `SamSamplerVoice::process`: the new voice state and the output buffers
(`outputs ch i` is `outputs[ch][i]`).  The zero-initialised `voiceBuffer` is a map from the
frame index, and the one-channel array `channelPtr` handed to the filter is constant. -/
def process (m : Libm α) (v : SamSamplerVoice α) (outputs : Nat → Nat → α)
    (numChannels numSamples : Nat) (sampleRate : α) : SamSamplerVoice α × (Nat → Nat → α) :=
  match v.sample with
  | none => (v, outputs)
  | some smp =>
    if !v.isActive ∨ !smp.isValid then (v, outputs)
    else
      let r := renderLoop m sampleRate smp.numSamples numSamples 0 v (fun _ => 0)
      let fr :=
        if r.1.filterEnabled then
          let p := r.1.filter.process m (fun _ => r.2) 1 numSamples
          ({ r.1 with filter := p.1 }, p.2 0)
        else r
      (fr.1, fun ch i =>
        if ch < numChannels ∧ i < numSamples then outputs ch i + fr.2 i else outputs ch i)

/-- The sizes of the `std::vector<float>` buffers that one call of
`SamSamplerVoice::process` constructs (each construction with a positive size is a heap
allocation): none on the early return, `voiceBuffer(numSamples)` otherwise. -/
def processAllocations (v : SamSamplerVoice α) (numSamples : Nat) : List Nat :=
  if !v.isActive ∨ !sampleOk v.sample then [] else [numSamples]

end SamSamplerVoice

/-! ## SoundFont reader -/

/-- An SF2 instrument zone (`SF2Reader::Zone`). -/
structure Zone (α : Type) where
  keyRangeLow : Int
  keyRangeHigh : Int
  velocityRangeLow : Int
  velocityRangeHigh : Int
  sampleIndex : Int
  rootKey : Int
  tuning : α

/-- An SF2 instrument (`SF2Reader::Instrument`). -/
structure Instrument (α : Type) where
  name : String
  presetNumber : Int
  bank : Int
  zones : List (Zone α)

/-- The simplified SF2 reader (`class SF2Reader`). -/
structure SF2Reader (α : Type) where
  romName : String
  romVersion : String
  samples : List (Sample α)
  instruments : List (Instrument α)

namespace SF2Reader

variable {α : Type} [LinearOrderedField α] [FloorRing α]

/-- A newly constructed reader. -/
def init : SF2Reader α :=
  { romName := "", romVersion := "", samples := [], instruments := [] }

/-- Embedding of `SF2Reader::isLoaded`. -/
def isLoaded (r : SF2Reader α) : Bool :=
  !r.instruments.isEmpty

/-- Embedding of `SF2Reader::getInstrumentCount`. -/
def getInstrumentCount (r : SF2Reader α) : Int :=
  (r.instruments.length : Int)

/-- Embedding of `SF2Reader::getSample`. -/
def getSample (r : SF2Reader α) (index : Int) : Option (Sample α) :=
  if index ≥ 0 ∧ index < (r.samples.length : Int) then r.samples.get? index.toNat else none

/-- Embedding of `SF2Reader::loadFile`: the path is ignored; a one-second 440 Hz test sample,
a default zone and a default instrument are appended, and the call returns `true`. -/
def loadFile (m : Libm α) (lt : LookupTables α) (r : SF2Reader α) (_filePath : String) :
    SF2Reader α × Bool :=
  let testSampleRate : Int := 44100
  let duration : Int := testSampleRate
  let testSample : Sample α :=
    { numSamples := duration, numChannels := 1, sampleRate := testSampleRate, rootNote := 60,
      pitchCorrection := 0,
      audioData := (List.range duration.toNat).map
        (fun i => lt.fastSineLookup (2 * m.pi * 440 * ((i : α) / (testSampleRate : α)))) }
  let defaultZone : Zone α :=
    { keyRangeLow := 0, keyRangeHigh := 127, velocityRangeLow := 0, velocityRangeHigh := 127,
      sampleIndex := 0, rootKey := 60, tuning := 0 }
  let defaultInst : Instrument α :=
    { name := "Default Instrument", presetNumber := 0, bank := 0, zones := [defaultZone] }
  ({ romName := "Default ROM", romVersion := "1.0",
     samples := r.samples ++ [testSample],
     instruments := r.instruments ++ [defaultInst] }, true)

end SF2Reader

/-! ## Engine -/

/-- The events of `ScheduledEvent` (declared in `InstrumentDSP.h`) that
`SamSamplerDSP::handleEvent` distinguishes; `other` is any type that reaches `default:`. -/
inductive ScheduledEvent (α : Type) where
  | NOTE_ON (midiNote : Int) (velocity : α)
  | NOTE_OFF (midiNote : Int) (velocity : α)
  | PITCH_BEND (bendValue : α)
  | RESET
  | other

/-- The global parameter set (`SamSamplerDSP::Parameters`). -/
structure Parameters (α : Type) where
  masterVolume : α
  pitchBendRange : α
  basePitch : α
  sampleStart : α
  sampleEnd : α
  loopEnabled : Bool
  loopStart : α
  loopEnd : α
  crossfade : α
  envAttack : α
  envHold : α
  envDecay : α
  envSustain : α
  envRelease : α
  envAttackCurve : Int
  envDecayCurve : Int
  envReleaseCurve : Int
  filterCutoff : α
  filterResonance : α
  filterEnabled : Bool
  filterType : Int
  reverbMix : α
  delayMix : α
  drive : α
  structure_ : α
  stereoWidth : α
  stereoPositionOffset : α
  stereoFilterSpread : α

/-- The default member initialisers of `SamSamplerDSP::Parameters`. -/
def Parameters.init {α : Type} [LinearOrderedField α] : Parameters α :=
  { masterVolume := 11 / 10, pitchBendRange := 2, basePitch := 1, sampleStart := 0,
    sampleEnd := 1, loopEnabled := false, loopStart := 0, loopEnd := 1, crossfade := 1 / 100,
    envAttack := 1 / 100, envHold := 0, envDecay := 1 / 10, envSustain := 7 / 10,
    envRelease := 2 / 10, envAttackCurve := 1, envDecayCurve := 1, envReleaseCurve := 1,
    filterCutoff := 20000, filterResonance := 0, filterEnabled := false, filterType := 0,
    reverbMix := 0, delayMix := 0, drive := 0, structure_ := 1 / 2, stereoWidth := 1 / 2,
    stereoPositionOffset := 0, stereoFilterSpread := 1 / 10 }

/-- The number of voices of the pool (`SamSamplerDSP::maxVoices_`). -/
def maxVoices : Nat := 16

/-- The sampler engine (`class SamSamplerDSP`).  The array `voices_` of 16 owned voices is
the list `voices`; the constructor fills every slot, so no slot is null. -/
structure SamSamplerDSP (α : Type) where
  voices : List (SamSamplerVoice α)
  params : Parameters α
  sampleRate : α
  blockSize : Int
  pitchBend : α
  sf2Reader : SF2Reader α
  currentSoundFontInstrument : Int
  sampleCache : List (Sample α)

namespace SamSamplerDSP

variable {α : Type} [LinearOrderedField α] [FloorRing α]

/-- The constructor `SamSamplerDSP::SamSamplerDSP`. -/
def init : SamSamplerDSP α :=
  { voices := List.replicate maxVoices SamSamplerVoice.init,
    params := Parameters.init, sampleRate := 48000, blockSize := 512, pitchBend := 0,
    sf2Reader := SF2Reader.init, currentSoundFontInstrument := 0, sampleCache := [] }

/-- Embedding of `SamSamplerDSP::getMaxPolyphony`. -/
def getMaxPolyphony (_e : SamSamplerDSP α) : Int := (maxVoices : Int)

/-- Embedding of `SamSamplerDSP::getActiveVoiceCount`. -/
def getActiveVoiceCount (e : SamSamplerDSP α) : Int :=
  ((e.voices.countP (fun v => v.isActive) : Nat) : Int)

/-- Embedding of `SamSamplerDSP::prepare`: the loop over the instruments caches a copy of
sample 0 once per instrument. -/
def prepare (m : Libm α) (lt : LookupTables α) (e : SamSamplerDSP α) (sampleRate : α)
    (blockSize : Int) : SamSamplerDSP α × Bool :=
  let e1 := { e with sampleRate := sampleRate, blockSize := blockSize }
  let e2 :=
    if e1.sampleCache.isEmpty ∧ !e1.sf2Reader.isLoaded then
      let rd := (e1.sf2Reader.loadFile m lt "").1
      let copies := (List.range rd.getInstrumentCount.toNat).filterMap (fun _ => rd.getSample 0)
      { e1 with sf2Reader := rd, sampleCache := e1.sampleCache ++ copies }
    else e1
  ({ e2 with voices := e2.voices.map SamSamplerVoice.reset }, true)

/-- Embedding of `SamSamplerDSP::reset`. -/
def reset (e : SamSamplerDSP α) : SamSamplerDSP α :=
  { e with voices := e.voices.map SamSamplerVoice.reset, pitchBend := 0 }

/-- The voice loop of `SamSamplerDSP::process`: every voice that is active when the loop
reaches it renders into the buffers. -/
def processVoices (m : Libm α) (sampleRate : α) (numChannels numSamples : Nat) :
    List (SamSamplerVoice α) → (Nat → Nat → α) → List (SamSamplerVoice α) × (Nat → Nat → α)
  | [], outputs => ([], outputs)
  | voice :: rest, outputs =>
    let r := if voice.isActive then voice.process m outputs numChannels numSamples sampleRate
             else (voice, outputs)
    let rs := processVoices m sampleRate numChannels numSamples rest r.2
    (r.1 :: rs.1, rs.2)

/-- Embedding of `SamSamplerDSP::process`: clear, render the active voices, scale by the
master volume. -/
def process (m : Libm α) (e : SamSamplerDSP α) (outputs : Nat → Nat → α)
    (numChannels numSamples : Nat) : SamSamplerDSP α × (Nat → Nat → α) :=
  let cleared : Nat → Nat → α := fun ch i =>
    if ch < numChannels ∧ i < numSamples then 0 else outputs ch i
  let r := processVoices m e.sampleRate numChannels numSamples e.voices cleared
  let masterVol := e.params.masterVolume
  ({ e with voices := r.1 }, fun ch i =>
    if ch < numChannels ∧ i < numSamples then r.2 ch i * masterVol else r.2 ch i)

/-- Embedding of `SamSamplerDSP::findFreeVoice`: the slot of the first inactive voice, else
slot 0. -/
def findFreeVoice (e : SamSamplerDSP α) : Option Nat :=
  match e.voices.findIdx? (fun v => !v.isActive) with
  | some i => some i
  | none => if 0 < e.voices.length then some 0 else none

/-- Embedding of `SamSamplerDSP::findVoiceForNote`: the slot of the first active voice bound
to the note. -/
def findVoiceForNote (e : SamSamplerDSP α) (midiNote : Int) : Option Nat :=
  e.voices.findIdx? (fun v => v.isActive && decide (v.midiNote = midiNote))

/-- Embedding of `SamSamplerDSP::handleEvent`. -/
def handleEvent (lt : LookupTables α) (e : SamSamplerDSP α) (event : ScheduledEvent α) :
    SamSamplerDSP α :=
  match event with
  | ScheduledEvent.NOTE_ON midiNote velocity =>
    match e.findFreeVoice with
    | none => e
    | some slot =>
      let samplePtr := e.sampleCache.head?
      { e with voices := e.voices.modify (fun voice =>
          let v1 := voice.startNote lt midiNote velocity samplePtr
          let v2 :=
            if e.params.filterEnabled then
              v1.setFilterParameters e.params.filterCutoff e.params.filterResonance
                e.params.filterType
            else v1
          v2.setEnvelopeParameters e.params.envAttack e.params.envHold e.params.envDecay
            e.params.envSustain e.params.envRelease
            e.params.envAttackCurve e.params.envDecayCurve e.params.envReleaseCurve) slot }
  | ScheduledEvent.NOTE_OFF midiNote velocity =>
    match e.findVoiceForNote midiNote with
    | none => e
    | some slot => { e with voices := e.voices.modify (fun voice => voice.stopNote velocity) slot }
  | ScheduledEvent.PITCH_BEND bendValue => { e with pitchBend := bendValue }
  | ScheduledEvent.RESET => e.reset
  | ScheduledEvent.other => e

/-- The function that the NOTE_ON branch of `handleEvent` applies to the claimed voice. -/
def noteOnVoice (lt : LookupTables α) (e : SamSamplerDSP α) (midiNote : Int) (velocity : α)
    (voice : SamSamplerVoice α) : SamSamplerVoice α :=
  let v1 := voice.startNote lt midiNote velocity e.sampleCache.head?
  let v2 :=
    if e.params.filterEnabled then
      v1.setFilterParameters e.params.filterCutoff e.params.filterResonance e.params.filterType
    else v1
  v2.setEnvelopeParameters e.params.envAttack e.params.envHold e.params.envDecay
    e.params.envSustain e.params.envRelease
    e.params.envAttackCurve e.params.envDecayCurve e.params.envReleaseCurve

/-- A run of consecutive NOTE_ON events, given as (note, velocity) pairs. -/
def handleNoteOns (lt : LookupTables α) (e : SamSamplerDSP α) (notes : List (Int × α)) :
    SamSamplerDSP α :=
  notes.foldl (fun s ev => s.handleEvent lt (ScheduledEvent.NOTE_ON ev.1 ev.2)) e

/-- The `std::vector<float>` buffers constructed during one call of `SamSamplerDSP::process`:
those of the `SamSamplerVoice::process` calls made for the active voices (the engine itself
constructs none). -/
def processAllocations (e : SamSamplerDSP α) (numSamples : Nat) : List Nat :=
  (e.voices.filter (fun v => v.isActive)).flatMap
    (fun v => SamSamplerVoice.processAllocations v numSamples)

end SamSamplerDSP

/-! ## Concrete inputs over `ℚ` -/

/-- Rational stand-ins for the `<cmath>` functions, for evaluating paths that call none of
them (linear and exponential curves, filter disabled). -/
def ratLibm : Libm ℚ := ⟨fun t => t, fun _ => 1, fun t => t, 3⟩

/-- Rational stand-ins for the lookup tables: octaves of a 440 Hz grid, no detune, and a
sawtooth in place of the sine table. -/
def ratTables : LookupTables ℚ :=
  ⟨fun n => 440 * 2 ^ (Int.floor ((n - 69) / 12)), fun _ => 1, fun x => x - (Int.floor x : ℚ)⟩

/-- A newly constructed engine after `prepare(48000, 512)`. -/
def preparedEngine : SamSamplerDSP ℚ :=
  ((SamSamplerDSP.init : SamSamplerDSP ℚ).prepare ratLibm ratTables 48000 512).1

/-- The prepared engine after `NOTE_ON(60, 0.8)`. -/
def noteOnEngine : SamSamplerDSP ℚ :=
  preparedEngine.handleEvent ratTables (ScheduledEvent.NOTE_ON 60 (4 / 5))

/-- The prepared engine after `NOTE_ON(60, 0.8)` and `NOTE_OFF(60)`. -/
def noteOffEngine : SamSamplerDSP ℚ :=
  noteOnEngine.handleEvent ratTables (ScheduledEvent.NOTE_OFF 60 0)

/-! ## Definitions used to state the properties -/

section EnvelopeRuns

variable {α : Type} [LinearOrderedField α]

/-- The range facts about `std::sqrt` and `std::cos` that the envelope bounds rest on. -/
def Libm.InRange (m : Libm α) : Prop :=
  (∀ t, 0 ≤ t → t ≤ 1 → 0 ≤ m.sqrt t ∧ m.sqrt t ≤ 1) ∧ (∀ x, -1 ≤ m.cos x ∧ m.cos x ≤ 1)

/-- The envelope after `k` calls of `process(sampleRate, 1)`. -/
def envAfter (m : Libm α) (sampleRate : α) (e : ADSREnvelope α) : Nat → ADSREnvelope α
  | 0 => e
  | k + 1 => ((envAfter m sampleRate e k).process m sampleRate 1).1

/-- The level returned by call number `i` (counted from 0) of a run of
`process(sampleRate, 1)` calls. -/
def envLevel (m : Libm α) (sampleRate : α) (e : ADSREnvelope α) (i : Nat) : α :=
  ((envAfter m sampleRate e i).process m sampleRate 1).2

/-- The envelope after a run of `process` calls, each given as (sampleRate, numSamples). -/
def processCalls (m : Libm α) (e : ADSREnvelope α) : List (α × Int) → ADSREnvelope α
  | [] => e
  | c :: rest => processCalls m (e.process m c.1 c.2).1 rest

/-- The levels returned by a run of `process` calls, in order. -/
def processLevels (m : Libm α) (e : ADSREnvelope α) : List (α × Int) → List α
  | [] => []
  | c :: rest => (e.process m c.1 c.2).2 :: processLevels m (e.process m c.1 c.2).1 rest

/-- A call of one of the mutating members of `ADSREnvelope`. -/
inductive EnvelopeCall (α : Type) where
  | start
  | release
  | process (sampleRate : α) (numSamples : Int)

/-- The effect of a call on the envelope. -/
def EnvelopeCall.apply (m : Libm α) (e : ADSREnvelope α) : EnvelopeCall α → ADSREnvelope α
  | EnvelopeCall.start => e.start
  | EnvelopeCall.release => e.release
  | EnvelopeCall.process sampleRate numSamples => (e.process m sampleRate numSamples).1

end EnvelopeRuns

section Statements

variable {α : Type} [LinearOrderedField α] [FloorRing α]

/-- The all-zero output buffers. -/
def silence : Nat → Nat → α := fun _ _ => 0

end Statements

/-- The invariant of the envelope state: the level is in [0, 1] and the clock is not
negative. -/
def EnvInv {α : Type} [LinearOrderedField α] (e : ADSREnvelope α) : Prop :=
  0 ≤ e.currentLevel ∧ e.currentLevel ≤ 1 ∧ 0 ≤ e.envelopeTime

/-- The `Libm` record holds the real functions: the reference semantics of `<cmath>`. -/
def Libm.IsReal (m : Libm ℝ) : Prop :=
  m.sqrt = Real.sqrt ∧ m.cos = Real.cos ∧ m.tan = Real.tan ∧ m.pi = Real.pi

/-- What the playback-rate example needs of the tables of `LookupTables.h` (not among the
sources): the MIDI-note-to-Hz map doubles per octave and is never 0, and a detune of 0 cents
is the ratio 1. -/
def LookupTables.EqualTempered {α : Type} [LinearOrderedField α] (lt : LookupTables α) : Prop :=
  (∀ n : α, lt.midiToFreq (n + 12) = 2 * lt.midiToFreq n) ∧ (∀ n : α, lt.midiToFreq n ≠ 0)
    ∧ lt.detuneToRatio 0 = 1

/-- The default envelope after `start()` and three `process(48000, 4800)` calls: it has
reached the sustain level 0.7. -/
def sustainedEnvelope : ADSREnvelope ℚ :=
  processCalls ratLibm (ADSREnvelope.init : ADSREnvelope ℚ).start
    [(48000, 4800), (48000, 4800), (48000, 4800)]

/-- A mono sample of eight frames with root note 60. -/
def rampSample : Sample ℚ :=
  ⟨[0, 1 / 4, 1 / 2, 3 / 4, 1, 3 / 4, 1 / 2, 1 / 4], 1, 48000, 8, 60, 0⟩

/-- A newly constructed voice after `startNote(60, 0.8, rampSample)`. -/
def rampVoice : SamSamplerVoice ℚ :=
  (SamSamplerVoice.init : SamSamplerVoice ℚ).startNote ratTables 60 (4 / 5) (some rampSample)

/-- A run of `SamSamplerDSP::process` calls, each given by its output buffers, channel count
and frame count; the rendered audio is dropped. -/
def processBlocks {α : Type} [LinearOrderedField α] [FloorRing α] (m : Libm α)
    (e : SamSamplerDSP α) : List ((Nat → Nat → α) × Nat × Nat) → SamSamplerDSP α
  | [] => e
  | b :: rest => processBlocks m (e.process m b.1 b.2.1 b.2.2).1 rest

/-- A voice that is still sounding is `t` frames into its release: it holds a valid sample,
its envelope is released with release time `R` and clock `t`, and every earlier step `k < t`
was made at a time `k / sampleRate` below `R`. -/
def Releasing {α : Type} [LinearOrderedField α] (sampleRate R : α) (t : Nat)
    (v : SamSamplerVoice α) : Prop :=
  v.isActive = true →
    sampleOk v.sample = true ∧ v.envelope.isReleased = true ∧ v.envelope.releaseTime = R
      ∧ v.envelope.envelopeTime = (t : α) ∧ ∀ k, k < t → (k : α) / sampleRate < R

/-- The total number of frames of a run of `process` calls. -/
def totalFrames {α : Type} (blocks : List ((Nat → Nat → α) × Nat × Nat)) : Nat :=
  (blocks.map (fun b => b.2.2)).sum

/-- A newly constructed engine after `prepare(8000, 512)` and `NOTE_ON(60, 0.8)`. -/
def noteOnEngine8k : SamSamplerDSP ℚ :=
  ((SamSamplerDSP.init : SamSamplerDSP ℚ).prepare ratLibm ratTables 8000 512).1.handleEvent
    ratTables (ScheduledEvent.NOTE_ON 60 (4 / 5))

/-! ## Parameter interface and SoundFont management -/

/-- Modelled from the spec: the helper `clamp(value, lo, hi)` of `NexSynthDSP.h`, which is not
among the sources.  Out-of-range values are "silently clamped" into the range. -/
def clamp {α : Type} [LinearOrderedField α] (value lo hi : α) : α :=
  max lo (min hi value)

namespace SamSamplerDSP

variable {α : Type} [LinearOrderedField α] [FloorRing α]

/-- Embedding of `SamSamplerDSP::getParameter`; an unrecognized name reads 0. -/
def getParameter (e : SamSamplerDSP α) (paramId : String) : α :=
  if paramId = "masterVolume" then e.params.masterVolume
  else if paramId = "pitchBendRange" then e.params.pitchBendRange
  else if paramId = "basePitch" then e.params.basePitch
  else if paramId = "envAttack" then e.params.envAttack
  else if paramId = "envHold" then e.params.envHold
  else if paramId = "envDecay" then e.params.envDecay
  else if paramId = "envSustain" then e.params.envSustain
  else if paramId = "envRelease" then e.params.envRelease
  else if paramId = "envAttackCurve" then (e.params.envAttackCurve : α)
  else if paramId = "envDecayCurve" then (e.params.envDecayCurve : α)
  else if paramId = "envReleaseCurve" then (e.params.envReleaseCurve : α)
  else if paramId = "filterCutoff" then e.params.filterCutoff
  else if paramId = "filterResonance" then e.params.filterResonance
  else if paramId = "filterEnabled" then (if e.params.filterEnabled then 1 else 0)
  else if paramId = "filterType" then (e.params.filterType : α)
  else 0

/-- The loop "update all active voices" of `SamSamplerDSP::setParameter`: every active voice
gets the filter settings of the parameter set. -/
def pushFilterToActiveVoices (p : Parameters α) (voices : List (SamSamplerVoice α)) :
    List (SamSamplerVoice α) :=
  voices.map (fun voice =>
    if voice.isActive then
      voice.setFilterParameters p.filterCutoff p.filterResonance p.filterType
    else voice)

/-- Embedding of `SamSamplerDSP::setParameter`; the logging of the old and new value is left
out, and an unrecognized name changes nothing. -/
def setParameter (e : SamSamplerDSP α) (paramId : String) (value : α) : SamSamplerDSP α :=
  if paramId = "masterVolume" then
    { e with params := { e.params with masterVolume := clamp value 0 1 } }
  else if paramId = "pitchBendRange" then
    { e with params := { e.params with pitchBendRange := clamp value 0 24 } }
  else if paramId = "basePitch" then
    { e with params := { e.params with basePitch := clamp value (1 / 10) 4 } }
  else if paramId = "envAttack" then
    { e with params := { e.params with envAttack := clamp value (1 / 1000) 5 } }
  else if paramId = "envHold" then
    { e with params := { e.params with envHold := clamp value 0 5 } }
  else if paramId = "envDecay" then
    { e with params := { e.params with envDecay := clamp value (1 / 1000) 5 } }
  else if paramId = "envSustain" then
    { e with params := { e.params with envSustain := clamp value 0 1 } }
  else if paramId = "envRelease" then
    { e with params := { e.params with envRelease := clamp value (1 / 1000) 5 } }
  else if paramId = "envAttackCurve" then
    { e with params := { e.params with envAttackCurve := truncToInt (clamp value 0 3) } }
  else if paramId = "envDecayCurve" then
    { e with params := { e.params with envDecayCurve := truncToInt (clamp value 0 3) } }
  else if paramId = "envReleaseCurve" then
    { e with params := { e.params with envReleaseCurve := truncToInt (clamp value 0 3) } }
  else if paramId = "filterCutoff" then
    { e with
      params := { e.params with filterCutoff := clamp value 20 20000 }
      voices := pushFilterToActiveVoices
        { e.params with filterCutoff := clamp value 20 20000 } e.voices }
  else if paramId = "filterResonance" then
    { e with
      params := { e.params with filterResonance := clamp value 0 1 }
      voices := pushFilterToActiveVoices
        { e.params with filterResonance := clamp value 0 1 } e.voices }
  else if paramId = "filterEnabled" then
    { e with params := { e.params with filterEnabled := decide (value > 1 / 2) } }
  else if paramId = "filterType" then
    { e with
      params := { e.params with filterType := truncToInt (clamp value 0 3) }
      voices := pushFilterToActiveVoices
        { e.params with filterType := truncToInt (clamp value 0 3) } e.voices }
  else e

/-- Embedding of `SamSamplerDSP::loadSoundFont`: the reader always exists after construction. -/
def loadSoundFont (m : Libm α) (lt : LookupTables α) (e : SamSamplerDSP α) (filePath : String) :
    SamSamplerDSP α × Bool :=
  ({ e with sf2Reader := (e.sf2Reader.loadFile m lt filePath).1 },
    (e.sf2Reader.loadFile m lt filePath).2)

/-- Embedding of `SamSamplerDSP::selectSoundFontInstrument`. -/
def selectSoundFontInstrument (e : SamSamplerDSP α) (index : Int) : SamSamplerDSP α × Bool :=
  if index ≥ 0 ∧ index < e.sf2Reader.getInstrumentCount then
    ({ e with currentSoundFontInstrument := index }, true)
  else (e, false)

end SamSamplerDSP

/-- One pass of the per-sample body of `StateVariableFilter::process` for a single channel:
from the states `(s1, s2)` and the input `x` to the new states and the output of the given
filter type. -/
def svfStep {α : Type} [LinearOrderedField α] (type : FilterType) (g R h x : α) (s : α × α) :
    α × α × α :=
  ((StateVariableFilter.processSample type g R h 0 0
      (fun _ => s.1, fun _ => s.2, fun _ _ => x)).1 0,
   (StateVariableFilter.processSample type g R h 0 0
      (fun _ => s.1, fun _ => s.2, fun _ _ => x)).2.1 0,
   (StateVariableFilter.processSample type g R h 0 0
      (fun _ => s.1, fun _ => s.2, fun _ _ => x)).2.2 0 0)

/-- The states after `n` samples of zero input from the states `s`. -/
def svfZeroInput {α : Type} [LinearOrderedField α] (g R h : α) (s : α × α) : Nat → α × α
  | 0 => s
  | n + 1 =>
    ((svfStep FilterType.Lowpass g R h 0 (svfZeroInput g R h s n)).1,
     (svfStep FilterType.Lowpass g R h 0 (svfZeroInput g R h s n)).2.1)

/-- The determinant of the zero-input state update of the filter body. -/
def svfDet {α : Type} [LinearOrderedField α] (g R h : α) : α :=
  1 - 2 * g * (1 + g * 2 * R) * h + 2 * g ^ 4 * h

/-- The coefficients `(g, R, h)` that `StateVariableFilter::process` computes on its first call
for a filter with the default settings (cutoff 20000 Hz, resonance 0, sample rate 48000 Hz)
after `prepare(48000)`. -/
def defaultCoefficients {α : Type} [LinearOrderedField α] (m : Libm α) : α × α × α :=
  ((((StateVariableFilter.init : StateVariableFilter α).prepare 48000).process m
      (fun _ _ => 0) 1 0).1.cachedG,
   (((StateVariableFilter.init : StateVariableFilter α).prepare 48000).process m
      (fun _ _ => 0) 1 0).1.cachedR,
   (((StateVariableFilter.init : StateVariableFilter α).prepare 48000).process m
      (fun _ _ => 0) 1 0).1.cachedH)

/-- The documented range of each continuous parameter of the parameter interface, by name. -/
def documentedRange {α : Type} [LinearOrderedField α] : List (String × α × α) :=
  [("masterVolume", 0, 1), ("pitchBendRange", 0, 24), ("basePitch", 1 / 10, 4),
   ("envAttack", 1 / 1000, 5), ("envDecay", 1 / 1000, 5), ("envRelease", 1 / 1000, 5),
   ("envHold", 0, 5), ("envSustain", 0, 1), ("filterCutoff", 20, 20000),
   ("filterResonance", 0, 1)]

/-- The names of the selector parameters, stored as integers in 0..3. -/
def selectorNames : List String :=
  ["envAttackCurve", "envDecayCurve", "envReleaseCurve", "filterType"]

/-- A call of one of the public members of `SamSamplerDSP` that change the engine
(`loadPreset` apart). -/
inductive EngineCall (α : Type) where
  | setParameter (paramId : String) (value : α)
  | prepare (sampleRate : α) (blockSize : Int)
  | reset
  | handleEvent (event : ScheduledEvent α)
  | process (outputs : Nat → Nat → α) (numChannels numSamples : Nat)
  | loadSoundFont (filePath : String)
  | selectSoundFontInstrument (index : Int)

/-- The engine after a call. -/
def EngineCall.apply {α : Type} [LinearOrderedField α] [FloorRing α] (m : Libm α)
    (lt : LookupTables α) (e : SamSamplerDSP α) : EngineCall α → SamSamplerDSP α
  | EngineCall.setParameter paramId value => e.setParameter paramId value
  | EngineCall.prepare sampleRate blockSize => (e.prepare m lt sampleRate blockSize).1
  | EngineCall.reset => e.reset
  | EngineCall.handleEvent event => e.handleEvent lt event
  | EngineCall.process outputs numChannels numSamples =>
    (e.process m outputs numChannels numSamples).1
  | EngineCall.loadSoundFont filePath => (e.loadSoundFont m lt filePath).1
  | EngineCall.selectSoundFontInstrument index => (e.selectSoundFontInstrument index).1

/-- The ranges that the stored parameters keep: the documented range of every parameter of the
interface, except that `masterVolume` may be as large as its default 1.1. -/
def ParamsInRange {α : Type} [LinearOrderedField α] (p : Parameters α) : Prop :=
  (0 ≤ p.masterVolume ∧ p.masterVolume ≤ 11 / 10)
    ∧ (0 ≤ p.pitchBendRange ∧ p.pitchBendRange ≤ 24)
    ∧ (1 / 10 ≤ p.basePitch ∧ p.basePitch ≤ 4)
    ∧ (1 / 1000 ≤ p.envAttack ∧ p.envAttack ≤ 5)
    ∧ (0 ≤ p.envHold ∧ p.envHold ≤ 5)
    ∧ (1 / 1000 ≤ p.envDecay ∧ p.envDecay ≤ 5)
    ∧ (0 ≤ p.envSustain ∧ p.envSustain ≤ 1)
    ∧ (1 / 1000 ≤ p.envRelease ∧ p.envRelease ≤ 5)
    ∧ (0 ≤ p.envAttackCurve ∧ p.envAttackCurve ≤ 3)
    ∧ (0 ≤ p.envDecayCurve ∧ p.envDecayCurve ≤ 3)
    ∧ (0 ≤ p.envReleaseCurve ∧ p.envReleaseCurve ≤ 3)
    ∧ (20 ≤ p.filterCutoff ∧ p.filterCutoff ≤ 20000)
    ∧ (0 ≤ p.filterResonance ∧ p.filterResonance ≤ 1)
    ∧ (0 ≤ p.filterType ∧ p.filterType ≤ 3)

/-! ## Concrete event sequences -/

/-- The (note, velocity) pairs of `k` NOTE_ON events with the distinct notes 1, 2, ..., `k`
in this order, all with velocity 0.8. -/
def notesUpTo (k : Nat) : List (Int × ℚ) :=
  (List.range k).map (fun i => ((i : Int) + 1, 4 / 5))

/-- The number of active voices bound to note `n` whose envelope has not been released. -/
def unreleasedCount {α : Type} (e : SamSamplerDSP α) (n : Int) : Nat :=
  e.voices.countP (fun v => v.isActive && decide (v.midiNote = n) && !v.envelope.isReleased)

/-- The prepared engine after two `NOTE_ON(60, 0.8)` events and one `NOTE_OFF(60)`. -/
def twoOnOneOffEngine : SamSamplerDSP ℚ :=
  (SamSamplerDSP.handleNoteOns ratTables preparedEngine [(60, 4 / 5), (60, 4 / 5)]).handleEvent
    ratTables (ScheduledEvent.NOTE_OFF 60 0)

/-- A newly constructed engine after `loadSoundFont("piano.sf2")`. -/
def soundFontEngine : SamSamplerDSP ℚ :=
  ((SamSamplerDSP.init : SamSamplerDSP ℚ).loadSoundFont ratLibm ratTables "piano.sf2").1

/-! ## Instrumented copies: divisors and buffer indices -/

/-- The divisors among `attack`, `decay` and `releaseTime` of the divisions that one call of
`ADSREnvelope::process` evaluates, by the branch the call takes. -/
def ADSREnvelope.processDivisors {α : Type} [LinearOrderedField α] (e : ADSREnvelope α)
    (sampleRate : α) : List α :=
  if !e.isActive then []
  else
    let time := e.envelopeTime / sampleRate
    if !e.isReleased then
      if time < e.attack then [e.attack]
      else if time < e.attack + e.hold then []
      else if time < e.attack + e.hold + e.decay then [e.decay]
      else []
    else
      if time < e.releaseTime then [e.releaseTime]
      else []

/-- The indices of `audioData` that one call of `SamSamplerVoice::interpolateLinear` reads,
in the order of the two reads. -/
def SamSamplerVoice.interpolateLinearReads {α : Type} [LinearOrderedField α] [FloorRing α]
    (v : SamSamplerVoice α) (position : α) : List Int :=
  match v.sample with
  | none => []
  | some smp =>
    if !smp.isValid then []
    else
      let index0 := truncToInt position
      let index1 := wrapInt (index0 + 1)
      if smp.numChannels = 1 then
        if index0 ≥ 0 ∧ index0 < wrapInt (smp.numSamples - 1) then [index0, index1]
        else []
      else if smp.numChannels = 2 then
        let index0 := wrapInt (index0 * 2)
        let index1 := wrapInt (index0 + 2)
        if index0 ≥ 0 ∧ index0 < wrapInt (wrapInt (smp.numSamples * 2) - 2) then
          [index0, index1]
        else []
      else []

/-- The indices of `audioData` that one call of `SamSamplerVoice::interpolateCubic` reads, in
the order `y0`, `y1`, `y2`, `y3`; those of the fall-back call of `interpolateLinear` when the
call falls back. -/
def SamSamplerVoice.interpolateCubicReads {α : Type} [LinearOrderedField α] [FloorRing α]
    (v : SamSamplerVoice α) (position : α) : List Int :=
  match v.sample with
  | none => []
  | some smp =>
    if !smp.isValid then []
    else
      let index := truncToInt position
      if smp.numChannels = 1 then
        if index ≥ 1 ∧ index < wrapInt (smp.numSamples - 2) then
          [wrapInt (index - 1), index, wrapInt (index + 1), wrapInt (index + 2)]
        else v.interpolateLinearReads position
      else if smp.numChannels = 2 then
        let index := wrapInt (index * 2)
        if index ≥ 2 ∧ index < wrapInt (wrapInt (smp.numSamples * 2) - 4) then
          [wrapInt (index - 2), index, wrapInt (index + 2), wrapInt (index + 4)]
        else v.interpolateLinearReads position
      else v.interpolateLinearReads position

/-- The blend weight of the loop crossfade as the specification words it: with crossfade
length `c`, `w = clamp(1 - (loopEnd - position) / c, 0, 1)`. -/
def crossfadeWeight {α : Type} [LinearOrderedField α] (c loopEnd position : α) : α :=
  clamp (1 - (loopEnd - position) / c) 0 1

/-- A newly constructed filter after `prepare(48000)` and `setParameters(1000, 0.5)`. -/
def retunedFilter {α : Type} [LinearOrderedField α] : StateVariableFilter α :=
  ((StateVariableFilter.init : StateVariableFilter α).prepare 48000).setParameters 1000 (1 / 2)

/-- The filter after `process` calls on `k` blocks of one channel and one silent frame. -/
def filterAfterBlocks {α : Type} [LinearOrderedField α] (m : Libm α)
    (f : StateVariableFilter α) : Nat → StateVariableFilter α
  | 0 => f
  | k + 1 => ((filterAfterBlocks m f k).process m (fun _ _ => 0) 1 1).1

/-- The voice `rampVoice` with looping switched on: loop from frame 1 to frame 6 with a
crossfade of 1/24000 s, which is two frames at the sample's 48000 Hz. -/
def loopingRampVoice : SamSamplerVoice ℚ :=
  { rampVoice with isLooping := true, loopStart := 1, loopEnd := 6, loopCrossfade := 1 / 24000 }

/-! ## Preset text

The C library calls of the preset code (`snprintf` with `%.6f`, `strstr`, `strlen`, `atof`,
`memcpy`) on texts given as lists of characters.  A C string is the list of its characters
before the terminating NUL. -/

/-- The decimal digit of a value below 10. -/
def digitChar (d : Nat) : Char :=
  match d with
  | 0 => '0'
  | 1 => '1'
  | 2 => '2'
  | 3 => '3'
  | 4 => '4'
  | 5 => '5'
  | 6 => '6'
  | 7 => '7'
  | 8 => '8'
  | _ => '9'

/-- The value of a decimal digit, `none` for any other character. -/
def digitValue (c : Char) : Option Nat :=
  if c = '0' then some 0
  else if c = '1' then some 1
  else if c = '2' then some 2
  else if c = '3' then some 3
  else if c = '4' then some 4
  else if c = '5' then some 5
  else if c = '6' then some 6
  else if c = '7' then some 7
  else if c = '8' then some 8
  else if c = '9' then some 9
  else none

/-- The decimal digits of `n`, most significant first, by at most `fuel + 1` divisions. -/
def natDigitsAux : Nat → Nat → List Char
  | 0, n => [digitChar (n % 10)]
  | fuel + 1, n =>
    if n < 10 then [digitChar n] else natDigitsAux fuel (n / 10) ++ [digitChar (n % 10)]

/-- The decimal digits of `n`, most significant first, without leading zeros (`0` is one
digit). -/
def natDigits (n : Nat) : List Char :=
  natDigitsAux n n

/-- The last `k` decimal digits of `n`, most significant first, with leading zeros. -/
def fixedDigits : Nat → Nat → List Char
  | 0, _ => []
  | k + 1, n => fixedDigits k (n / 10) ++ [digitChar (n % 10)]

/-- The integer nearest to `x ≥ 0`, a tie going to the even neighbour: the rounding of the
decimal conversions of `printf`. -/
def roundHalfEven {α : Type} [LinearOrderedField α] [FloorRing α] (x : α) : Nat :=
  if x - ((Int.floor x).toNat : α) < 1 / 2 then (Int.floor x).toNat
  else if 1 / 2 < x - ((Int.floor x).toNat : α) then (Int.floor x).toNat + 1
  else if (Int.floor x).toNat % 2 = 0 then (Int.floor x).toNat
  else (Int.floor x).toNat + 1

/-- The text that `snprintf` writes for the conversion `%.6f`: a minus sign for a negative
value, the integer part, the point and six digits of the fraction, rounded. -/
def formatFixed6 {α : Type} [LinearOrderedField α] [FloorRing α] (value : α) : List Char :=
  (if value < 0 then ['-'] else [])
    ++ natDigits (roundHalfEven (|value| * 1000000) / 1000000)
    ++ '.' :: fixedDigits 6 (roundHalfEven (|value| * 1000000) % 1000000)

/-- The value `value` rounded to six decimal places, as `%.6f` prints it. -/
def round6 {α : Type} [LinearOrderedField α] [FloorRing α] (value : α) : α :=
  (if value < 0 then -1 else 1) * ((roundHalfEven (|value| * 1000000) : Nat) : α) / 1000000

/-- The C predicate `isspace` in the "C" locale. -/
def isSpace (c : Char) : Bool :=
  c = ' ' ∨ c = '\t' ∨ c = '\n' ∨ c = '\x0b' ∨ c = '\x0c' ∨ c = '\r'

/-- The longest run of decimal digits at the start of a text: the number read so far, the
count of digits read so far, and the rest of the text. -/
def readDigits : Nat → Nat → List Char → Nat × Nat × List Char
  | acc, count, [] => (acc, count, [])
  | acc, count, c :: rest =>
    match digitValue c with
    | some d => readDigits (acc * 10 + d) (count + 1) rest
    | none => (acc, count, c :: rest)

/-- The C library function `atof` on decimal texts: white space, an optional sign, digits
with an optional point, and an optional exponent; 0 when there is no digit.  The hexadecimal,
infinity and NaN forms are not modelled. -/
def atof {α : Type} [LinearOrderedField α] (s : List Char) : α :=
  let s1 := s.dropWhile isSpace
  let s2 := if s1.head? = some '-' ∨ s1.head? = some '+' then s1.tail else s1
  let ip := readDigits 0 0 s2
  let fp := if ip.2.2.head? = some '.' then readDigits 0 0 ip.2.2.tail else (0, 0, ip.2.2)
  let s4 := fp.2.2
  let s5 := if s4.tail.head? = some '-' ∨ s4.tail.head? = some '+' then s4.tail.tail else s4.tail
  let ed := readDigits 0 0 s5
  let ex : Int :=
    if (s4.head? = some 'e' ∨ s4.head? = some 'E') ∧ ed.2.1 ≠ 0 then
      (if s4.tail.head? = some '-' then -(ed.1 : Int) else (ed.1 : Int))
    else 0
  if ip.2.1 = 0 ∧ fp.2.1 = 0 then 0
  else (if s1.head? = some '-' then -1 else 1)
    * ((ip.1 : α) + (fp.1 : α) / 10 ^ fp.2.1) * 10 ^ ex

/-- The C library function `strstr`: the rest of the text from the first occurrence of
`needle` on, `none` (the null pointer) when there is none. -/
def strstr : List Char → List Char → Option (List Char)
  | [], needle => if needle.isEmpty then some [] else none
  | c :: rest, needle =>
    if needle.isPrefixOf (c :: rest) then some (c :: rest) else strstr rest needle

/-- The C string stored in a buffer: the characters before the first NUL. -/
def cString (buffer : List Char) : List Char :=
  buffer.takeWhile (fun c => c ≠ '\x00')

/-- The statement pair `if (offset >= jsonBufferSize) return false; jsonBuffer[offset++] = c;`
of `savePreset`: `buffer` holds the `offset` characters written so far, `none` is the
`return false`. -/
def putChar (c : Char) (buffer : List Char) (bufferSize : Int) : Option (List Char) :=
  if (buffer.length : Int) ≥ bufferSize then none else some (buffer ++ [c])

/-- The text that `snprintf` writes for the format `"%s":%.6f`: the name in double quotes, a
colon and the value.  The code `\x22` is the double quote. -/
def formatJsonParameter {α : Type} [LinearOrderedField α] [FloorRing α] (name : String)
    (value : α) : List Char :=
  '\x22' :: name.toList ++ '\x22' :: ':' :: formatFixed6 value

namespace SamSamplerDSP

variable {α : Type} [LinearOrderedField α] [FloorRing α]

/-- Embedding of `SamSamplerDSP::writeJsonParameter`: `buffer` holds the `offset` characters
written so far, `none` is the `return false`.  `snprintf(temp, sizeof(temp), ...)` returns the
length `len` of the whole formatted text and stores at most 127 of its characters and a NUL in
`char temp[128]`; `memcpy` then copies `len` characters from `temp`.  For `len` of 128 or more
these are the 127 stored characters, the NUL and `len - 128` characters read past the end of
the array (undefined behaviour in C++; they are NUL in the model). -/
def writeJsonParameter (name : String) (value : α) (buffer : List Char) (bufferSize : Int) :
    Option (List Char) :=
  let text := formatJsonParameter name value
  let len := text.length
  let temp := text.take 127 ++ ['\x00']
  if (buffer.length : Int) + (len : Int) ≥ bufferSize then none
  else some (buffer ++ (temp ++ List.replicate (len - 128) '\x00').take len)

/-- Embedding of `SamSamplerDSP::parseJsonParameter`: the parsed value, `none` for
`return false`.  The key is formatted into `char search[128]`, which holds at most 127
characters of it. -/
def parseJsonParameter (json : List Char) (param : String) : Option α :=
  let search := ('\x22' :: param.toList ++ ['\x22', ':']).take 127
  match strstr json search with
  | none => none
  | some found => some (atof (found.drop search.length))

/-- Embedding of `SamSamplerDSP::savePreset` for a non-null buffer of `jsonBufferSize`
characters: the characters written, the terminating NUL included, when the call returns true,
and `none` when it returns false.  The codes `\x7b` and `\x7d` are the braces. -/
def savePreset (e : SamSamplerDSP α) (jsonBufferSize : Int) : Option (List Char) :=
  if jsonBufferSize ≤ 0 then none
  else do
    let b ← putChar '\x7b' [] jsonBufferSize
    let b ← writeJsonParameter "masterVolume" e.params.masterVolume b jsonBufferSize
    let b ← putChar ',' b jsonBufferSize
    let b ← writeJsonParameter "pitchBendRange" e.params.pitchBendRange b jsonBufferSize
    let b ← putChar ',' b jsonBufferSize
    let b ← writeJsonParameter "envAttack" e.params.envAttack b jsonBufferSize
    let b ← putChar ',' b jsonBufferSize
    let b ← writeJsonParameter "envDecay" e.params.envDecay b jsonBufferSize
    let b ← putChar ',' b jsonBufferSize
    let b ← writeJsonParameter "envSustain" e.params.envSustain b jsonBufferSize
    let b ← putChar ',' b jsonBufferSize
    let b ← writeJsonParameter "envRelease" e.params.envRelease b jsonBufferSize
    let b ← putChar '\x7d' b jsonBufferSize
    putChar '\x00' b jsonBufferSize

/-- Embedding of `SamSamplerDSP::loadPreset` for a non-null C string: each of the six
assignments is made when `parseJsonParameter` finds the key, and the field keeps its value
otherwise. -/
def loadPreset (e : SamSamplerDSP α) (jsonData : List Char) : SamSamplerDSP α × Bool :=
  ({ e with params := { e.params with
      masterVolume :=
        (parseJsonParameter jsonData "masterVolume").getD e.params.masterVolume
      pitchBendRange :=
        (parseJsonParameter jsonData "pitchBendRange").getD e.params.pitchBendRange
      envAttack := (parseJsonParameter jsonData "envAttack").getD e.params.envAttack
      envDecay := (parseJsonParameter jsonData "envDecay").getD e.params.envDecay
      envSustain := (parseJsonParameter jsonData "envSustain").getD e.params.envSustain
      envRelease := (parseJsonParameter jsonData "envRelease").getD e.params.envRelease } },
    true)

end SamSamplerDSP

/-- The names of the parameters that the preset record holds. -/
def presetNames : List String :=
  ["masterVolume", "pitchBendRange", "envAttack", "envDecay", "envSustain", "envRelease"]

/-- The names of the other parameters that `getParameter` reads. -/
def unsavedNames : List String :=
  ["basePitch", "envHold", "envAttackCurve", "envDecayCurve", "envReleaseCurve", "filterCutoff",
   "filterResonance", "filterEnabled", "filterType"]

/-- The text of the preset record of a parameter set, without the terminating NUL: the six
fields in braces, separated by commas. -/
def presetRecord {α : Type} [LinearOrderedField α] [FloorRing α] (p : Parameters α) :
    List Char :=
  '\x7b' :: (formatJsonParameter "masterVolume" p.masterVolume
    ++ ',' :: (formatJsonParameter "pitchBendRange" p.pitchBendRange
    ++ ',' :: (formatJsonParameter "envAttack" p.envAttack
    ++ ',' :: (formatJsonParameter "envDecay" p.envDecay
    ++ ',' :: (formatJsonParameter "envSustain" p.envSustain
    ++ ',' :: (formatJsonParameter "envRelease" p.envRelease ++ ['\x7d']))))))

/-- A newly constructed engine after `setParameter("envAttack", 0.05)`,
`setParameter("masterVolume", 0.8)` and `setParameter("envHold", 1)`. -/
def presetEngine : SamSamplerDSP ℚ :=
  (((SamSamplerDSP.init : SamSamplerDSP ℚ).setParameter "envAttack" (1 / 20)).setParameter
    "masterVolume" (4 / 5)).setParameter "envHold" 1

/-- Each of the six fields of the preset record is shorter than the 128 characters of the
local array `temp` of `writeJsonParameter`. -/
def PresetFieldsFit {α : Type} [LinearOrderedField α] [FloorRing α] (p : Parameters α) : Prop :=
  (formatJsonParameter "masterVolume" p.masterVolume).length < 128
    ∧ (formatJsonParameter "pitchBendRange" p.pitchBendRange).length < 128
    ∧ (formatJsonParameter "envAttack" p.envAttack).length < 128
    ∧ (formatJsonParameter "envDecay" p.envDecay).length < 128
    ∧ (formatJsonParameter "envSustain" p.envSustain).length < 128
    ∧ (formatJsonParameter "envRelease" p.envRelease).length < 128

/-- A newly constructed engine after `loadPreset` of a text that gives `masterVolume` the
value 10^120: the value is stored as it is. -/
def hugeVolumeEngine : SamSamplerDSP ℚ :=
  ((SamSamplerDSP.init : SamSamplerDSP ℚ).loadPreset
    ("\x7b\"masterVolume\":1" ++ String.mk (List.replicate 120 '0') ++ "\x7d").toList).1

/-- A stereo sample of eight frames with the same value in both channels of a frame. -/
def stereoRampSample : Sample ℚ :=
  ⟨[0, 0, 1 / 4, 1 / 4, 1 / 2, 1 / 2, 3 / 4, 3 / 4, 1, 1, 3 / 4, 3 / 4, 1 / 2, 1 / 2,
    1 / 4, 1 / 4], 2, 48000, 8, 60, 0⟩

/-- A newly constructed voice after `startNote(60, 0.8, stereoRampSample)`. -/
def stereoRampVoice : SamSamplerVoice ℚ :=
  (SamSamplerVoice.init : SamSamplerVoice ℚ).startNote ratTables 60 (4 / 5)
    (some stereoRampSample)

/-- The six parameters of the preset record are within their documented ranges. -/
def PresetValuesInRange {α : Type} [LinearOrderedField α] (p : Parameters α) : Prop :=
  (0 ≤ p.masterVolume ∧ p.masterVolume ≤ 1)
    ∧ (0 ≤ p.pitchBendRange ∧ p.pitchBendRange ≤ 24)
    ∧ (1 / 1000 ≤ p.envAttack ∧ p.envAttack ≤ 5)
    ∧ (1 / 1000 ≤ p.envDecay ∧ p.envDecay ≤ 5)
    ∧ (0 ≤ p.envSustain ∧ p.envSustain ≤ 1)
    ∧ (1 / 1000 ≤ p.envRelease ∧ p.envRelease ≤ 5)

/-! # Theorems -/

/-! ## Integer conversion -/

section IntConversion

variable {α : Type} [LinearOrderedField α] [FloorRing α]

theorem truncToInt_bounds (x : α) :
    -2147483648 ≤ truncToInt x ∧ truncToInt x ≤ 2147483647 := by
  unfold truncToInt
  split_ifs <;> omega

/-- Within the range of `int` the conversion of an integer value is that integer. -/
theorem truncToInt_intCast (p : Int) (h1 : -2147483648 ≤ p) (h2 : p ≤ 2147483647) :
    truncToInt ((p : Int) : α) = p := by
  have ht : (if (0 : α) ≤ ((p : Int) : α) then Int.floor ((p : Int) : α)
      else Int.ceil ((p : Int) : α)) = p := by
    split_ifs
    · exact Int.floor_intCast p
    · exact Int.ceil_intCast p
  unfold truncToInt
  rw [ht, if_neg (by omega), if_neg (by omega)]

/-- The conversion of a value that is at least `N ≥ 0` is at least `N`, or the largest
`int`. -/
theorem truncToInt_ge (x : α) (N : Int) (hN : 0 ≤ N) (h : (N : α) ≤ x) :
    N ≤ truncToInt x ∨ truncToInt x = 2147483647 := by
  have h0 : (0 : α) ≤ x := le_trans (by exact_mod_cast hN) h
  have hf : N ≤ Int.floor x := Int.le_floor.mpr h
  unfold truncToInt
  simp only [if_pos h0]
  split_ifs <;> omega

/-- The conversion of a value in [0, 2^31) is its floor. -/
theorem truncToInt_of_nonneg (x : α) (h0 : 0 ≤ x) (h1 : x < 2147483648) :
    truncToInt x = Int.floor x := by
  have hf0 : 0 ≤ Int.floor x := Int.floor_nonneg.mpr h0
  have hf1 : Int.floor x < 2147483648 := by
    have : ((Int.floor x : Int) : α) < ((2147483648 : Int) : α) :=
      lt_of_le_of_lt (Int.floor_le x) (by exact_mod_cast h1)
    exact_mod_cast this
  unfold truncToInt
  simp only [if_pos h0]
  rw [if_neg (by omega), if_neg (by omega)]

theorem wrapInt_of_mem (x : Int) (h1 : -2147483648 ≤ x) (h2 : x ≤ 2147483647) :
    wrapInt x = x := by
  unfold wrapInt
  omega

end IntConversion

/-! ## Voice pool -/

section VoicePool

variable {α : Type} [LinearOrderedField α] [FloorRing α]

theorem countP_modify_of_inactive {β : Type} (p : β → Bool) (f : β → β)
    (hf : ∀ v, p (f v) = true) :
    ∀ (l : List β) (i : Nat) (hi : i < l.length), p (l.get ⟨i, hi⟩) = false →
      (l.modify f i).countP p = l.countP p + 1
  | [], i, hi, _ => by simp at hi
  | a :: l, 0, _, h => by
    simp at h
    simp [List.modify, List.countP_cons, hf, h]
  | a :: l, i + 1, hi, h => by
    simp at h hi
    have ih := countP_modify_of_inactive p f hf l i hi h
    simp [List.countP_cons, ih]
    omega

theorem countP_modify_of_active {β : Type} (p : β → Bool) (f : β → β)
    (hf : ∀ v, p (f v) = true) :
    ∀ (l : List β) (i : Nat) (hi : i < l.length), p (l.get ⟨i, hi⟩) = true →
      (l.modify f i).countP p = l.countP p
  | [], i, hi, _ => by simp at hi
  | a :: l, 0, _, h => by
    simp at h
    simp [List.modify, List.countP_cons, hf, h]
  | a :: l, i + 1, hi, h => by
    simp at h hi
    have ih := countP_modify_of_active p f hf l i hi h
    simp [List.countP_cons, ih]

theorem noteOnVoice_isActive (lt : LookupTables α) (e : SamSamplerDSP α) (n : Int) (vel : α)
    (v : SamSamplerVoice α) : (SamSamplerDSP.noteOnVoice lt e n vel v).isActive = true := by
  unfold SamSamplerDSP.noteOnVoice
  by_cases h : e.params.filterEnabled = true <;>
    simp [h, SamSamplerVoice.setEnvelopeParameters, SamSamplerVoice.setFilterParameters,
      SamSamplerVoice.startNote]

theorem noteOnVoice_midiNote (lt : LookupTables α) (e : SamSamplerDSP α) (n : Int) (vel : α)
    (v : SamSamplerVoice α) : (SamSamplerDSP.noteOnVoice lt e n vel v).midiNote = n := by
  unfold SamSamplerDSP.noteOnVoice
  by_cases h : e.params.filterEnabled = true <;>
    simp [h, SamSamplerVoice.setEnvelopeParameters, SamSamplerVoice.setFilterParameters,
      SamSamplerVoice.startNote]

theorem handleEvent_noteOn (lt : LookupTables α) (e : SamSamplerDSP α) (n : Int) (vel : α)
    (slot : Nat) (h : e.findFreeVoice = some slot) :
    e.handleEvent lt (ScheduledEvent.NOTE_ON n vel) =
      { e with voices := e.voices.modify (SamSamplerDSP.noteOnVoice lt e n vel) slot } := by
  simp only [SamSamplerDSP.handleEvent, h]
  rfl

/-- One NOTE_ON on a pool of positive size: the count goes up by one, capped at the pool size,
the pool size is kept, and the note is bound to an active voice. -/
theorem noteOn_step (lt : LookupTables α) (e : SamSamplerDSP α) (n : Int) (vel : α)
    (hlen : 0 < e.voices.length) :
    ((e.handleEvent lt (ScheduledEvent.NOTE_ON n vel)).voices.countP (fun v => v.isActive)
        = min (e.voices.countP (fun v => v.isActive) + 1) e.voices.length)
      ∧ (e.handleEvent lt (ScheduledEvent.NOTE_ON n vel)).voices.length = e.voices.length
      ∧ ∃ v ∈ (e.handleEvent lt (ScheduledEvent.NOTE_ON n vel)).voices,
          v.isActive = true ∧ v.midiNote = n := by
  have key : ∀ slot (hs : slot < e.voices.length),
      (e.voices.modify (SamSamplerDSP.noteOnVoice lt e n vel) slot).length = e.voices.length ∧
      ∃ v ∈ e.voices.modify (SamSamplerDSP.noteOnVoice lt e n vel) slot, v.isActive = true ∧ v.midiNote = n := by
    intro slot hs
    refine ⟨List.length_modify _ _ _, ⟨SamSamplerDSP.noteOnVoice lt e n vel (e.voices.get ⟨slot, hs⟩), ?_,
      noteOnVoice_isActive lt e n vel _, noteOnVoice_midiNote lt e n vel _⟩⟩
    have hs2 : slot < (e.voices.modify (SamSamplerDSP.noteOnVoice lt e n vel) slot).length := by
      rw [List.length_modify]; exact hs
    have := List.getElem_mem hs2
    rw [List.getElem_modify_eq] at this
    exact this
  cases hfind : e.voices.findIdx? (fun v => !v.isActive) with
  | some slot =>
    have hfree : e.findFreeVoice = some slot := by simp [SamSamplerDSP.findFreeVoice, hfind]
    rw [handleEvent_noteOn lt e n vel slot hfree]
    obtain ⟨hs, hp, -⟩ := List.findIdx?_eq_some_iff_getElem.mp hfind
    have hinact : (fun v : SamSamplerVoice α => v.isActive) (e.voices.get ⟨slot, hs⟩) = false := by
      simpa using hp
    have hcount := countP_modify_of_inactive (fun v : SamSamplerVoice α => v.isActive)
      (SamSamplerDSP.noteOnVoice lt e n vel) (noteOnVoice_isActive lt e n vel) e.voices slot hs hinact
    have hlt : e.voices.countP (fun v => v.isActive) < e.voices.length := by
      refine lt_of_le_of_ne (List.countP_le_length _) ?_
      intro heq
      have hall := (List.countP_eq_length.mp heq) _ (List.getElem_mem hs)
      simp at hinact
      simp [hinact] at hall
    refine ⟨?_, key slot hs⟩
    show (e.voices.modify (SamSamplerDSP.noteOnVoice lt e n vel) slot).countP _ = _
    rw [hcount]
    omega
  | none =>
    have hfree : e.findFreeVoice = some 0 := by simp [SamSamplerDSP.findFreeVoice, hfind, hlen]
    rw [handleEvent_noteOn lt e n vel 0 hfree]
    have hall : ∀ v ∈ e.voices, v.isActive = true := by
      intro v hv
      have := (List.findIdx?_eq_none_iff.mp hfind) v hv
      simpa using this
    have hact : (fun v : SamSamplerVoice α => v.isActive) (e.voices.get ⟨0, hlen⟩) = true :=
      hall _ (List.get_mem _ _ _)
    have hcount := countP_modify_of_active (fun v : SamSamplerVoice α => v.isActive)
      (SamSamplerDSP.noteOnVoice lt e n vel) (noteOnVoice_isActive lt e n vel) e.voices 0 hlen hact
    have hfull : e.voices.countP (fun v => v.isActive) = e.voices.length :=
      List.countP_eq_length.mpr (by simpa using hall)
    refine ⟨?_, key 0 hlen⟩
    show (e.voices.modify (SamSamplerDSP.noteOnVoice lt e n vel) 0).countP _ = _
    rw [hcount, hfull]
    omega

theorem handleNoteOns_count (lt : LookupTables α) (notes : List (Int × α)) :
    ∀ (e : SamSamplerDSP α), 0 < e.voices.length →
      (SamSamplerDSP.handleNoteOns lt e notes).voices.length = e.voices.length ∧
      (SamSamplerDSP.handleNoteOns lt e notes).voices.countP (fun v => v.isActive)
        = min (e.voices.countP (fun v => v.isActive) + notes.length) e.voices.length := by
  induction notes with
  | nil =>
    intro e _
    have := List.countP_le_length (fun v : SamSamplerVoice α => v.isActive) (l := e.voices)
    simp [SamSamplerDSP.handleNoteOns]
    omega
  | cons ev rest ih =>
    intro e hlen
    obtain ⟨hc, hl, -⟩ := noteOn_step lt e ev.1 ev.2 hlen
    have ih2 := ih (e.handleEvent lt (ScheduledEvent.NOTE_ON ev.1 ev.2)) (by omega)
    simp only [SamSamplerDSP.handleNoteOns, List.foldl_cons] at ih2 ⊢
    rw [ih2.1, ih2.2, hl, hc]
    refine ⟨rfl, ?_⟩
    simp only [List.length_cons]
    omega

theorem handleNoteOns_append (lt : LookupTables α) (e : SamSamplerDSP α)
    (xs ys : List (Int × α)) :
    SamSamplerDSP.handleNoteOns lt e (xs ++ ys)
      = SamSamplerDSP.handleNoteOns lt (SamSamplerDSP.handleNoteOns lt e xs) ys := by
  simp [SamSamplerDSP.handleNoteOns, List.foldl_append]

end VoicePool

/-- C1: on a pool of 16 voices one NOTE_ON (any note, any velocity, any sample cache) makes
the active count `min (c + 1) 16`, which is at most `getMaxPolyphony`, and binds the note to
an active voice; from an all-inactive pool, `k` consecutive NOTE_ONs give the count
`min k 16`, at most `getMaxPolyphony`, with the last note bound to an active voice. -/
theorem C1_noteOn_voice_pool_bound {α : Type} [LinearOrderedField α] [FloorRing α]
    (lt : LookupTables α) (e : SamSamplerDSP α) (hlen : e.voices.length = maxVoices) :
    (∀ (n : Int) (vel : α),
      (e.handleEvent lt (ScheduledEvent.NOTE_ON n vel)).getActiveVoiceCount
          = min (e.getActiveVoiceCount + 1) 16
        ∧ (e.handleEvent lt (ScheduledEvent.NOTE_ON n vel)).getActiveVoiceCount
            ≤ (e.handleEvent lt (ScheduledEvent.NOTE_ON n vel)).getMaxPolyphony
        ∧ ∃ v ∈ (e.handleEvent lt (ScheduledEvent.NOTE_ON n vel)).voices,
            v.isActive = true ∧ v.midiNote = n)
    ∧ ((∀ v ∈ e.voices, v.isActive = false) → ∀ (notes : List (Int × α)),
      (SamSamplerDSP.handleNoteOns lt e notes).getActiveVoiceCount = min (notes.length : Int) 16
        ∧ (SamSamplerDSP.handleNoteOns lt e notes).getActiveVoiceCount
            ≤ (SamSamplerDSP.handleNoteOns lt e notes).getMaxPolyphony
        ∧ ∀ last, notes.getLast? = some last →
            ∃ v ∈ (SamSamplerDSP.handleNoteOns lt e notes).voices,
              v.isActive = true ∧ v.midiNote = last.1) := by
  have hpos : 0 < e.voices.length := by rw [hlen]; decide
  have h16 : e.voices.length = 16 := hlen
  constructor
  · intro n vel
    obtain ⟨hc, hl, hex⟩ := noteOn_step lt e n vel hpos
    refine ⟨?_, ?_, hex⟩
    · simp only [SamSamplerDSP.getActiveVoiceCount]
      rw [hc, h16]
      omega
    · simp only [SamSamplerDSP.getActiveVoiceCount, SamSamplerDSP.getMaxPolyphony, maxVoices]
      rw [hc, h16]
      omega
  · intro hall notes
    obtain ⟨hl, hc⟩ := handleNoteOns_count lt notes e hpos
    have hzero : e.voices.countP (fun v => v.isActive) = 0 := by
      rw [List.countP_eq_zero]
      intro v hv
      simp [hall v hv]
    refine ⟨?_, ?_, ?_⟩
    · simp only [SamSamplerDSP.getActiveVoiceCount]
      rw [hc, hzero, h16]
      omega
    · simp only [SamSamplerDSP.getActiveVoiceCount, SamSamplerDSP.getMaxPolyphony, maxVoices]
      rw [hc, hzero, h16]
      omega
    · intro last hlast
      obtain ⟨front, rfl⟩ : ∃ front, notes = front ++ [last] := by
        rcases List.eq_nil_or_concat notes with h | ⟨front, x, h⟩
        · simp [h] at hlast
        · refine ⟨front, ?_⟩
          rw [h] at hlast ⊢
          simp at hlast
          simp [hlast]
      rw [handleNoteOns_append]
      have hl2 := (handleNoteOns_count lt front e hpos).1
      have := (noteOn_step lt (SamSamplerDSP.handleNoteOns lt e front) last.1 last.2
        (by omega)).2.2
      simpa [SamSamplerDSP.handleNoteOns] using this


/-- Witness for C1: the newly constructed engine over `ℚ` and two NOTE_ONs. -/
theorem C1_noteOn_voice_pool_bound_witness :
    (SamSamplerDSP.init : SamSamplerDSP ℚ).voices.length = maxVoices
      ∧ (SamSamplerDSP.handleNoteOns ratTables (SamSamplerDSP.init : SamSamplerDSP ℚ)
          [(60, 4 / 5), (64, 4 / 5)]).getActiveVoiceCount = min ((2 : Nat) : Int) 16 :=
  ⟨by decide, ((C1_noteOn_voice_pool_bound ratTables (SamSamplerDSP.init : SamSamplerDSP ℚ)
    (by decide)).2 (by decide) [(60, 4 / 5), (64, 4 / 5)]).1⟩

/-! ## Mix-down -/

section MixDown

variable {α : Type} [LinearOrderedField α] [FloorRing α]

/-- A voice renders additively: what `process` leaves in the buffers is the prior content
plus what it leaves in silent buffers, and the voice state does not depend on the buffers. -/
theorem voice_process_additive (m : Libm α) (v : SamSamplerVoice α) (outputs : Nat → Nat → α)
    (numChannels numSamples : Nat) (sampleRate : α) :
    (v.process m outputs numChannels numSamples sampleRate).1
        = (v.process m silence numChannels numSamples sampleRate).1
      ∧ ∀ ch i, (v.process m outputs numChannels numSamples sampleRate).2 ch i
        = outputs ch i + (v.process m silence numChannels numSamples sampleRate).2 ch i := by
  unfold SamSamplerVoice.process
  cases v.sample with
  | none => simp [silence]
  | some smp =>
    by_cases h : (!v.isActive) = true ∨ (!smp.isValid) = true
    · simp only [h, if_true]
      simp [silence]
    · simp only [h, if_false]
      refine ⟨trivial, ?_⟩
      intro ch i
      by_cases hc : ch < numChannels ∧ i < numSamples
      · simp [hc, silence]
      · simp [hc, silence]

end MixDown

section EnvelopeFacts

variable {α : Type} [LinearOrderedField α]

theorem applyCurve_range (m : Libm α) (hm : m.InRange) (t : α) (c : EnvelopeCurve)
    (h0 : 0 ≤ t) (h1 : t ≤ 1) :
    0 ≤ ADSREnvelope.applyCurve m t c ∧ ADSREnvelope.applyCurve m t c ≤ 1 := by
  unfold ADSREnvelope.applyCurve
  split_ifs
  · exact ⟨h0, h1⟩
  · exact ⟨by positivity, pow_le_one₀ h0 h1⟩
  · exact hm.1 t h0 h1
  · have := hm.2 (t * m.pi)
    constructor
    · apply div_nonneg <;> linarith
    · rw [div_le_iff₀ (by norm_num)]
      linarith
  · exact ⟨h0, h1⟩

theorem process_currentLevel (m : Libm α) (e : ADSREnvelope α) (sr : α) (n : Int) :
    (e.process m sr n).1.currentLevel = (e.process m sr n).2 := by
  unfold ADSREnvelope.process
  dsimp only
  split_ifs <;> rfl

theorem process_config (m : Libm α) (e : ADSREnvelope α) (sr : α) (n : Int) :
    (e.process m sr n).1.sustain = e.sustain ∧ (e.process m sr n).1.releaseTime = e.releaseTime
      ∧ (e.process m sr n).1.isReleased = e.isReleased
      ∧ (e.process m sr n).1.releaseCurve = e.releaseCurve
      ∧ (e.process m sr n).1.attack = e.attack
      ∧ (e.process m sr n).1.attackCurve = e.attackCurve := by
  unfold ADSREnvelope.process
  dsimp only
  split_ifs <;> simp

theorem process_range (m : Libm α) (hm : m.InRange) (e : ADSREnvelope α) (sr : α) (n : Int)
    (hs0 : 0 ≤ e.sustain) (hs1 : e.sustain ≤ 1) (hsr : 0 < sr) (hn : 0 ≤ n) (hinv : EnvInv e) :
    EnvInv (e.process m sr n).1 ∧ (e.isReleased = true → (e.process m sr n).2 ≤ e.currentLevel) := by
  obtain ⟨hl0, hl1, ht⟩ := hinv
  have hn' : (0 : α) ≤ (n : α) := by exact_mod_cast hn
  have htime : 0 ≤ e.envelopeTime / sr := div_nonneg ht hsr.le
  unfold EnvInv
  unfold ADSREnvelope.process
  by_cases ha : e.isActive = true
  swap
  · simp [ha, ht, hl0]
  by_cases hr : e.isReleased = true
  · by_cases hlt : e.envelopeTime / sr < e.releaseTime
    · have hR : 0 < e.releaseTime := lt_of_le_of_lt htime hlt
      have ht1 : 0 ≤ 1 - e.envelopeTime / sr / e.releaseTime := by
        rw [sub_nonneg, div_le_one hR]; exact hlt.le
      have ht2 : 1 - e.envelopeTime / sr / e.releaseTime ≤ 1 := by
        have := div_nonneg htime hR.le
        linarith
      obtain ⟨c0, c1⟩ := applyCurve_range m hm _ e.releaseCurve ht1 ht2
      simp only [ha, hr, hlt, Bool.not_true, Bool.false_eq_true, if_false, if_true]
      refine ⟨⟨mul_nonneg hl0 c0, ?_, by linarith⟩, fun _ => ?_⟩
      · calc e.currentLevel * _ ≤ 1 * 1 := mul_le_mul hl1 c1 c0 (by norm_num)
          _ = 1 := by ring
      · calc e.currentLevel * _ ≤ e.currentLevel * 1 := mul_le_mul_of_nonneg_left c1 hl0
          _ = e.currentLevel := by ring
    · simp [ha, hr, hlt, ht, hl0]
  · simp only [ha, hr, Bool.not_true, Bool.not_false, Bool.false_eq_true, if_false, if_true]
    refine ⟨?_, fun h => absurd h (by simp)⟩
    split_ifs with h1 h2 h3
    · have hA : 0 < e.attack := lt_of_le_of_lt htime h1
      obtain ⟨c0, c1⟩ := applyCurve_range m hm (e.envelopeTime / sr / e.attack) e.attackCurve
        (div_nonneg htime hA.le) ((div_le_one hA).mpr h1.le)
      exact ⟨c0, c1, by linarith⟩
    · exact ⟨by norm_num, le_refl _, by linarith⟩
    · have hD : 0 < e.decay := by
        push_neg at h2
        linarith
      have hx0 : 0 ≤ (e.envelopeTime / sr - e.attack - e.hold) / e.decay := by
        apply div_nonneg _ hD.le
        push_neg at h2
        linarith
      have hx1 : (e.envelopeTime / sr - e.attack - e.hold) / e.decay ≤ 1 := by
        rw [div_le_one hD]
        linarith
      obtain ⟨c0, c1⟩ := applyCurve_range m hm
        (1 - (e.envelopeTime / sr - e.attack - e.hold) / e.decay) e.decayCurve
        (by linarith) (by linarith)
      refine ⟨?_, ?_, by linarith⟩
      · have := mul_nonneg (sub_nonneg.mpr hs1) c0
        linarith
      · have : (1 - e.sustain) * ADSREnvelope.applyCurve m
            (1 - (e.envelopeTime / sr - e.attack - e.hold) / e.decay) e.decayCurve
            ≤ (1 - e.sustain) * 1 := mul_le_mul_of_nonneg_left c1 (sub_nonneg.mpr hs1)
        linarith
    · exact ⟨hs0, hs1, by linarith⟩

theorem processCalls_inv (m : Libm α) (hm : m.InRange) (calls : List (α × Int))
    (hok : ∀ c ∈ calls, 0 < c.1 ∧ 0 ≤ c.2) :
    ∀ (e : ADSREnvelope α), 0 ≤ e.sustain → e.sustain ≤ 1 → EnvInv e →
      EnvInv (processCalls m e calls) ∧ (processCalls m e calls).sustain = e.sustain
        ∧ (processCalls m e calls).isReleased = e.isReleased := by
  induction calls with
  | nil => intro e _ _ h; exact ⟨h, rfl, rfl⟩
  | cons c rest ih =>
    intro e hs0 hs1 hinv
    have hc := hok c (List.mem_cons_self _ _)
    have hstep := (process_range m hm e c.1 c.2 hs0 hs1 hc.1 hc.2 hinv).1
    obtain ⟨hsus, -, hrel, -⟩ := process_config m e c.1 c.2
    have := ih (fun d hd => hok d (List.mem_cons_of_mem _ hd)) (e.process m c.1 c.2).1
      (by rw [hsus]; exact hs0) (by rw [hsus]; exact hs1) hstep
    simp only [processCalls]
    rw [hsus, hrel] at this
    exact this

theorem processLevels_chain (m : Libm α) (hm : m.InRange) (calls : List (α × Int))
    (hok : ∀ c ∈ calls, 0 < c.1 ∧ 0 ≤ c.2) :
    ∀ (e : ADSREnvelope α), 0 ≤ e.sustain → e.sustain ≤ 1 → EnvInv e → e.isReleased = true →
      List.Chain (fun a b => b ≤ a) e.currentLevel (processLevels m e calls) := by
  induction calls with
  | nil => intro e _ _ _ _; exact List.Chain.nil
  | cons c rest ih =>
    intro e hs0 hs1 hinv hrel
    have hc := hok c (List.mem_cons_self _ _)
    obtain ⟨hstep, hle⟩ := process_range m hm e c.1 c.2 hs0 hs1 hc.1 hc.2 hinv
    obtain ⟨hsus, -, hrel2, -⟩ := process_config m e c.1 c.2
    have := ih (fun d hd => hok d (List.mem_cons_of_mem _ hd)) (e.process m c.1 c.2).1
      (by rw [hsus]; exact hs0) (by rw [hsus]; exact hs1) hstep (by rw [hrel2]; exact hrel)
    rw [process_currentLevel] at this
    simp only [processLevels]
    exact List.Chain.cons (hle hrel) this

end EnvelopeFacts

/-- C8: with sustain in [0, 1], after `start()` and any run of `process` calls (so at any
point of the attack phase, and later too), `release()` leaves `currentLevel` unchanged and the
levels returned by the following `process` calls never rise: each is at most the level
returned or held immediately before it.  The calls have a positive sample rate and a
non-negative frame count. -/
theorem C8_release_levels_nonincreasing {α : Type} [LinearOrderedField α]
    (m : Libm α) (hm : m.InRange) (e : ADSREnvelope α)
    (hs0 : 0 ≤ e.sustain) (hs1 : e.sustain ≤ 1)
    (before after : List (α × Int))
    (hbefore : ∀ c ∈ before, 0 < c.1 ∧ 0 ≤ c.2) (hafter : ∀ c ∈ after, 0 < c.1 ∧ 0 ≤ c.2) :
    (processCalls m e.start before).release.currentLevel
        = (processCalls m e.start before).currentLevel
      ∧ List.Chain (fun a b => b ≤ a) (processCalls m e.start before).currentLevel
          (processLevels m (processCalls m e.start before).release after) := by
  refine ⟨rfl, ?_⟩
  have hstart : EnvInv e.start := by
    simp [EnvInv, ADSREnvelope.start]
  obtain ⟨hinv, hsus, -⟩ := processCalls_inv m hm before hbefore e.start hs0 hs1 hstart
  have hsus' : (processCalls m e.start before).sustain = e.sustain := hsus
  have hrelinv : EnvInv (processCalls m e.start before).release := by
    obtain ⟨h0, h1, -⟩ := hinv
    exact ⟨h0, h1, le_refl _⟩
  exact processLevels_chain m hm after hafter (processCalls m e.start before).release
    (by show 0 ≤ (processCalls m e.start before).sustain; rw [hsus']; exact hs0)
    (by show (processCalls m e.start before).sustain ≤ 1; rw [hsus']; exact hs1)
    hrelinv rfl

section AttackPhase

variable {α : Type} [LinearOrderedField α]

theorem isReal_inRange (m : Libm ℝ) (hm : m.IsReal) : m.InRange := by
  obtain ⟨h1, h2, -, -⟩ := hm
  refine ⟨fun t _ ht => ?_, fun x => ?_⟩
  · rw [h1]
    exact ⟨Real.sqrt_nonneg t, Real.sqrt_le_one.mpr ht⟩
  · rw [h2]
    exact ⟨Real.neg_one_le_cos x, Real.cos_le_one x⟩

/-- While the envelope is active and not released, every single-sample step advances the
clock by one and keeps the configuration. -/
theorem envAfter_unreleased (m : Libm α) (sr : α) (e : ADSREnvelope α)
    (ha : e.isActive = true) (hr : e.isReleased = false) (k : Nat) :
    (envAfter m sr e k).isActive = true ∧ (envAfter m sr e k).isReleased = false
      ∧ (envAfter m sr e k).envelopeTime = e.envelopeTime + (k : α)
      ∧ (envAfter m sr e k).attack = e.attack
      ∧ (envAfter m sr e k).attackCurve = e.attackCurve := by
  induction k with
  | zero => simp [envAfter, ha, hr]
  | succ k ih =>
    obtain ⟨h1, h2, h3, h4, h5⟩ := ih
    simp only [envAfter]
    unfold ADSREnvelope.process
    simp only [h1, h2, Bool.not_true, Bool.not_false, Bool.false_eq_true, if_false, if_true]
    refine ⟨trivial, trivial, ?_, h4, h5⟩
    rw [h3]
    push_cast
    ring

theorem envLevel_attack (m : Libm α) (sr : α) (e : ADSREnvelope α) (k : Nat)
    (hlt : (k : α) / sr < e.attack) :
    envLevel m sr e.start k
      = ADSREnvelope.applyCurve m ((k : α) / sr / e.attack) e.attackCurve := by
  obtain ⟨h1, h2, h3, h4, h5⟩ := envAfter_unreleased m sr e.start rfl rfl k
  have h3' : (envAfter m sr e.start k).envelopeTime = (k : α) := by
    rw [h3]; simp [ADSREnvelope.start]
  have h4' : (envAfter m sr e.start k).attack = e.attack := h4
  have h5' : (envAfter m sr e.start k).attackCurve = e.attackCurve := h5
  unfold envLevel ADSREnvelope.process
  simp only [h1, h2, h3', h4', h5', hlt, Bool.not_true, Bool.not_false, Bool.false_eq_true,
    if_false, if_true]

end AttackPhase

/-- C9: with the real `<cmath>` functions, for every attack curve and every attack time `a` in
[0.001, 5] at 48000 Hz, after `start()` the call number `floor(a * 48000)` of
`process(48000, 1)` (index `floor(a * 48000) - 1` counted from 0) returns a level greater than
0.9 and at most 1. -/
theorem C9_attack_reaches_peak (m : Libm ℝ) (hm : m.IsReal) (e : ADSREnvelope ℝ)
    (ha0 : 1 / 1000 ≤ e.attack) (_ha1 : e.attack ≤ 5) :
    9 / 10 < envLevel m 48000 e.start (Nat.floor (e.attack * 48000) - 1)
      ∧ envLevel m 48000 e.start (Nat.floor (e.attack * 48000) - 1) ≤ 1 := by
  have hapos : 0 < e.attack := by linarith
  have hN48 : 48 ≤ Nat.floor (e.attack * 48000) := by
    apply Nat.le_floor
    push_cast
    linarith
  have hNle : ((Nat.floor (e.attack * 48000) : Nat) : ℝ) ≤ e.attack * 48000 :=
    Nat.floor_le (by positivity)
  have hNlt : e.attack * 48000 < ((Nat.floor (e.attack * 48000) : Nat) : ℝ) + 1 :=
    Nat.lt_floor_add_one _
  have hN48r : (48 : ℝ) ≤ ((Nat.floor (e.attack * 48000) : Nat) : ℝ) := by exact_mod_cast hN48
  have hk : (((Nat.floor (e.attack * 48000) - 1 : Nat) : Nat) : ℝ)
      = ((Nat.floor (e.attack * 48000) : Nat) : ℝ) - 1 := by
    rw [Nat.cast_sub (by omega)]
    simp
  have hlt : (((Nat.floor (e.attack * 48000) - 1 : Nat) : Nat) : ℝ) / 48000 < e.attack := by
    rw [hk, div_lt_iff₀ (by norm_num)]
    linarith
  rw [envLevel_attack m 48000 e _ hlt]
  set t : ℝ := (((Nat.floor (e.attack * 48000) - 1 : Nat) : Nat) : ℝ) / 48000 / e.attack with ht
  have ht1 : t < 1 := by
    rw [ht, div_lt_one hapos]; exact hlt
  have ht0 : 47 / 49 < t := by
    rw [ht, hk, div_div, lt_div_iff₀ (by positivity)]
    nlinarith
  obtain ⟨hsqrt, hcos, -, hpi⟩ := hm
  unfold ADSREnvelope.applyCurve
  split_ifs
  · constructor <;> linarith
  · constructor
    · nlinarith
    · nlinarith
  · rw [hsqrt]
    constructor
    · rw [Real.lt_sqrt (by norm_num)]
      linarith
    · exact Real.sqrt_le_one.mpr ht1.le
  · rw [hcos, hpi]
    have hx : Real.cos (t * Real.pi) = -Real.cos (Real.pi - t * Real.pi) := by
      rw [Real.cos_pi_sub]; ring
    have hpi3 := Real.pi_gt_three
    have hpi315 := Real.pi_lt_d2
    have hxpos : 0 ≤ Real.pi - t * Real.pi := by nlinarith
    have hxsmall : Real.pi - t * Real.pi < 13 / 100 := by nlinarith
    have hcosx := Real.one_sub_sq_div_two_le_cos (x := Real.pi - t * Real.pi)
    have hcos1 := Real.neg_one_le_cos (t * Real.pi)
    constructor
    · rw [hx]
      nlinarith
    · linarith
  · constructor <;> linarith

/-- Witness for C9: the default envelope (attack 0.01 s, exponential curve) with the real
`<cmath>` functions. -/
theorem C9_attack_reaches_peak_witness :
    (1 / 1000 : ℝ) ≤ (ADSREnvelope.init : ADSREnvelope ℝ).attack
      ∧ (ADSREnvelope.init : ADSREnvelope ℝ).attack ≤ 5
      ∧ 9 / 10 < envLevel (⟨Real.sqrt, Real.cos, Real.tan, Real.pi⟩ : Libm ℝ) 48000
          (ADSREnvelope.init : ADSREnvelope ℝ).start
          (Nat.floor ((ADSREnvelope.init : ADSREnvelope ℝ).attack * 48000) - 1) :=
  ⟨by norm_num [ADSREnvelope.init], by norm_num [ADSREnvelope.init],
    (C9_attack_reaches_peak ⟨Real.sqrt, Real.cos, Real.tan, Real.pi⟩ ⟨rfl, rfl, rfl, rfl⟩
      ADSREnvelope.init (by norm_num [ADSREnvelope.init]) (by norm_num [ADSREnvelope.init])).1⟩

/-- Witness for C8: the default envelope with the real `<cmath>` functions, released after
one block of 64 frames and processed for two more blocks. -/
theorem C8_release_levels_nonincreasing_witness :
    (0 : ℝ) ≤ (ADSREnvelope.init : ADSREnvelope ℝ).sustain
      ∧ (ADSREnvelope.init : ADSREnvelope ℝ).sustain ≤ 1
      ∧ List.Chain (fun a b => b ≤ a)
          (processCalls (⟨Real.sqrt, Real.cos, Real.tan, Real.pi⟩ : Libm ℝ)
            (ADSREnvelope.init : ADSREnvelope ℝ).start [(48000, 64)]).currentLevel
          (processLevels (⟨Real.sqrt, Real.cos, Real.tan, Real.pi⟩ : Libm ℝ)
            (processCalls (⟨Real.sqrt, Real.cos, Real.tan, Real.pi⟩ : Libm ℝ)
              (ADSREnvelope.init : ADSREnvelope ℝ).start [(48000, 64)]).release
            [(48000, 64), (48000, 64)]) :=
  ⟨by norm_num [ADSREnvelope.init], by norm_num [ADSREnvelope.init],
    (C8_release_levels_nonincreasing ⟨Real.sqrt, Real.cos, Real.tan, Real.pi⟩
      (isReal_inRange _ ⟨rfl, rfl, rfl, rfl⟩) ADSREnvelope.init
      (by norm_num [ADSREnvelope.init]) (by norm_num [ADSREnvelope.init])
      [(48000, 64)] [(48000, 64), (48000, 64)]
      (by intro c hc; simp at hc; subst hc; norm_num)
      (by intro c hc; simp at hc; subst hc; norm_num)).2⟩

/-- C3 (failing input): on the prepared engine with one sounding note, a `process` call of
512 frames constructs one `std::vector<float>` of 512 elements (in `SamSamplerVoice::process`),
so the render path allocates. -/
theorem C3_process_allocates :
    noteOnEngine.getActiveVoiceCount = 1 ∧ noteOnEngine.processAllocations 512 = [512] := by
  decide!

/-- C5: after `startNote` with a valid sample the playback rate is
`frequency(midiNote) / frequency(int(rootNote))` times the table's detune ratio of the pitch
correction; with equal-tempered tables a sample with root note 60 and no correction has rate 2
at note 72 and rate 1 at note 60; with a null or invalid sample the rate is 1. -/
theorem C5_playback_rate {α : Type} [LinearOrderedField α] [FloorRing α]
    (lt : LookupTables α) (v : SamSamplerVoice α) (midiNote : Int) (velocity : α)
    (smp : Sample α) :
    (smp.isValid = true →
      (v.startNote lt midiNote velocity (some smp)).playbackRate
        = SamSamplerVoice.midiToFrequency lt midiNote
            / SamSamplerVoice.midiToFrequency lt (truncToInt smp.rootNote)
            * lt.detuneToRatio smp.pitchCorrection)
    ∧ (smp.isValid = true → smp.rootNote = 60 → smp.pitchCorrection = 0 → lt.EqualTempered →
        (v.startNote lt 72 velocity (some smp)).playbackRate = 2
          ∧ (v.startNote lt 60 velocity (some smp)).playbackRate = 1)
    ∧ (v.startNote lt midiNote velocity none).playbackRate = 1
    ∧ (smp.isValid = false → (v.startNote lt midiNote velocity (some smp)).playbackRate = 1) := by
  refine ⟨fun hv => ?_, fun hv hroot hpc htab => ?_, rfl, fun hv => ?_⟩
  · simp [SamSamplerVoice.startNote, hv]
  · obtain ⟨hoct, hne, hdet⟩ := htab
    have htr : truncToInt (60 : α) = 60 := by
      have h : truncToInt (((60 : Int) : Int) : α) = 60 :=
        truncToInt_intCast 60 (by norm_num) (by norm_num)
      simpa using h
    have h72 : lt.midiToFreq 72 = 2 * lt.midiToFreq 60 := by
      have := hoct 60
      norm_num at this
      exact this
    have h60 := hne 60
    constructor
    · simp only [SamSamplerVoice.startNote, hv, if_true, hroot, hpc, htr, hdet,
        SamSamplerVoice.midiToFrequency]
      push_cast
      rw [h72]
      field_simp
    · simp only [SamSamplerVoice.startNote, hv, if_true, hroot, hpc, htr, hdet,
        SamSamplerVoice.midiToFrequency]
      push_cast
      field_simp
  · simp [SamSamplerVoice.startNote, hv]

/-- Witness for C5: the real equal-tempered tables, `440 * 2 ^ ((n - 69) / 12)` Hz and
`2 ^ (cents / 1200)`, and a two-frame sample with root note 60. -/
theorem C5_playback_rate_witness :
    ((SamSamplerVoice.init : SamSamplerVoice ℝ).startNote
        ⟨fun n => 440 * (2 : ℝ) ^ ((n - 69) / 12), fun c => (2 : ℝ) ^ (c / 1200), Real.sin⟩
        72 (4 / 5) (some ⟨[0, 1], 1, 44100, 2, 60, 0⟩)).playbackRate = 2 :=
  ((C5_playback_rate
      ⟨fun n => 440 * (2 : ℝ) ^ ((n - 69) / 12), fun c => (2 : ℝ) ^ (c / 1200), Real.sin⟩
      SamSamplerVoice.init 72 (4 / 5) ⟨[0, 1], 1, 44100, 2, 60, 0⟩).2.1
    (by simp [Sample.isValid]) rfl rfl
    ⟨fun n => by
        show 440 * (2 : ℝ) ^ ((n + 12 - 69) / 12) = 2 * (440 * (2 : ℝ) ^ ((n - 69) / 12))
        have : (n + 12 - 69) / 12 = (n - 69) / 12 + 1 := by ring
        rw [this, Real.rpow_add (by norm_num), Real.rpow_one]
        ring,
      fun n => by
        show 440 * (2 : ℝ) ^ ((n - 69) / 12) ≠ 0
        positivity,
      by
        show (2 : ℝ) ^ ((0 : ℝ) / 1200) = 1
        simp⟩).1

/-- C7 (failing input): the default envelope (exponential release, 0.2 s) is released at the
sustain level 0.7 and processed in blocks of 2400 frames at 48000 Hz.  The calls return
0.7, 0.39375 and 0.0984375: the third, made 0.1 s into the release, is the second level times
the curve value 0.25, not the captured level 0.7 times 0.25 = 0.175. -/
theorem C7_release_level_compounds :
    sustainedEnvelope.currentLevel = 7 / 10
      ∧ processLevels ratLibm sustainedEnvelope.release
          [(48000, 2400), (48000, 2400), (48000, 2400)] = [7 / 10, 63 / 160, 63 / 640]
      ∧ sustainedEnvelope.currentLevel *
          ADSREnvelope.applyCurve ratLibm (1 - (4800 / 48000) / sustainedEnvelope.releaseTime)
            sustainedEnvelope.releaseCurve = 7 / 40 := by
  decide!


/-! ## Voice rendering -/

section EnvelopeSteps

variable {α : Type} [LinearOrderedField α]

theorem envAfter_shift (m : Libm α) (sr : α) (e : ADSREnvelope α) (k : Nat) :
    envAfter m sr (e.process m sr 1).1 k = envAfter m sr e (k + 1) := by
  induction k with
  | zero => rfl
  | succ k ih => simp only [envAfter] at ih ⊢; rw [ih]

theorem envLevel_shift (m : Libm α) (sr : α) (e : ADSREnvelope α) (k : Nat) :
    envLevel m sr (e.process m sr 1).1 k = envLevel m sr e (k + 1) := by
  unfold envLevel
  rw [envAfter_shift]

theorem process_inactive (m : Libm α) (e : ADSREnvelope α) (sr : α) (n : Int)
    (h : e.isActive = false) : (e.process m sr n).1.isActive = false := by
  simp [ADSREnvelope.process, h]

theorem envAfter_inactive (m : Libm α) (sr : α) (e : ADSREnvelope α)
    (h : e.isActive = false) (k : Nat) : (envAfter m sr e k).isActive = false := by
  induction k with
  | zero => exact h
  | succ k ih => exact process_inactive m _ sr 1 ih

end EnvelopeSteps

section Rendering

variable {α : Type} [LinearOrderedField α] [FloorRing α]

/-- Past the end of the sample both interpolators return 0. -/
theorem interpolate_past_end (v : SamSamplerVoice α) (smp : Sample α) (pos : α)
    (hs : v.sample = some smp) (hpos : (smp.numSamples : α) ≤ pos) :
    v.interpolate pos = 0 := by
  have hlin : v.interpolateLinear pos = 0 := by
    unfold SamSamplerVoice.interpolateLinear
    rw [hs]
    by_cases hv : smp.isValid = true
    swap
    · simp [hv]
    have hN : 0 < smp.numSamples := by
      simp [Sample.isValid] at hv
      exact hv.2
    have htr := truncToInt_ge pos smp.numSamples hN.le hpos
    have hb := truncToInt_bounds pos
    have h1 : ¬ (truncToInt pos ≥ 0 ∧ truncToInt pos < wrapInt (smp.numSamples - 1)) := by
      unfold wrapInt
      omega
    have h2 : ¬ (wrapInt (truncToInt pos * 2) ≥ 0
        ∧ wrapInt (truncToInt pos * 2) < wrapInt (wrapInt (smp.numSamples * 2) - 2)) := by
      unfold wrapInt
      omega
    simp only [hv, Bool.not_true, Bool.false_eq_true, if_false, h1, h2, ite_self]
  unfold SamSamplerVoice.interpolate
  split_ifs
  · unfold SamSamplerVoice.interpolateCubic
    rw [hs]
    by_cases hv : smp.isValid = true
    swap
    · simp [hv]
    have hN : 0 < smp.numSamples := by
      simp [Sample.isValid] at hv
      exact hv.2
    have htr := truncToInt_ge pos smp.numSamples hN.le hpos
    have hb := truncToInt_bounds pos
    have h1 : ¬ (truncToInt pos ≥ 1 ∧ truncToInt pos < wrapInt (smp.numSamples - 2)) := by
      unfold wrapInt
      omega
    have h2 : ¬ (wrapInt (truncToInt pos * 2) ≥ 2
        ∧ wrapInt (truncToInt pos * 2) < wrapInt (wrapInt (smp.numSamples * 2) - 4)) := by
      unfold wrapInt
      omega
    simp only [hv, Bool.not_true, Bool.false_eq_true, if_false, h1, h2, hlin, ite_self]
  · exact hlin

/-- Without looping and with a valid sample, `processLoopCrossfade` is the selected
interpolation. -/
theorem processLoopCrossfade_noLoop (v : SamSamplerVoice α) (smp : Sample α) (pos : α)
    (ch : Int) (hs : v.sample = some smp) (hv : smp.isValid = true)
    (hl : v.isLooping = false) : v.processLoopCrossfade pos ch = v.interpolate pos := by
  unfold SamSamplerVoice.processLoopCrossfade
  rw [hs]
  simp [hv, hl]

end Rendering


section RenderLoop

variable {α : Type} [LinearOrderedField α] [FloorRing α]

/-- Without looping, past the end of the sample `processLoopCrossfade` returns 0. -/
theorem processLoopCrossfade_past_end (v : SamSamplerVoice α) (smp : Sample α) (pos : α)
    (ch : Int) (hs : v.sample = some smp) (hl : v.isLooping = false)
    (hpos : (smp.numSamples : α) ≤ pos) : v.processLoopCrossfade pos ch = 0 := by
  by_cases hv : smp.isValid = true
  · rw [processLoopCrossfade_noLoop v smp pos ch hs hv hl]
    exact interpolate_past_end v smp pos hs hpos
  · unfold SamSamplerVoice.processLoopCrossfade
    rw [hs]
    simp [hv]

/-- One iteration of the render loop, envelope finished: the first `break`. -/
theorem renderLoop_succ_finished (m : Libm α) (sr : α) (N : Int) (n i0 : Nat)
    (v : SamSamplerVoice α) (buf : Nat → α)
    (h : (v.envelope.process m sr 1).1.isActive = false) :
    SamSamplerVoice.renderLoop m sr N (n + 1) i0 v buf
      = ({ v with envelope := (v.envelope.process m sr 1).1, isActive := false }, buf) := by
  simp [SamSamplerVoice.renderLoop, h]

/-- One iteration of the render loop without looping, end of sample reached: the second
`break`. -/
theorem renderLoop_succ_ended (m : Libm α) (sr : α) (N : Int) (n i0 : Nat)
    (v : SamSamplerVoice α) (buf : Nat → α)
    (h : (v.envelope.process m sr 1).1.isActive = true) (hl : v.isLooping = false)
    (hend : (N : α) ≤ v.playPosition + v.playbackRate) :
    SamSamplerVoice.renderLoop m sr N (n + 1) i0 v buf
      = ({ v with envelope := (v.envelope.process m sr 1).1,
                  playPosition := v.playPosition + v.playbackRate, isActive := false },
         Function.update buf i0
          (v.processLoopCrossfade v.playPosition 0 *
            ((v.envelope.process m sr 1).2 * v.velocity))) := by
  rw [SamSamplerVoice.renderLoop]
  simp only [h, Bool.not_true, Bool.false_eq_true, if_false]
  split_ifs with h1
  · simp [hl] at h1
  · rfl

/-- One iteration of the render loop without looping that goes on. -/
theorem renderLoop_succ_continue (m : Libm α) (sr : α) (N : Int) (n i0 : Nat)
    (v : SamSamplerVoice α) (buf : Nat → α)
    (h : (v.envelope.process m sr 1).1.isActive = true) (hl : v.isLooping = false)
    (hend : v.playPosition + v.playbackRate < (N : α)) :
    SamSamplerVoice.renderLoop m sr N (n + 1) i0 v buf
      = SamSamplerVoice.renderLoop m sr N n (i0 + 1)
          { v with envelope := (v.envelope.process m sr 1).1,
                   playPosition := v.playPosition + v.playbackRate }
          (Function.update buf i0
            (v.processLoopCrossfade v.playPosition 0 *
              ((v.envelope.process m sr 1).2 * v.velocity))) := by
  rw [SamSamplerVoice.renderLoop]
  simp only [h, Bool.not_true, Bool.false_eq_true, if_false]
  split_ifs with h1 h2
  · simp [hl] at h1
  · exact absurd h2 (not_le.mpr hend)
  · rfl

/-- The voice buffer after the render loop of a non-looping voice whose playback rate is not
negative or whose play position is inside the sample, started at frame `i0` on a buffer that
is 0 from there on. -/
theorem renderLoop_buffer (m : Libm α) (sr : α) (smp : Sample α) :
    ∀ (n i0 : Nat) (v : SamSamplerVoice α) (buf : Nat → α),
      v.sample = some smp → v.isLooping = false →
      (0 ≤ v.playbackRate ∨ v.playPosition < (smp.numSamples : α)) →
      (∀ j, i0 ≤ j → buf j = 0) →
      (∀ k, k < n →
        (SamSamplerVoice.renderLoop m sr smp.numSamples n i0 v buf).2 (i0 + k)
          = if (envAfter m sr v.envelope (k + 1)).isActive = true then
              v.processLoopCrossfade (v.playPosition + (k : α) * v.playbackRate) 0 *
                (envLevel m sr v.envelope k * v.velocity)
            else 0)
      ∧ (∀ j, j < i0 ∨ i0 + n ≤ j →
          (SamSamplerVoice.renderLoop m sr smp.numSamples n i0 v buf).2 j = buf j) := by
  intro n
  induction n with
  | zero =>
    intro i0 v buf _ _ _ _
    exact ⟨fun k hk => absurd hk (Nat.not_lt_zero k), fun j _ => rfl⟩
  | succ n ih =>
    intro i0 v buf hs hl hrate hbuf
    by_cases hfin : (v.envelope.process m sr 1).1.isActive = true
    swap
    · have hfin' : (v.envelope.process m sr 1).1.isActive = false := by simpa using hfin
      rw [renderLoop_succ_finished m sr _ n i0 v buf hfin']
      refine ⟨fun k _ => ?_, fun j _ => rfl⟩
      have : (envAfter m sr v.envelope (k + 1)).isActive = false := by
        rw [← envAfter_shift]
        exact envAfter_inactive m sr _ hfin' k
      simp [this, hbuf (i0 + k) (Nat.le_add_right _ _)]
    by_cases hend : (smp.numSamples : α) ≤ v.playPosition + v.playbackRate
    · rw [renderLoop_succ_ended m sr _ n i0 v buf hfin hl hend]
      have hrate : 0 ≤ v.playbackRate := by
        rcases hrate with h | h
        · exact h
        · by_contra hneg
          push_neg at hneg
          linarith
      refine ⟨fun k _ => ?_, fun j hj => ?_⟩
      · cases k with
        | zero =>
          simp [hfin, envLevel, envAfter]
        | succ k =>
          have hne : i0 + (k + 1) ≠ i0 := by omega
          have hpast : (smp.numSamples : α)
              ≤ v.playPosition + ((k + 1 : Nat) : α) * v.playbackRate := by
            have : (0 : α) ≤ (k : α) * v.playbackRate := mul_nonneg (Nat.cast_nonneg k) hrate
            push_cast
            linarith
          simp only [Function.update_noteq hne]
          rw [hbuf _ (Nat.le_add_right _ _),
            processLoopCrossfade_past_end v smp _ 0 hs hl hpast]
          simp
      · have hne : j ≠ i0 := by omega
        simp only [Function.update_noteq hne]
    · have hend' := not_le.mp hend
      rw [renderLoop_succ_continue m sr _ n i0 v buf hfin hl hend']
      have hbuf1 : ∀ j, i0 + 1 ≤ j →
          Function.update buf i0 (v.processLoopCrossfade v.playPosition 0 *
            ((v.envelope.process m sr 1).2 * v.velocity)) j = 0 := by
        intro j hj
        have hne : j ≠ i0 := by omega
        rw [Function.update_noteq hne]
        exact hbuf j (by omega)
      obtain ⟨ih1, ih2⟩ := ih (i0 + 1)
        { v with envelope := (v.envelope.process m sr 1).1,
                 playPosition := v.playPosition + v.playbackRate }
        (Function.update buf i0 (v.processLoopCrossfade v.playPosition 0 *
            ((v.envelope.process m sr 1).2 * v.velocity))) hs hl (Or.inr hend') hbuf1
      refine ⟨fun k hk => ?_, fun j hj => ?_⟩
      · cases k with
        | zero =>
          rw [ih2 (i0 + 0) (Or.inl (by omega))]
          simp [hfin, envLevel, envAfter]
        | succ k =>
          have := ih1 k (by omega)
          have hidx : i0 + (k + 1) = i0 + 1 + k := by omega
          rw [hidx, this]
          simp only [envAfter_shift, envLevel_shift]
          have hpos : v.playPosition + v.playbackRate + (k : α) * v.playbackRate
              = v.playPosition + ((k + 1 : Nat) : α) * v.playbackRate := by
            push_cast
            ring
          rw [hpos]
          rfl
      · rw [ih2 j (by omega)]
        have hne : j ≠ i0 := by omega
        rw [Function.update_noteq hne]

/-- The voice of a non-looping render stays active exactly when the envelope survives every
step and the play position stays inside the sample. -/
theorem renderLoop_isActive (m : Libm α) (sr : α) (N : Int) :
    ∀ (n i0 : Nat) (v : SamSamplerVoice α) (buf : Nat → α), v.isLooping = false →
      ((SamSamplerVoice.renderLoop m sr N n i0 v buf).1.isActive = true ↔
        v.isActive = true ∧ ∀ k, k < n →
          (envAfter m sr v.envelope (k + 1)).isActive = true
            ∧ v.playPosition + ((k : α) + 1) * v.playbackRate < (N : α)) := by
  intro n
  induction n with
  | zero =>
    intro i0 v buf _
    simp [SamSamplerVoice.renderLoop]
  | succ n ih =>
    intro i0 v buf hl
    by_cases hfin : (v.envelope.process m sr 1).1.isActive = true
    swap
    · have hfin' : (v.envelope.process m sr 1).1.isActive = false := by simpa using hfin
      rw [renderLoop_succ_finished m sr _ n i0 v buf hfin']
      constructor
      · intro h; simp at h
      · intro h
        have := (h.2 0 (Nat.succ_pos n)).1
        exact absurd this hfin
    by_cases hend : (N : α) ≤ v.playPosition + v.playbackRate
    · rw [renderLoop_succ_ended m sr _ n i0 v buf hfin hl hend]
      constructor
      · intro h; simp at h
      · intro h
        have := (h.2 0 (Nat.succ_pos n)).2
        simp at this
        exact absurd hend (not_le.mpr this)
    · have hend' := not_le.mp hend
      rw [renderLoop_succ_continue m sr _ n i0 v buf hfin hl hend']
      have ih' := ih (i0 + 1)
        { v with envelope := (v.envelope.process m sr 1).1,
                 playPosition := v.playPosition + v.playbackRate }
        (Function.update buf i0 (v.processLoopCrossfade v.playPosition 0 *
            ((v.envelope.process m sr 1).2 * v.velocity))) hl
      rw [ih']
      simp only [envAfter_shift]
      constructor
      · rintro ⟨ha, hk⟩
        refine ⟨ha, fun k hkn => ?_⟩
        cases k with
        | zero => exact ⟨hfin, by simpa using hend'⟩
        | succ k =>
          obtain ⟨h1, h2⟩ := hk k (by omega)
          refine ⟨h1, ?_⟩
          push_cast
          have : v.playPosition + v.playbackRate + ((k : α) + 1) * v.playbackRate
              = v.playPosition + ((k : α) + 1 + 1) * v.playbackRate := by ring
          rw [← this]
          exact h2
      · rintro ⟨ha, hk⟩
        refine ⟨ha, fun k hkn => ?_⟩
        obtain ⟨h1, h2⟩ := hk (k + 1) (by omega)
        refine ⟨h1, ?_⟩
        push_cast at h2
        have : v.playPosition + v.playbackRate + ((k : α) + 1) * v.playbackRate
            = v.playPosition + ((k : α) + 1 + 1) * v.playbackRate := by ring
        rw [this]
        exact h2

/-- The render loop changes only the envelope, the play position and the activity flag. -/
theorem renderLoop_shape (m : Libm α) (sr : α) (N : Int) :
    ∀ (n i0 : Nat) (v : SamSamplerVoice α) (buf : Nat → α),
      ∃ env pos act, (SamSamplerVoice.renderLoop m sr N n i0 v buf).1
        = { v with envelope := env, playPosition := pos, isActive := act } := by
  intro n
  induction n with
  | zero => intro i0 v buf; exact ⟨v.envelope, v.playPosition, v.isActive, rfl⟩
  | succ n ih =>
    intro i0 v buf
    rw [SamSamplerVoice.renderLoop]
    dsimp only
    split_ifs
    · exact ⟨_, _, _, rfl⟩
    · obtain ⟨env, pos, act, h⟩ := ih (i0 + 1) _ _
      exact ⟨env, pos, act, h⟩
    · exact ⟨_, _, _, rfl⟩
    · obtain ⟨env, pos, act, h⟩ := ih (i0 + 1) _ _
      exact ⟨env, pos, act, h⟩

end RenderLoop


section VoiceProcess

variable {α : Type} [LinearOrderedField α] [FloorRing α]

/-- The call `SamSamplerVoice::process` on an active voice with a valid sample and the filter
disabled: the voice after the render loop, and the loop's buffer added to the block. -/
theorem process_unfiltered (m : Libm α) (v : SamSamplerVoice α) (smp : Sample α)
    (outputs : Nat → Nat → α) (numChannels numSamples : Nat) (sampleRate : α)
    (hs : v.sample = some smp) (ha : v.isActive = true) (hv : smp.isValid = true)
    (hf : v.filterEnabled = false) :
    v.process m outputs numChannels numSamples sampleRate
      = ((SamSamplerVoice.renderLoop m sampleRate smp.numSamples numSamples 0 v
            (fun _ => 0)).1,
         fun ch i =>
          if ch < numChannels ∧ i < numSamples then
            outputs ch i + (SamSamplerVoice.renderLoop m sampleRate smp.numSamples numSamples 0 v
              (fun _ => 0)).2 i
          else outputs ch i) := by
  obtain ⟨env, pos, act, hshape⟩ :=
    renderLoop_shape m sampleRate smp.numSamples numSamples 0 v (fun _ => 0)
  have hfe : (SamSamplerVoice.renderLoop m sampleRate smp.numSamples numSamples 0 v
      (fun _ => 0)).1.filterEnabled = false := by
    rw [hshape]; exact hf
  unfold SamSamplerVoice.process
  rw [hs]
  simp only [ha, hv, hfe, Bool.not_true, Bool.false_eq_true, or_self, if_false]

end VoiceProcess

/-- C4: an inactive voice, or one without a valid sample, leaves the buffers and itself
unchanged.  An active voice with a valid sample, the filter disabled, no looping, and a
playback rate that is not negative or a play position inside the sample, adds to every
channel at frame `i` of the block the value
`interp(p_i) * e_i * velocity` with `p_i = p_0 + i * playbackRate` and `e_i` the level returned
by envelope step `i`, and 0 once the envelope has finished; the prior content is kept (added
to), places outside the block are untouched, and the voice ends inactive exactly when the
envelope finished at some step of the block or the play position reached `numSamples`. -/
theorem C4_voice_render_accumulates {α : Type} [LinearOrderedField α] [FloorRing α]
    (m : Libm α) (v : SamSamplerVoice α) (outputs : Nat → Nat → α)
    (numChannels numSamples : Nat) (sampleRate : α) :
    ((v.isActive = false ∨ sampleOk v.sample = false) →
      v.process m outputs numChannels numSamples sampleRate = (v, outputs))
    ∧ ∀ smp : Sample α, v.sample = some smp → v.isActive = true → smp.isValid = true →
        v.filterEnabled = false → v.isLooping = false →
        (0 ≤ v.playbackRate ∨ v.playPosition < (smp.numSamples : α)) →
      (∀ ch i, ch < numChannels → i < numSamples →
        (v.process m outputs numChannels numSamples sampleRate).2 ch i
          = outputs ch i +
            if (envAfter m sampleRate v.envelope (i + 1)).isActive = true then
              v.interpolate (v.playPosition + (i : α) * v.playbackRate)
                * envLevel m sampleRate v.envelope i * v.velocity
            else 0)
      ∧ (∀ ch i, ¬ (ch < numChannels ∧ i < numSamples) →
          (v.process m outputs numChannels numSamples sampleRate).2 ch i = outputs ch i)
      ∧ ((v.process m outputs numChannels numSamples sampleRate).1.isActive = false ↔
          ∃ i, i < numSamples ∧
            ((envAfter m sampleRate v.envelope (i + 1)).isActive = false
              ∨ (smp.numSamples : α) ≤ v.playPosition + ((i : α) + 1) * v.playbackRate)) := by
  constructor
  · intro h
    unfold SamSamplerVoice.process
    cases hsm : v.sample with
    | none => rfl
    | some smp =>
      rw [hsm] at h
      simp only [sampleOk] at h
      have : (!v.isActive) = true ∨ (!smp.isValid) = true := by
        rcases h with h | h
        · left; simp [h]
        · right; simp [h]
      simp only [this, if_true]
  · intro smp hs ha hv hf hl hrate
    rw [process_unfiltered m v smp outputs numChannels numSamples sampleRate hs ha hv hf]
    obtain ⟨hbuf, -⟩ := renderLoop_buffer m sampleRate smp numSamples 0 v (fun _ => 0) hs hl
      hrate (fun _ _ => rfl)
    have hact := renderLoop_isActive m sampleRate smp.numSamples numSamples 0 v (fun _ => 0) hl
    refine ⟨fun ch i hch hi => ?_, fun ch i hout => ?_, ?_⟩
    · have := hbuf i hi
      simp only [Nat.zero_add] at this
      simp only [hch, hi, and_self, if_true, this]
      congr 1
      split_ifs
      · rw [processLoopCrossfade_noLoop v smp _ 0 hs hv hl]
        ring
      · rfl
    · simp only [hout, if_false]
    · rw [← Bool.not_eq_true, hact]
      simp only [ha, true_and, not_forall, not_and_or, not_lt, Bool.not_eq_true]
      constructor
      · rintro ⟨i, hi, h⟩
        exact ⟨i, hi, h⟩
      · rintro ⟨i, hi, h⟩
        exact ⟨i, hi, h⟩

/-- Witness for C4: the eight-frame sample played at its root note, frame 1 of a block of
four frames on buffers that hold 1 everywhere. -/
theorem C4_voice_render_accumulates_witness :
    rampVoice.isActive = true ∧ rampVoice.filterEnabled = false ∧ rampVoice.isLooping = false
      ∧ (rampVoice.process ratLibm (fun _ _ => 1) 2 4 48000).2 0 1
          = 1 + if (envAfter ratLibm 48000 rampVoice.envelope (1 + 1)).isActive = true then
              rampVoice.interpolate (rampVoice.playPosition + ((1 : Nat) : ℚ) * rampVoice.playbackRate)
                * envLevel ratLibm 48000 rampVoice.envelope 1 * rampVoice.velocity
            else 0 :=
  ⟨by decide!, by decide!, by decide!,
    ((C4_voice_render_accumulates ratLibm rampVoice (fun _ _ => 1) 2 4 48000).2 rampSample rfl
      (by decide!) (by decide!) (by decide!) (by decide!) (Or.inl (by decide!))).1 0 1
      (by decide) (by decide)⟩


/-! ## Release -/

/-- A released envelope that is still active after a single-sample step was stepped at a time
below the release time, and its clock went up by one. -/
theorem process_released_active {α : Type} [LinearOrderedField α] (m : Libm α) (e : ADSREnvelope α) (sr : α)
    (hr : e.isReleased = true) (h : (e.process m sr 1).1.isActive = true) :
    e.envelopeTime / sr < e.releaseTime
      ∧ (e.process m sr 1).1.envelopeTime = e.envelopeTime + 1 := by
  unfold ADSREnvelope.process at h ⊢
  by_cases ha : e.isActive = true
  swap
  · simp [ha] at h
  by_cases hlt : e.envelopeTime / sr < e.releaseTime
  · simp [ha, hr, hlt]
  · simp [ha, hr, hlt] at h

section ReleasePhase

variable {α : Type} [LinearOrderedField α] [FloorRing α]

theorem renderLoop_release (m : Libm α) (sr : α) (N : Int) :
    ∀ (n i0 : Nat) (v : SamSamplerVoice α) (buf : Nat → α) (t : Nat),
      v.envelope.isReleased = true → v.envelope.envelopeTime = (t : α) →
      (SamSamplerVoice.renderLoop m sr N n i0 v buf).1.envelope.isReleased = true
        ∧ (SamSamplerVoice.renderLoop m sr N n i0 v buf).1.envelope.releaseTime
            = v.envelope.releaseTime
        ∧ ((SamSamplerVoice.renderLoop m sr N n i0 v buf).1.isActive = true →
            (SamSamplerVoice.renderLoop m sr N n i0 v buf).1.envelope.envelopeTime
                = ((t + n : Nat) : α)
              ∧ ∀ k, k < n → ((t + k : Nat) : α) / sr < v.envelope.releaseTime) := by
  intro n
  induction n with
  | zero =>
    intro i0 v buf t hr ht
    refine ⟨hr, rfl, fun _ => ⟨by simpa using ht, fun k hk => absurd hk (Nat.not_lt_zero k)⟩⟩
  | succ n ih =>
    intro i0 v buf t hr ht
    obtain ⟨-, hR, hrel, -⟩ := process_config m v.envelope sr 1
    have hrel' : (v.envelope.process m sr 1).1.isReleased = true := by rw [hrel]; exact hr
    have hcont : ∀ (pos : α) (b : Nat → α),
        (v.envelope.process m sr 1).1.isActive = true →
        (SamSamplerVoice.renderLoop m sr N n (i0 + 1)
            { v with envelope := (v.envelope.process m sr 1).1, playPosition := pos }
            b).1.envelope.isReleased = true
          ∧ (SamSamplerVoice.renderLoop m sr N n (i0 + 1)
            { v with envelope := (v.envelope.process m sr 1).1, playPosition := pos }
            b).1.envelope.releaseTime = v.envelope.releaseTime
          ∧ ((SamSamplerVoice.renderLoop m sr N n (i0 + 1)
              { v with envelope := (v.envelope.process m sr 1).1, playPosition := pos }
              b).1.isActive = true →
            (SamSamplerVoice.renderLoop m sr N n (i0 + 1)
              { v with envelope := (v.envelope.process m sr 1).1, playPosition := pos }
              b).1.envelope.envelopeTime = ((t + (n + 1) : Nat) : α)
              ∧ ∀ k, k < n + 1 → ((t + k : Nat) : α) / sr < v.envelope.releaseTime) := by
      intro pos b hact
      obtain ⟨hlt, htime⟩ := process_released_active m v.envelope sr hr hact
      have ht1 : (v.envelope.process m sr 1).1.envelopeTime = ((t + 1 : Nat) : α) := by
        rw [htime, ht]; push_cast; ring
      obtain ⟨i1, i2, i3⟩ := ih (i0 + 1)
        { v with envelope := (v.envelope.process m sr 1).1, playPosition := pos } b (t + 1)
        hrel' ht1
      refine ⟨i1, by rw [i2]; exact hR, fun hA => ?_⟩
      obtain ⟨j1, j2⟩ := i3 hA
      refine ⟨by rw [j1]; congr 1; omega, fun k hk => ?_⟩
      cases k with
      | zero =>
        rw [ht] at hlt
        simpa using hlt
      | succ k =>
        have := j2 k (by omega)
        dsimp only at this
        rw [hR] at this
        have hidx : t + (k + 1) = t + 1 + k := by omega
        rw [hidx]
        exact this
    rw [SamSamplerVoice.renderLoop]
    dsimp only
    split_ifs with h1 h2 h3
    · exact ⟨hrel', hR, fun h => by simp at h⟩
    · exact hcont _ _ (by simpa using h1)
    · exact ⟨hrel', hR, fun h => by simp at h⟩
    · exact hcont _ _ (by simpa using h1)

end ReleasePhase


section ReleaseEngine

variable {α : Type} [LinearOrderedField α] [FloorRing α]

theorem process_skip (m : Libm α) (v : SamSamplerVoice α) (outputs : Nat → Nat → α)
    (numChannels numSamples : Nat) (sampleRate : α)
    (h : v.isActive = false ∨ sampleOk v.sample = false) :
    v.process m outputs numChannels numSamples sampleRate = (v, outputs) := by
  unfold SamSamplerVoice.process
  cases hsm : v.sample with
  | none => rfl
  | some smp =>
    rw [hsm] at h
    simp only [sampleOk] at h
    have : (!v.isActive) = true ∨ (!smp.isValid) = true := by
      rcases h with h | h
      · left; simp [h]
      · right; simp [h]
    simp only [this, if_true]

/-- After `process` an active voice with a valid sample is the voice left by the render loop,
up to its filter. -/
theorem process_state (m : Libm α) (v : SamSamplerVoice α) (smp : Sample α)
    (outputs : Nat → Nat → α) (numChannels numSamples : Nat) (sampleRate : α)
    (hs : v.sample = some smp) (ha : v.isActive = true) (hv : smp.isValid = true) :
    ∃ flt, (v.process m outputs numChannels numSamples sampleRate).1
      = { (SamSamplerVoice.renderLoop m sampleRate smp.numSamples numSamples 0 v
            (fun _ => 0)).1 with filter := flt } := by
  unfold SamSamplerVoice.process
  rw [hs]
  simp only [ha, hv, Bool.not_true, Bool.false_eq_true, or_self, if_false]
  split_ifs
  · exact ⟨_, rfl⟩
  · exact ⟨_, rfl⟩

theorem voice_process_releasing (m : Libm α) (sr R : α) (t : Nat) (v : SamSamplerVoice α)
    (outputs : Nat → Nat → α) (numChannels numSamples : Nat) (h : Releasing sr R t v) :
    Releasing sr R (t + numSamples) (v.process m outputs numChannels numSamples sr).1 := by
  intro hact
  by_cases ha : v.isActive = true
  swap
  · rw [process_skip m v outputs numChannels numSamples sr (Or.inl (by simpa using ha))] at hact
    exact absurd hact ha
  obtain ⟨hok, hrel, hR, htime, hall⟩ := h ha
  obtain ⟨smp, hs, hv⟩ : ∃ smp, v.sample = some smp ∧ smp.isValid = true := by
    cases hsm : v.sample with
    | none => rw [hsm] at hok; simp [sampleOk] at hok
    | some smp => rw [hsm] at hok; exact ⟨smp, rfl, hok⟩
  obtain ⟨flt, hst⟩ := process_state m v smp outputs numChannels numSamples sr hs ha hv
  obtain ⟨env, pos, act, hshape⟩ :=
    renderLoop_shape m sr smp.numSamples numSamples 0 v (fun _ => 0)
  obtain ⟨r1, r2, r3⟩ :=
    renderLoop_release m sr smp.numSamples numSamples 0 v (fun _ => 0) t hrel htime
  rw [hst] at hact ⊢
  have hact' : (SamSamplerVoice.renderLoop m sr smp.numSamples numSamples 0 v
      (fun _ => 0)).1.isActive = true := hact
  obtain ⟨q1, q2⟩ := r3 hact'
  refine ⟨?_, r1, by rw [← hR]; exact r2, q1, fun k hk => ?_⟩
  · show sampleOk (SamSamplerVoice.renderLoop m sr smp.numSamples numSamples 0 v
      (fun _ => 0)).1.sample = true
    rw [hshape]
    exact hok
  · by_cases hkt : k < t
    · exact hall k hkt
    · have := q2 (k - t) (by omega)
      rw [hR] at this
      have hidx : t + (k - t) = k := by omega
      rw [hidx] at this
      exact this

theorem processVoices_voices (m : Libm α) (sr : α) (numChannels numSamples : Nat) :
    ∀ (voices : List (SamSamplerVoice α)) (outputs : Nat → Nat → α),
      (SamSamplerDSP.processVoices m sr numChannels numSamples voices outputs).1
        = voices.map (fun v =>
            if v.isActive then (v.process m silence numChannels numSamples sr).1 else v)
  | [], _ => rfl
  | voice :: rest, outputs => by
    simp only [SamSamplerDSP.processVoices, List.map_cons]
    rw [processVoices_voices m sr numChannels numSamples rest]
    congr 1
    by_cases h : voice.isActive = true
    · simp only [h, if_true]
      exact (voice_process_additive m voice outputs numChannels numSamples sr).1
    · simp [h]

theorem engine_process_releasing (m : Libm α) (R : α) (t : Nat) (e : SamSamplerDSP α)
    (outputs : Nat → Nat → α) (numChannels numSamples : Nat)
    (h : ∀ v ∈ e.voices, Releasing e.sampleRate R t v) :
    (e.process m outputs numChannels numSamples).1.sampleRate = e.sampleRate
      ∧ ∀ v ∈ (e.process m outputs numChannels numSamples).1.voices,
          Releasing e.sampleRate R (t + numSamples) v := by
  refine ⟨rfl, ?_⟩
  intro v hv
  have hvoices : (e.process m outputs numChannels numSamples).1.voices
      = e.voices.map (fun v =>
          if v.isActive then (v.process m silence numChannels numSamples e.sampleRate).1
          else v) := by
    simp only [SamSamplerDSP.process]
    exact processVoices_voices m e.sampleRate numChannels numSamples e.voices _
  rw [hvoices, List.mem_map] at hv
  obtain ⟨w, hw, rfl⟩ := hv
  by_cases ha : w.isActive = true
  · simp only [ha, if_true]
    exact voice_process_releasing m e.sampleRate R t w silence numChannels numSamples (h w hw)
  · simp only [ha]
    intro hact
    exact absurd hact ha

theorem processBlocks_releasing (m : Libm α) (R : α) :
    ∀ (blocks : List ((Nat → Nat → α) × Nat × Nat)) (e : SamSamplerDSP α) (t : Nat),
      (∀ v ∈ e.voices, Releasing e.sampleRate R t v) →
      ∀ v ∈ (processBlocks m e blocks).voices,
        Releasing e.sampleRate R (t + totalFrames blocks) v
  | [], e, t, h => by simpa [processBlocks, totalFrames] using h
  | b :: rest, e, t, h => by
    obtain ⟨hsr, hstep⟩ := engine_process_releasing m R t e b.1 b.2.1 b.2.2 h
    have := processBlocks_releasing m R rest (e.process m b.1 b.2.1 b.2.2).1 (t + b.2.2)
      (by rw [hsr]; exact hstep)
    rw [hsr] at this
    have hsum : t + totalFrames (b :: rest) = t + b.2.2 + totalFrames rest := by
      simp [totalFrames]; omega
    rw [hsum]
    exact this

theorem two_le_countP {β : Type} (p : β → Bool) :
    ∀ (l : List β) (i j : Nat) (hi : i < l.length) (hj : j < l.length), i < j →
      p (l.get ⟨i, hi⟩) = true → p (l.get ⟨j, hj⟩) = true → 2 ≤ l.countP p
  | [], i, _, hi, _, _, _, _ => by simp at hi
  | a :: l, 0, j + 1, _, hj, _, h0, h1 => by
    simp at h0 h1 hj
    have : 0 < l.countP p := List.countP_pos_iff.mpr ⟨_, List.getElem_mem hj, h1⟩
    simp only [List.countP_cons, h0, if_true]
    omega
  | a :: l, i + 1, j + 1, hi, hj, hij, h0, h1 => by
    simp at h0 h1 hi hj
    have := two_le_countP p l i j hi hj (by omega) h0 h1
    simp only [List.countP_cons]
    split_ifs <;> omega

theorem noteOff_releasing (lt : LookupTables α) (e : SamSamplerDSP α) (n : Int) (vel R : α)
    (hone : e.voices.countP (fun v => v.isActive) = 1)
    (hvoice : ∀ v ∈ e.voices, v.isActive = true →
      v.midiNote = n ∧ sampleOk v.sample = true ∧ v.envelope.releaseTime = R) :
    (e.handleEvent lt (ScheduledEvent.NOTE_OFF n vel)).sampleRate = e.sampleRate
      ∧ ∀ v ∈ (e.handleEvent lt (ScheduledEvent.NOTE_OFF n vel)).voices,
          Releasing e.sampleRate R 0 v := by
  obtain ⟨w, hw, hwact⟩ : ∃ w ∈ e.voices, w.isActive = true := by
    have : 0 < e.voices.countP (fun v => v.isActive) := by omega
    exact List.countP_pos_iff.mp this
  cases hf : e.voices.findIdx? (fun v => v.isActive && decide (v.midiNote = n)) with
  | none =>
    have := (List.findIdx?_eq_none_iff.mp hf) w hw
    simp [hwact, (hvoice w hw hwact).1] at this
  | some slot =>
    have hev : e.handleEvent lt (ScheduledEvent.NOTE_OFF n vel)
        = { e with voices := e.voices.modify (fun voice => voice.stopNote vel) slot } := by
      simp only [SamSamplerDSP.handleEvent, SamSamplerDSP.findVoiceForNote, hf]
    rw [hev]
    refine ⟨rfl, ?_⟩
    obtain ⟨hs, hp, -⟩ := List.findIdx?_eq_some_iff_getElem.mp hf
    have hsact : (e.voices.get ⟨slot, hs⟩).isActive = true := by
      simp at hp
      exact hp.1
    intro v hv
    obtain ⟨j, hj⟩ := List.mem_iff_getElem?.mp hv
    rw [List.getElem?_modify] at hj
    cases hlj : e.voices[j]? with
    | none => rw [hlj] at hj; simp at hj
    | some u =>
      rw [hlj] at hj
      simp only [Option.map_eq_map, Option.map_some', Option.some.injEq] at hj
      obtain ⟨hjlt, hju⟩ := List.getElem?_eq_some_iff.mp hlj
      have humem : u ∈ e.voices := List.mem_iff_getElem?.mpr ⟨j, hlj⟩
      by_cases hsj : slot = j
      · rw [if_pos hsj] at hj
        subst hj
        intro _
        have huact : u.isActive = true := by
          subst hsj
          rw [← hju]
          exact hsact
        obtain ⟨-, hok, hR⟩ := hvoice u humem huact
        exact ⟨hok, rfl, hR, by simp [SamSamplerVoice.stopNote, ADSREnvelope.release],
          fun k hk => absurd hk (Nat.not_lt_zero k)⟩
      · rw [if_neg hsj] at hj
        subst hj
        intro huact
        exfalso
        have hjact : (e.voices.get ⟨j, hjlt⟩).isActive = true := by
          show (e.voices[j]).isActive = true
          rw [hju]; exact huact
        rcases Nat.lt_or_gt_of_ne hsj with h | h
        · have := two_le_countP (fun v : SamSamplerVoice α => v.isActive) e.voices slot j hs hjlt
            h hsact hjact
          omega
        · have := two_le_countP (fun v : SamSamplerVoice α => v.isActive) e.voices j slot hjlt hs
            h hjact hsact
          omega

end ReleaseEngine

/-- C6, amended: in an engine with a positive sample rate where exactly one voice is active,
bound to note `n`, holding a valid sample and a release time `envRelease >= 0`, after
`NOTE_OFF(n)` and `process` calls whose frame counts total at least `envRelease * sampleRate + 1`
the active voice count is 0. -/
theorem C6_release_completes {α : Type} [LinearOrderedField α] [FloorRing α]
    (m : Libm α) (lt : LookupTables α) (e : SamSamplerDSP α) (n : Int) (vel : α)
    (blocks : List ((Nat → Nat → α) × Nat × Nat))
    (hsr : 0 < e.sampleRate) (hR : 0 ≤ e.params.envRelease)
    (hone : e.getActiveVoiceCount = 1)
    (hvoice : ∀ v ∈ e.voices, v.isActive = true →
      v.midiNote = n ∧ sampleOk v.sample = true
        ∧ v.envelope.releaseTime = e.params.envRelease)
    (hframes : e.params.envRelease * e.sampleRate + 1 ≤ (totalFrames blocks : α)) :
    (processBlocks m (e.handleEvent lt (ScheduledEvent.NOTE_OFF n vel)) blocks).getActiveVoiceCount
      = 0 := by
  have hone' : e.voices.countP (fun v => v.isActive) = 1 := by
    simp only [SamSamplerDSP.getActiveVoiceCount] at hone
    exact_mod_cast hone
  obtain ⟨hsr0, hrel0⟩ := noteOff_releasing lt e n vel e.params.envRelease hone' hvoice
  have hall := processBlocks_releasing m e.params.envRelease blocks
    (e.handleEvent lt (ScheduledEvent.NOTE_OFF n vel)) 0 (by rw [hsr0]; exact hrel0)
  rw [hsr0] at hall
  have hinactive : ∀ v ∈ (processBlocks m (e.handleEvent lt (ScheduledEvent.NOTE_OFF n vel))
      blocks).voices, v.isActive = false := by
    intro v hv
    by_contra hact
    have hact' : v.isActive = true := by simpa using hact
    obtain ⟨-, -, -, -, hsteps⟩ := hall v hv hact'
    have hT : (1 : α) ≤ (totalFrames blocks : α) := by
      have := mul_nonneg hR hsr.le
      linarith
    have hTpos : 0 < totalFrames blocks := by
      have : (0 : α) < (totalFrames blocks : α) := by linarith
      exact_mod_cast this
    have hlast := hsteps (totalFrames blocks - 1) (by omega)
    rw [div_lt_iff₀ hsr, Nat.cast_sub (by omega)] at hlast
    push_cast at hlast
    linarith
  simp only [SamSamplerDSP.getActiveVoiceCount]
  rw [List.countP_eq_zero.mpr]
  · rfl
  · intro v hv
    simp [hinactive v hv]


/-- Witness for C6 as amended: the engine prepared at 48000 Hz with note 60 sounding (release
0.2 s, so 9601 frames are needed) and 19 blocks of 512 frames. -/
theorem C6_release_completes_witness :
    noteOnEngine.getActiveVoiceCount = 1
      ∧ noteOnEngine.params.envRelease * noteOnEngine.sampleRate + 1
          ≤ (totalFrames (List.replicate 19 ((fun _ _ => (0 : ℚ)), 2, 512)) : ℚ)
      ∧ (processBlocks ratLibm (noteOnEngine.handleEvent ratTables (ScheduledEvent.NOTE_OFF 60 0))
          (List.replicate 19 ((fun _ _ => (0 : ℚ)), 2, 512))).getActiveVoiceCount = 0 :=
  ⟨by decide!, by decide!,
    C6_release_completes ratLibm ratTables noteOnEngine 60 0
      (List.replicate 19 ((fun _ _ => (0 : ℚ)), 2, 512))
      (by decide!) (by decide!) (by decide!) (by decide!) (by decide!)⟩

/-- C6 as stated fails: in the engine prepared at 8000 Hz with exactly note 60 sounding
(release 0.2 s), after `NOTE_OFF(60)` and four blocks of 400 frames, 1600 = 0.2 * 8000 frames
in total, the voice is still active: the envelope steps were made at the times 0/8000, ...,
1599/8000, all below 0.2. -/
theorem C6_release_completes_counterexample :
    noteOnEngine8k.getActiveVoiceCount = 1
      ∧ noteOnEngine8k.params.envRelease * noteOnEngine8k.sampleRate
          ≤ (totalFrames (List.replicate 4 ((fun _ _ => (0 : ℚ)), 2, 400)) : ℚ)
      ∧ (processBlocks ratLibm (noteOnEngine8k.handleEvent ratTables (ScheduledEvent.NOTE_OFF 60 0))
          (List.replicate 4 ((fun _ _ => (0 : ℚ)), 2, 400))).getActiveVoiceCount ≠ 0 := by
  decide!


/-! ## State variable filter -/

section FilterFacts

variable {α : Type} [LinearOrderedField α]

/-- The per-sample filter body in closed form. -/
theorem svfStep_eq (type : FilterType) (g R h x : α) (s : α × α) :
    svfStep type g R h x s
      = (2 * (g * ((x - (1 + g * 2 * R) * s.1 - g * g * s.2) * h) + s.1) - s.1,
         2 * (g * (g * ((x - (1 + g * 2 * R) * s.1 - g * g * s.2) * h) + s.1) + s.2) - s.2,
         if type = FilterType.Lowpass then
           g * (g * ((x - (1 + g * 2 * R) * s.1 - g * g * s.2) * h) + s.1) + s.2
         else if type = FilterType.Bandpass then
           g * ((x - (1 + g * 2 * R) * s.1 - g * g * s.2) * h) + s.1
         else if type = FilterType.Highpass then
           (x - (1 + g * 2 * R) * s.1 - g * g * s.2) * h
         else if type = FilterType.Notch then
           x - (g * ((x - (1 + g * 2 * R) * s.1 - g * g * s.2) * h) + s.1)
         else 0) := by
  simp [svfStep, StateVariableFilter.processSample]

/-- The determinant formed by the zero-input trajectories of the two unit states is
multiplied by `svfDet` at every sample. -/
theorem svfZeroInput_det (g R h : α) (n : Nat) :
    (svfZeroInput g R h (1, 0) n).1 * (svfZeroInput g R h (0, 1) n).2
        - (svfZeroInput g R h (1, 0) n).2 * (svfZeroInput g R h (0, 1) n).1
      = svfDet g R h ^ n := by
  induction n with
  | zero => simp [svfZeroInput]
  | succ n ih =>
    rw [pow_succ, ← ih]
    simp only [svfZeroInput, svfStep_eq, svfDet]
    ring

end FilterFacts

theorem defaultCoefficients_eq (m : Libm ℝ) :
    defaultCoefficients m
      = (m.tan (m.pi * 20000 / 48000), 1,
         1 / (1 + m.tan (m.pi * 20000 / 48000) * (2 * 1 + m.tan (m.pi * 20000 / 48000)))) := by
  have hmax : max (20 : ℝ) 20000 = 20000 := by norm_num
  simp [defaultCoefficients, StateVariableFilter.process, StateVariableFilter.prepare,
    StateVariableFilter.reset, StateVariableFilter.init, hmax]

theorem tan_default_cutoff_gt : (17 / 10 : ℝ) < Real.tan (Real.pi * 20000 / 48000) := by
  have hpi := Real.pi_pos
  have h1 : Real.tan (Real.pi / 3) < Real.tan (Real.pi * 20000 / 48000) :=
    Real.tan_lt_tan_of_lt_of_lt_pi_div_two (by linarith) (by linarith) (by linarith)
  rw [Real.tan_pi_div_three] at h1
  have h2 : (17 / 10 : ℝ) < Real.sqrt 3 := by
    rw [Real.lt_sqrt (by norm_num)]
    norm_num
  linarith

/-- C11 (failing input): with the coefficients that `process` computes for the default filter
(cutoff 20000 Hz, resonance 0, 48000 Hz), the zero-input state update is not stable: the
trajectories from the unit states (1, 0) and (0, 1) exceed every bound `B`. -/
theorem C11_filter_unstable_at_default (B : ℝ) :
    ∃ n : Nat,
      B < |(svfZeroInput
            (defaultCoefficients (⟨Real.sqrt, Real.cos, Real.tan, Real.pi⟩ : Libm ℝ)).1
            (defaultCoefficients (⟨Real.sqrt, Real.cos, Real.tan, Real.pi⟩ : Libm ℝ)).2.1
            (defaultCoefficients (⟨Real.sqrt, Real.cos, Real.tan, Real.pi⟩ : Libm ℝ)).2.2
            (1, 0) n).1|
      ∨ B < |(svfZeroInput
            (defaultCoefficients (⟨Real.sqrt, Real.cos, Real.tan, Real.pi⟩ : Libm ℝ)).1
            (defaultCoefficients (⟨Real.sqrt, Real.cos, Real.tan, Real.pi⟩ : Libm ℝ)).2.1
            (defaultCoefficients (⟨Real.sqrt, Real.cos, Real.tan, Real.pi⟩ : Libm ℝ)).2.2
            (1, 0) n).2|
      ∨ B < |(svfZeroInput
            (defaultCoefficients (⟨Real.sqrt, Real.cos, Real.tan, Real.pi⟩ : Libm ℝ)).1
            (defaultCoefficients (⟨Real.sqrt, Real.cos, Real.tan, Real.pi⟩ : Libm ℝ)).2.1
            (defaultCoefficients (⟨Real.sqrt, Real.cos, Real.tan, Real.pi⟩ : Libm ℝ)).2.2
            (0, 1) n).1|
      ∨ B < |(svfZeroInput
            (defaultCoefficients (⟨Real.sqrt, Real.cos, Real.tan, Real.pi⟩ : Libm ℝ)).1
            (defaultCoefficients (⟨Real.sqrt, Real.cos, Real.tan, Real.pi⟩ : Libm ℝ)).2.1
            (defaultCoefficients (⟨Real.sqrt, Real.cos, Real.tan, Real.pi⟩ : Libm ℝ)).2.2
            (0, 1) n).2| := by
  rw [defaultCoefficients_eq]
  dsimp only
  have hg := tan_default_cutoff_gt
  set g : ℝ := Real.tan (Real.pi * 20000 / 48000) with hgdef
  have hD : 0 < 1 + g * (2 * 1 + g) := by nlinarith
  set h : ℝ := 1 / (1 + g * (2 * 1 + g)) with hhdef
  have hh : 0 < h := by rw [hhdef]; positivity
  have hc : 0 < svfDet g 1 h - 1 := by
    have : svfDet g 1 h - 1 = 2 * g * h * (g ^ 3 - 1 - 2 * g) := by
      simp only [svfDet]; ring
    rw [this]
    have ht : 0 < g - 17 / 10 := by linarith
    have : 0 < g ^ 3 - 1 - 2 * g := by
      nlinarith [mul_pos ht ht, mul_pos (mul_pos ht ht) ht]
    positivity
  by_contra hcon
  push_neg at hcon
  have hB : 0 ≤ B := le_trans (abs_nonneg _) (hcon 0).1
  obtain ⟨n, hn⟩ := exists_nat_gt (2 * B ^ 2 / (svfDet g 1 h - 1))
  rw [div_lt_iff₀ hc] at hn
  obtain ⟨b1, b2, b3, b4⟩ := hcon n
  have hW := svfZeroInput_det g 1 h n
  have hpow : 1 + (n : ℝ) * (svfDet g 1 h - 1) ≤ svfDet g 1 h ^ n := by
    have := one_add_mul_le_pow (a := svfDet g 1 h - 1) (by linarith) n
    simpa using this
  have hub : (svfZeroInput g 1 h (1, 0) n).1 * (svfZeroInput g 1 h (0, 1) n).2
      - (svfZeroInput g 1 h (1, 0) n).2 * (svfZeroInput g 1 h (0, 1) n).1 ≤ 2 * B ^ 2 := by
    have e1 := abs_le.mp b1
    have e2 := abs_le.mp b2
    have e3 := abs_le.mp b3
    have e4 := abs_le.mp b4
    nlinarith [mul_nonneg (sub_nonneg.mpr e1.2) (sub_nonneg.mpr e4.2),
      mul_nonneg (sub_nonneg.mpr e1.2) (sub_nonneg.mpr (neg_le.mp e4.1)),
      mul_nonneg (sub_nonneg.mpr (neg_le.mp e1.1)) (sub_nonneg.mpr e4.2),
      mul_nonneg (sub_nonneg.mpr (neg_le.mp e1.1)) (sub_nonneg.mpr (neg_le.mp e4.1)),
      mul_nonneg (sub_nonneg.mpr e2.2) (sub_nonneg.mpr e3.2),
      mul_nonneg (sub_nonneg.mpr e2.2) (sub_nonneg.mpr (neg_le.mp e3.1)),
      mul_nonneg (sub_nonneg.mpr (neg_le.mp e2.1)) (sub_nonneg.mpr e3.2),
      mul_nonneg (sub_nonneg.mpr (neg_le.mp e2.1)) (sub_nonneg.mpr (neg_le.mp e3.1))]
  rw [hW] at hub
  linarith

/-- C12: for coefficients `g > 0`, `R > 0`, `h = 1 / (1 + g (2R + g))` and a constant input
`x ≠ 0`, at every state that the per-sample update maps to itself the Lowpass output is not 0
and the Highpass output is 0 (so below 0.1 in magnitude); such a state exists, `(0, x / g²)`. -/
theorem C12_dc_response_by_type {α : Type} [LinearOrderedField α] (g R x : α)
    (hg : 0 < g) (hR : 0 < R) (hx : x ≠ 0) :
    (∀ s : α × α,
      (svfStep FilterType.Lowpass g R (1 / (1 + g * (2 * R + g))) x s).1 = s.1 →
      (svfStep FilterType.Lowpass g R (1 / (1 + g * (2 * R + g))) x s).2.1 = s.2 →
        (svfStep FilterType.Lowpass g R (1 / (1 + g * (2 * R + g))) x s).2.2 ≠ 0
          ∧ (svfStep FilterType.Highpass g R (1 / (1 + g * (2 * R + g))) x s).2.2 = 0
          ∧ |(svfStep FilterType.Highpass g R (1 / (1 + g * (2 * R + g))) x s).2.2| < 1 / 10)
    ∧ (svfStep FilterType.Lowpass g R (1 / (1 + g * (2 * R + g))) x (0, x / g ^ 2)).1 = 0
    ∧ (svfStep FilterType.Lowpass g R (1 / (1 + g * (2 * R + g))) x (0, x / g ^ 2)).2.1
        = x / g ^ 2 := by
  have hD : 0 < 1 + g * (2 * R + g) := by positivity
  have hh : (1 / (1 + g * (2 * R + g))) ≠ 0 := by positivity
  have hHP : FilterType.Highpass ≠ FilterType.Lowpass := by decide
  have hHB : FilterType.Highpass ≠ FilterType.Bandpass := by decide
  refine ⟨fun s h1 h2 => ?_, ?_, ?_⟩
  · simp only [svfStep_eq] at h1 h2 ⊢
    set hp := (x - (1 + g * 2 * R) * s.1 - g * g * s.2) * (1 / (1 + g * (2 * R + g))) with hpdef
    have hhp : hp = 0 := by
      have : g * hp = 0 := by linarith
      rcases mul_eq_zero.mp this with h | h
      · exact absurd h hg.ne'
      · exact h
    have hs1 : s.1 = 0 := by
      have : g * (g * hp + s.1) = 0 := by linarith
      rcases mul_eq_zero.mp this with h | h
      · exact absurd h hg.ne'
      · rw [hhp] at h; linarith
    have hnum : x - (1 + g * 2 * R) * s.1 - g * g * s.2 = 0 := by
      rcases mul_eq_zero.mp (hpdef ▸ hhp) with h | h
      · exact h
      · exact absurd h hh
    have hs2 : s.2 ≠ 0 := by
      intro h0
      rw [hs1, h0] at hnum
      simp at hnum
      exact hx hnum
    simp only [if_true, hHP, hHB, if_false, hhp, hs1]
    refine ⟨by simpa using hs2, trivial, by norm_num⟩
  · simp only [svfStep_eq]
    field_simp
    ring
  · simp only [svfStep_eq]
    field_simp
    ring

/-- Witness for C12: `g = 1`, `R = 1`, input 1 and the steady state (0, 1). -/
theorem C12_dc_response_by_type_witness :
    (0 : ℚ) < 1 ∧ (1 : ℚ) ≠ 0
      ∧ (svfStep FilterType.Lowpass (1 : ℚ) 1 (1 / (1 + 1 * (2 * 1 + 1))) 1 (0, 1)).2.2 ≠ 0
      ∧ (svfStep FilterType.Highpass (1 : ℚ) 1 (1 / (1 + 1 * (2 * 1 + 1))) 1 (0, 1)).2.2 = 0 :=
  ⟨by decide, by decide,
    ((C12_dc_response_by_type (1 : ℚ) 1 1 (by decide) (by decide) (by decide)).1 (0, 1)
      (by decide!) (by decide!)).1,
    ((C12_dc_response_by_type (1 : ℚ) 1 1 (by decide) (by decide) (by decide)).1 (0, 1)
      (by decide!) (by decide!)).2.1⟩

/-! ## Parameter interface -/

theorem clamp_eq_min_max {α : Type} [LinearOrderedField α] (v lo hi : α) (h : lo ≤ hi) :
    clamp v lo hi = min (max v lo) hi := by
  unfold clamp
  simp only [min_def, max_def]
  split_ifs <;> first | rfl | linarith

theorem clamp_mem {α : Type} [LinearOrderedField α] (v lo hi : α) (h : lo ≤ hi) :
    lo ≤ clamp v lo hi ∧ clamp v lo hi ≤ hi := by
  unfold clamp
  exact ⟨le_max_left _ _, max_le h (min_le_left _ _)⟩

theorem clamp_of_mem {α : Type} [LinearOrderedField α] (v lo hi : α) (h1 : lo ≤ v)
    (h2 : v ≤ hi) : clamp v lo hi = v := by
  unfold clamp
  rw [min_eq_right h2, max_eq_right h1]

/-- Reading a parameter after a field of the parameter set that it does not read was
replaced: the generic step of the frame property of `setParameter`. -/
theorem getParameter_other {α : Type} [LinearOrderedField α] (e e' : SamSamplerDSP α)
    (name other : String) (lit : String)
    (hname : name = lit) (hne : other ≠ name)
    (h : ∀ q : String, q ≠ lit → e'.getParameter q = e.getParameter q) :
    e'.getParameter other = e.getParameter other :=
  h other (hname ▸ hne)

section ParameterFacts

variable {α : Type} [LinearOrderedField α] [FloorRing α]

/-- Setting a parameter leaves the value read under every other name unchanged. -/
theorem getParameter_setParameter_of_ne (e : SamSamplerDSP α) (name other : String) (v : α)
    (hne : other ≠ name) :
    (e.setParameter name v).getParameter other = e.getParameter other := by
  unfold SamSamplerDSP.setParameter
  by_cases h1 : name = "masterVolume"
  · rw [if_pos h1]
    refine getParameter_other e _ name other "masterVolume" h1 hne (fun q hq => ?_)
    unfold SamSamplerDSP.getParameter
    simp only [if_neg hq]
    try rfl
  rw [if_neg h1]
  by_cases h2 : name = "pitchBendRange"
  · rw [if_pos h2]
    refine getParameter_other e _ name other "pitchBendRange" h2 hne (fun q hq => ?_)
    unfold SamSamplerDSP.getParameter
    simp only [if_neg hq]
    try rfl
  rw [if_neg h2]
  by_cases h3 : name = "basePitch"
  · rw [if_pos h3]
    refine getParameter_other e _ name other "basePitch" h3 hne (fun q hq => ?_)
    unfold SamSamplerDSP.getParameter
    simp only [if_neg hq]
    try rfl
  rw [if_neg h3]
  by_cases h4 : name = "envAttack"
  · rw [if_pos h4]
    refine getParameter_other e _ name other "envAttack" h4 hne (fun q hq => ?_)
    unfold SamSamplerDSP.getParameter
    simp only [if_neg hq]
    try rfl
  rw [if_neg h4]
  by_cases h5 : name = "envHold"
  · rw [if_pos h5]
    refine getParameter_other e _ name other "envHold" h5 hne (fun q hq => ?_)
    unfold SamSamplerDSP.getParameter
    simp only [if_neg hq]
    try rfl
  rw [if_neg h5]
  by_cases h6 : name = "envDecay"
  · rw [if_pos h6]
    refine getParameter_other e _ name other "envDecay" h6 hne (fun q hq => ?_)
    unfold SamSamplerDSP.getParameter
    simp only [if_neg hq]
    try rfl
  rw [if_neg h6]
  by_cases h7 : name = "envSustain"
  · rw [if_pos h7]
    refine getParameter_other e _ name other "envSustain" h7 hne (fun q hq => ?_)
    unfold SamSamplerDSP.getParameter
    simp only [if_neg hq]
    try rfl
  rw [if_neg h7]
  by_cases h8 : name = "envRelease"
  · rw [if_pos h8]
    refine getParameter_other e _ name other "envRelease" h8 hne (fun q hq => ?_)
    unfold SamSamplerDSP.getParameter
    simp only [if_neg hq]
    try rfl
  rw [if_neg h8]
  by_cases h9 : name = "envAttackCurve"
  · rw [if_pos h9]
    refine getParameter_other e _ name other "envAttackCurve" h9 hne (fun q hq => ?_)
    unfold SamSamplerDSP.getParameter
    simp only [if_neg hq]
    try rfl
  rw [if_neg h9]
  by_cases h10 : name = "envDecayCurve"
  · rw [if_pos h10]
    refine getParameter_other e _ name other "envDecayCurve" h10 hne (fun q hq => ?_)
    unfold SamSamplerDSP.getParameter
    simp only [if_neg hq]
    try rfl
  rw [if_neg h10]
  by_cases h11 : name = "envReleaseCurve"
  · rw [if_pos h11]
    refine getParameter_other e _ name other "envReleaseCurve" h11 hne (fun q hq => ?_)
    unfold SamSamplerDSP.getParameter
    simp only [if_neg hq]
    try rfl
  rw [if_neg h11]
  by_cases h12 : name = "filterCutoff"
  · rw [if_pos h12]
    refine getParameter_other e _ name other "filterCutoff" h12 hne (fun q hq => ?_)
    unfold SamSamplerDSP.getParameter
    simp only [if_neg hq]
    try rfl
  rw [if_neg h12]
  by_cases h13 : name = "filterResonance"
  · rw [if_pos h13]
    refine getParameter_other e _ name other "filterResonance" h13 hne (fun q hq => ?_)
    unfold SamSamplerDSP.getParameter
    simp only [if_neg hq]
    try rfl
  rw [if_neg h13]
  by_cases h14 : name = "filterEnabled"
  · rw [if_pos h14]
    refine getParameter_other e _ name other "filterEnabled" h14 hne (fun q hq => ?_)
    unfold SamSamplerDSP.getParameter
    simp only [if_neg hq]
    try rfl
  rw [if_neg h14]
  by_cases h15 : name = "filterType"
  · rw [if_pos h15]
    refine getParameter_other e _ name other "filterType" h15 hne (fun q hq => ?_)
    unfold SamSamplerDSP.getParameter
    simp only [if_neg hq]
    try rfl
  rw [if_neg h15]

end ParameterFacts

/-- C14: for every engine and every value `v`, `setParameter(name, v)` followed by
`getParameter(name)` reads `min(max(v, lo), hi)` for the ten ranged parameters (so an in-range
`v` is read back unchanged), the integer part of the clamp to [0, 3] for the four selectors,
and 1 if `v > 0.5` else 0 for `filterEnabled`; the value read under any other name is
unchanged.  `setParameter` is total. -/
theorem C14_setParameter_clamps {α : Type} [LinearOrderedField α] [FloorRing α]
    (e : SamSamplerDSP α) (v : α) :
    (∀ r ∈ (documentedRange : List (String × α × α)),
      (e.setParameter r.1 v).getParameter r.1 = min (max v r.2.1) r.2.2)
    ∧ (∀ r ∈ (documentedRange : List (String × α × α)), r.2.1 ≤ v → v ≤ r.2.2 →
        (e.setParameter r.1 v).getParameter r.1 = v)
    ∧ (∀ name ∈ selectorNames,
        (e.setParameter name v).getParameter name = ((truncToInt (min (max v 0) 3) : Int) : α))
    ∧ (e.setParameter "filterEnabled" v).getParameter "filterEnabled"
        = (if v > 1 / 2 then 1 else 0)
    ∧ (∀ name other : String, other ≠ name →
        (e.setParameter name v).getParameter other = e.getParameter other) := by
  have hread : ∀ r ∈ (documentedRange : List (String × α × α)),
      r.2.1 ≤ r.2.2 ∧ (e.setParameter r.1 v).getParameter r.1 = clamp v r.2.1 r.2.2 := by
    intro r hr
    simp only [documentedRange, List.mem_cons, List.mem_singleton, List.not_mem_nil,
      or_false] at hr
    rcases hr with rfl | rfl | rfl | rfl | rfl | rfl | rfl | rfl | rfl | rfl <;>
      exact ⟨by norm_num, rfl⟩
  refine ⟨fun r hr => ?_, fun r hr h1 h2 => ?_, fun name hn => ?_, ?_,
    fun name other hne => getParameter_setParameter_of_ne e name other v hne⟩
  · obtain ⟨hle, hget⟩ := hread r hr
    rw [hget, clamp_eq_min_max _ _ _ hle]
  · obtain ⟨-, hget⟩ := hread r hr
    rw [hget, clamp_of_mem _ _ _ h1 h2]
  · simp only [selectorNames, List.mem_cons, List.mem_singleton, List.not_mem_nil,
      or_false] at hn
    rw [← clamp_eq_min_max v 0 3 (by norm_num)]
    rcases hn with rfl | rfl | rfl | rfl <;> rfl
  · simp [SamSamplerDSP.setParameter, SamSamplerDSP.getParameter]

/-- Witness for C14: `envAttack = 0.05` on a newly constructed engine is read back as 0.05. -/
theorem C14_setParameter_clamps_witness :
    (("envAttack", 1 / 1000, 5) : String × ℚ × ℚ) ∈ (documentedRange : List (String × ℚ × ℚ))
      ∧ ((SamSamplerDSP.init : SamSamplerDSP ℚ).setParameter "envAttack" (1 / 20)).getParameter
          "envAttack" = 1 / 20 :=
  ⟨by simp [documentedRange],
    (C14_setParameter_clamps (SamSamplerDSP.init : SamSamplerDSP ℚ) (1 / 20)).2.1
      ("envAttack", 1 / 1000, 5) (by simp [documentedRange]) (by norm_num) (by norm_num)⟩

section ParameterRange

variable {α : Type} [LinearOrderedField α] [FloorRing α]

theorem truncToInt_clamp_selector (v : α) :
    0 ≤ truncToInt (clamp v 0 3) ∧ truncToInt (clamp v 0 3) ≤ 3 := by
  obtain ⟨h0, h3⟩ := clamp_mem v 0 3 (by norm_num)
  rw [truncToInt_of_nonneg _ h0 (by linarith)]
  refine ⟨Int.floor_nonneg.mpr h0, ?_⟩
  have h1 : ((Int.floor (clamp v 0 3) : Int) : α) ≤ 3 := le_trans (Int.floor_le _) h3
  exact_mod_cast h1

/-- The parameter ranges are kept by `setParameter`. -/
theorem setParameter_paramsInRange (e : SamSamplerDSP α) (name : String) (v : α)
    (h : ParamsInRange e.params) : ParamsInRange (e.setParameter name v).params := by
  obtain ⟨a1, a2, a3, a4, a5, a6, a7, a8, a9, a10, a11, a12, a13, a14⟩ := h
  have hsel := truncToInt_clamp_selector v
  unfold SamSamplerDSP.setParameter
  by_cases h1 : name = "masterVolume"
  · rw [if_pos h1]
    have hc := clamp_mem v 0 1 (by norm_num)
    exact ⟨⟨hc.1, le_trans hc.2 (by norm_num)⟩, a2, a3, a4, a5, a6, a7, a8, a9, a10, a11, a12, a13, a14⟩
  rw [if_neg h1]
  by_cases h2 : name = "pitchBendRange"
  · rw [if_pos h2]
    have hc := clamp_mem v 0 24 (by norm_num)
    exact ⟨a1, hc, a3, a4, a5, a6, a7, a8, a9, a10, a11, a12, a13, a14⟩
  rw [if_neg h2]
  by_cases h3 : name = "basePitch"
  · rw [if_pos h3]
    have hc := clamp_mem v (1 / 10) 4 (by norm_num)
    exact ⟨a1, a2, hc, a4, a5, a6, a7, a8, a9, a10, a11, a12, a13, a14⟩
  rw [if_neg h3]
  by_cases h4 : name = "envAttack"
  · rw [if_pos h4]
    have hc := clamp_mem v (1 / 1000) 5 (by norm_num)
    exact ⟨a1, a2, a3, hc, a5, a6, a7, a8, a9, a10, a11, a12, a13, a14⟩
  rw [if_neg h4]
  by_cases h5 : name = "envHold"
  · rw [if_pos h5]
    have hc := clamp_mem v 0 5 (by norm_num)
    exact ⟨a1, a2, a3, a4, hc, a6, a7, a8, a9, a10, a11, a12, a13, a14⟩
  rw [if_neg h5]
  by_cases h6 : name = "envDecay"
  · rw [if_pos h6]
    have hc := clamp_mem v (1 / 1000) 5 (by norm_num)
    exact ⟨a1, a2, a3, a4, a5, hc, a7, a8, a9, a10, a11, a12, a13, a14⟩
  rw [if_neg h6]
  by_cases h7 : name = "envSustain"
  · rw [if_pos h7]
    have hc := clamp_mem v 0 1 (by norm_num)
    exact ⟨a1, a2, a3, a4, a5, a6, hc, a8, a9, a10, a11, a12, a13, a14⟩
  rw [if_neg h7]
  by_cases h8 : name = "envRelease"
  · rw [if_pos h8]
    have hc := clamp_mem v (1 / 1000) 5 (by norm_num)
    exact ⟨a1, a2, a3, a4, a5, a6, a7, hc, a9, a10, a11, a12, a13, a14⟩
  rw [if_neg h8]
  by_cases h9 : name = "envAttackCurve"
  · rw [if_pos h9]
    exact ⟨a1, a2, a3, a4, a5, a6, a7, a8, hsel, a10, a11, a12, a13, a14⟩
  rw [if_neg h9]
  by_cases h10 : name = "envDecayCurve"
  · rw [if_pos h10]
    exact ⟨a1, a2, a3, a4, a5, a6, a7, a8, a9, hsel, a11, a12, a13, a14⟩
  rw [if_neg h10]
  by_cases h11 : name = "envReleaseCurve"
  · rw [if_pos h11]
    exact ⟨a1, a2, a3, a4, a5, a6, a7, a8, a9, a10, hsel, a12, a13, a14⟩
  rw [if_neg h11]
  by_cases h12 : name = "filterCutoff"
  · rw [if_pos h12]
    have hc := clamp_mem v 20 20000 (by norm_num)
    exact ⟨a1, a2, a3, a4, a5, a6, a7, a8, a9, a10, a11, hc, a13, a14⟩
  rw [if_neg h12]
  by_cases h13 : name = "filterResonance"
  · rw [if_pos h13]
    have hc := clamp_mem v 0 1 (by norm_num)
    exact ⟨a1, a2, a3, a4, a5, a6, a7, a8, a9, a10, a11, a12, hc, a14⟩
  rw [if_neg h13]
  by_cases h14 : name = "filterEnabled"
  · rw [if_pos h14]
    exact ⟨a1, a2, a3, a4, a5, a6, a7, a8, a9, a10, a11, a12, a13, a14⟩
  rw [if_neg h14]
  by_cases h15 : name = "filterType"
  · rw [if_pos h15]
    exact ⟨a1, a2, a3, a4, a5, a6, a7, a8, a9, a10, a11, a12, a13, hsel⟩
  rw [if_neg h15]
  exact ⟨a1, a2, a3, a4, a5, a6, a7, a8, a9, a10, a11, a12, a13, a14⟩

theorem apply_paramsInRange (m : Libm α) (lt : LookupTables α) (e : SamSamplerDSP α)
    (c : EngineCall α) (h : ParamsInRange e.params) :
    ParamsInRange (c.apply m lt e).params := by
  cases c with
  | setParameter paramId value => exact setParameter_paramsInRange e paramId value h
  | prepare sampleRate blockSize =>
    simp only [EngineCall.apply, SamSamplerDSP.prepare]
    split_ifs <;> exact h
  | reset => exact h
  | handleEvent event =>
    simp only [EngineCall.apply, SamSamplerDSP.handleEvent]
    cases event with
    | NOTE_ON n vel =>
      dsimp only
      cases e.findFreeVoice <;> exact h
    | NOTE_OFF n vel =>
      dsimp only
      cases e.findVoiceForNote n <;> exact h
    | PITCH_BEND b => exact h
    | RESET => exact h
    | other => exact h
  | process outputs numChannels numSamples => exact h
  | loadSoundFont filePath => exact h
  | selectSoundFontInstrument index =>
    simp only [EngineCall.apply, SamSamplerDSP.selectSoundFontInstrument]
    split_ifs <;> exact h

theorem foldl_paramsInRange (m : Libm α) (lt : LookupTables α) (calls : List (EngineCall α)) :
    ∀ e : SamSamplerDSP α, ParamsInRange e.params →
      ParamsInRange (calls.foldl (EngineCall.apply m lt) e).params := by
  induction calls with
  | nil => intro e h; exact h
  | cons c rest ih =>
    intro e h
    exact ih _ (apply_paramsInRange m lt e c h)

end ParameterRange

/-- C15, amended: in every state reached from a newly constructed engine by `setParameter`,
`prepare`, `reset`, `handleEvent`, `process`, `loadSoundFont` and `selectSoundFontInstrument`
calls, every parameter of the interface other than `masterVolume` reads within its documented
range, the selectors read within [0, 3], and `masterVolume` reads within [0, 1.1] (1.1 is the
constructor's default); in particular `envAttack` is in [0.001, 5]. -/
theorem C15_parameter_ranges_kept {α : Type} [LinearOrderedField α] [FloorRing α]
    (m : Libm α) (lt : LookupTables α) (calls : List (EngineCall α)) :
    (∀ r ∈ (documentedRange : List (String × α × α)), r.1 ≠ "masterVolume" →
      r.2.1 ≤ (calls.foldl (EngineCall.apply m lt) SamSamplerDSP.init).getParameter r.1
        ∧ (calls.foldl (EngineCall.apply m lt) SamSamplerDSP.init).getParameter r.1 ≤ r.2.2)
    ∧ (∀ name ∈ selectorNames,
        0 ≤ (calls.foldl (EngineCall.apply m lt) SamSamplerDSP.init).getParameter name
          ∧ (calls.foldl (EngineCall.apply m lt) SamSamplerDSP.init).getParameter name ≤ 3)
    ∧ (0 ≤ (calls.foldl (EngineCall.apply m lt) SamSamplerDSP.init).getParameter "masterVolume"
        ∧ (calls.foldl (EngineCall.apply m lt) SamSamplerDSP.init).getParameter "masterVolume"
            ≤ 11 / 10)
    ∧ (1 / 1000 ≤ (calls.foldl (EngineCall.apply m lt) SamSamplerDSP.init).getParameter
          "envAttack"
        ∧ (calls.foldl (EngineCall.apply m lt) SamSamplerDSP.init).getParameter "envAttack"
            ≤ 5) := by
  have hinit : ParamsInRange (SamSamplerDSP.init : SamSamplerDSP α).params := by
    simp only [ParamsInRange, SamSamplerDSP.init, Parameters.init]
    norm_num
  obtain ⟨a1, a2, a3, a4, a5, a6, a7, a8, a9, a10, a11, a12, a13, a14⟩ :=
    foldl_paramsInRange m lt calls SamSamplerDSP.init hinit
  have c9 : (0 : α) ≤ ((calls.foldl (EngineCall.apply m lt)
      SamSamplerDSP.init).params.envAttackCurve : α) ∧
      (((calls.foldl (EngineCall.apply m lt) SamSamplerDSP.init).params.envAttackCurve : Int) : α)
        ≤ 3 := ⟨by exact_mod_cast a9.1, by exact_mod_cast a9.2⟩
  have c10 : (0 : α) ≤ ((calls.foldl (EngineCall.apply m lt)
      SamSamplerDSP.init).params.envDecayCurve : α) ∧
      (((calls.foldl (EngineCall.apply m lt) SamSamplerDSP.init).params.envDecayCurve : Int) : α)
        ≤ 3 := ⟨by exact_mod_cast a10.1, by exact_mod_cast a10.2⟩
  have c11 : (0 : α) ≤ ((calls.foldl (EngineCall.apply m lt)
      SamSamplerDSP.init).params.envReleaseCurve : α) ∧
      (((calls.foldl (EngineCall.apply m lt) SamSamplerDSP.init).params.envReleaseCurve : Int) : α)
        ≤ 3 := ⟨by exact_mod_cast a11.1, by exact_mod_cast a11.2⟩
  have c14 : (0 : α) ≤ ((calls.foldl (EngineCall.apply m lt)
      SamSamplerDSP.init).params.filterType : α) ∧
      (((calls.foldl (EngineCall.apply m lt) SamSamplerDSP.init).params.filterType : Int) : α)
        ≤ 3 := ⟨by exact_mod_cast a14.1, by exact_mod_cast a14.2⟩
  refine ⟨fun r hr hne => ?_, fun name hn => ?_, a1, a4⟩
  · simp only [documentedRange, List.mem_cons, List.mem_singleton, List.not_mem_nil,
      or_false] at hr
    rcases hr with rfl | rfl | rfl | rfl | rfl | rfl | rfl | rfl | rfl | rfl
    · exact absurd rfl hne
    · exact a2
    · exact a3
    · exact a4
    · exact a6
    · exact a8
    · exact a5
    · exact a7
    · exact a12
    · exact a13
  · simp only [selectorNames, List.mem_cons, List.mem_singleton, List.not_mem_nil,
      or_false] at hn
    rcases hn with rfl | rfl | rfl | rfl
    · exact c9
    · exact c10
    · exact c11
    · exact c14

/-- Witness for C15 as amended: `setParameter("envAttack", 100)` then `prepare(48000, 512)` on
a newly constructed engine: `envAttack` reads within [0.001, 5]. -/
theorem C15_parameter_ranges_kept_witness :
    (("envAttack", 1 / 1000, 5) : String × ℚ × ℚ) ∈ (documentedRange : List (String × ℚ × ℚ))
      ∧ ([EngineCall.setParameter "envAttack" (100 : ℚ), EngineCall.prepare 48000 512].foldl
          (EngineCall.apply ratLibm ratTables) SamSamplerDSP.init).getParameter "envAttack" ≤ 5 :=
  ⟨by simp [documentedRange],
    ((C15_parameter_ranges_kept ratLibm ratTables
      [EngineCall.setParameter "envAttack" (100 : ℚ), EngineCall.prepare 48000 512]).1
      ("envAttack", 1 / 1000, 5) (by simp [documentedRange]) (by decide)).2⟩

/-- C15 as stated fails: on a newly constructed engine `getParameter("masterVolume")` is 1.1,
outside [0, 1]. -/
theorem C15_parameter_ranges_kept_counterexample :
    (SamSamplerDSP.init : SamSamplerDSP ℚ).getParameter "masterVolume" = 11 / 10
      ∧ ¬ ((SamSamplerDSP.init : SamSamplerDSP ℚ).getParameter "masterVolume" ≤ 1) := by
  decide!


/-! ## Evaluations of the engine at concrete inputs -/

/-- C13: after `prepare`, `NOTE_ON(60, 0.8)` and `setParameter("filterCutoff", 1000)` the
`filterEnabled` parameter is still off (it was never set), no voice had its filter flag on
before the call, and the sounding voice of slot 0 has its filter flag on: it filters its
output from the next `process` call on. -/
theorem C13_cutoff_change_enables_filter :
    (noteOnEngine.setParameter "filterCutoff" 1000).params.filterEnabled = false
      ∧ noteOnEngine.params.filterEnabled = false
      ∧ noteOnEngine.voices.map (fun v => v.filterEnabled) = List.replicate 16 false
      ∧ (noteOnEngine.setParameter "filterCutoff" 1000).voices.map
          (fun v => (v.isActive, v.filterEnabled))
        = (true, true) :: List.replicate 15 (false, false) := by
  decide!

/-- C16: `setParameter` leaves the engine as it is for each of the names `stereoWidth`,
`stereoPositionOffset` and `stereoFilterSpread`, and `getParameter` returns 0 for them: a value
that was set is not read back. -/
theorem C16_stereo_names_not_recognized {α : Type} [LinearOrderedField α] [FloorRing α]
    (e : SamSamplerDSP α) (v : α) :
    (e.setParameter "stereoWidth" v = e
        ∧ (e.setParameter "stereoWidth" v).getParameter "stereoWidth" = 0)
      ∧ (e.setParameter "stereoPositionOffset" v = e
        ∧ (e.setParameter "stereoPositionOffset" v).getParameter "stereoPositionOffset" = 0)
      ∧ (e.setParameter "stereoFilterSpread" v = e
        ∧ (e.setParameter "stereoFilterSpread" v).getParameter "stereoFilterSpread" = 0) :=
  ⟨⟨rfl, rfl⟩, ⟨rfl, rfl⟩, ⟨rfl, rfl⟩⟩

/-- C17: after `prepare` and 17 NOTE_ON events with the notes 1, ..., 17 all 16 voices are
active and the voice that the next NOTE_ON claims is slot 0, which holds note 17, the voice
started last, while slots 1 to 15 hold the notes 2, ..., 16 started before it; the 18th NOTE_ON
replaces note 17. -/
theorem C17_steals_newest_voice :
    (SamSamplerDSP.handleNoteOns ratTables preparedEngine (notesUpTo 17)).getActiveVoiceCount = 16
      ∧ (SamSamplerDSP.handleNoteOns ratTables preparedEngine (notesUpTo 17)).findFreeVoice
          = some 0
      ∧ (SamSamplerDSP.handleNoteOns ratTables preparedEngine (notesUpTo 17)).voices.map
          (fun v => v.midiNote) = [17, 2, 3, 4, 5, 6, 7, 8, 9, 10, 11, 12, 13, 14, 15, 16]
      ∧ (SamSamplerDSP.handleNoteOns ratTables preparedEngine (notesUpTo 18)).voices.map
          (fun v => v.midiNote) = [18, 2, 3, 4, 5, 6, 7, 8, 9, 10, 11, 12, 13, 14, 15, 16] := by
  decide!

/-- C19: after `prepare`, two `NOTE_ON(60)` and one `NOTE_OFF(60)` one active voice bound to
note 60 is not released; a second `NOTE_OFF(60)` finds the released voice of slot 0 again, so
the number of unreleased voices bound to 60 stays 1 and the voice of slot 1 is never
released. -/
theorem C19_second_noteOff_releases_nothing :
    unreleasedCount twoOnOneOffEngine 60 = 1
      ∧ twoOnOneOffEngine.findVoiceForNote 60 = some 0
      ∧ unreleasedCount
          (twoOnOneOffEngine.handleEvent ratTables (ScheduledEvent.NOTE_OFF 60 0)) 60 = 1
      ∧ ((twoOnOneOffEngine.handleEvent ratTables (ScheduledEvent.NOTE_OFF 60 0)).voices.map
          (fun v => (v.isActive, v.midiNote, v.envelope.isReleased))).take 2
        = [(true, 60, true), (true, 60, false)] := by
  decide!

/-- C20: on a newly constructed engine after `loadSoundFont` (which returns true),
`prepare(48000, 512)` returns true and leaves every voice inactive, but the sample cache is
empty, and a following `NOTE_ON(60, 0.8)` activates slot 0 with no sample bound. -/
theorem C20_prepare_after_loadSoundFont_caches_nothing :
    ((SamSamplerDSP.init : SamSamplerDSP ℚ).loadSoundFont ratLibm ratTables "piano.sf2").2 = true
      ∧ (soundFontEngine.prepare ratLibm ratTables 48000 512).2 = true
      ∧ (soundFontEngine.prepare ratLibm ratTables 48000 512).1.voices.map (fun v => v.isActive)
          = List.replicate 16 false
      ∧ (soundFontEngine.prepare ratLibm ratTables 48000 512).1.sampleCache.length = 0
      ∧ (((soundFontEngine.prepare ratLibm ratTables 48000 512).1.handleEvent ratTables
            (ScheduledEvent.NOTE_ON 60 (4 / 5))).voices.map
          (fun v => (v.isActive, sampleOk v.sample))).head? = some (true, false) := by
  decide!

/-! ## NOTE_OFF -/

theorem countP_modify_of_preserved {β : Type} (p : β → Bool) (f : β → β)
    (hf : ∀ v, p (f v) = p v) :
    ∀ (l : List β) (i : Nat), (l.modify f i).countP p = l.countP p
  | [], i => by cases i <;> rfl
  | a :: l, 0 => by simp [List.modify, List.countP_cons, hf]
  | a :: l, i + 1 => by
    have ih := countP_modify_of_preserved p f hf l i
    simp [List.countP_cons, ih]

/-- The slot that `findVoiceForNote` returns is the lowest slot holding an active voice bound
to the note. -/
theorem findVoiceForNote_of_first {α : Type} [LinearOrderedField α] [FloorRing α]
    (e : SamSamplerDSP α) (n : Int) (slot : Nat) (voice : SamSamplerVoice α)
    (hslot : e.voices.get? slot = some voice) (hact : voice.isActive = true)
    (hnote : voice.midiNote = n)
    (hfirst : ∀ (j : Nat) (w : SamSamplerVoice α), j < slot → e.voices.get? j = some w →
      ¬ (w.isActive = true ∧ w.midiNote = n)) :
    e.findVoiceForNote n = some slot := by
  unfold SamSamplerDSP.findVoiceForNote
  rw [List.findIdx?_eq_some_iff_getElem]
  have hlt : slot < e.voices.length := by
    rcases Nat.lt_or_ge slot e.voices.length with h | h
    · exact h
    · rw [List.get?_eq_none.mpr h] at hslot
      exact absurd hslot (by simp)
  have hget : e.voices[slot] = voice := by
    rw [List.get?_eq_get hlt] at hslot
    exact Option.some.inj hslot
  refine ⟨hlt, ?_, ?_⟩
  · rw [hget]
    simp [hact, hnote]
  · intro j hj
    have hjl : j < e.voices.length := Nat.lt_trans hj hlt
    have := hfirst j e.voices[j] hj (List.get?_eq_get hjl)
    simpa using this

/-- C18: handling NOTE_OFF for note `n` leaves the engine as it is when no active voice is
bound to `n`; otherwise, with `voice` the voice of the lowest slot that is active and bound to
`n`, the engine after the event is the engine before it with that one slot replaced by `voice`
with its envelope marked released and its envelope clock at 0 (level, activity, every other
voice, the parameters and the pitch bend as before), the voice is still active with the same
envelope level, and the active-voice count is unchanged. -/
theorem C18_noteOff_frame {α : Type} [LinearOrderedField α] [FloorRing α]
    (lt : LookupTables α) (e : SamSamplerDSP α) (n : Int) (vel : α) :
    ((∀ v ∈ e.voices, ¬ (v.isActive = true ∧ v.midiNote = n)) →
        e.handleEvent lt (ScheduledEvent.NOTE_OFF n vel) = e)
      ∧ (∀ (slot : Nat) (voice : SamSamplerVoice α),
          e.voices.get? slot = some voice → voice.isActive = true → voice.midiNote = n →
          (∀ (j : Nat) (w : SamSamplerVoice α), j < slot → e.voices.get? j = some w →
            ¬ (w.isActive = true ∧ w.midiNote = n)) →
          e.handleEvent lt (ScheduledEvent.NOTE_OFF n vel)
              = { e with voices := (e.voices.set slot
                  { voice with envelope :=
                    { voice.envelope with isReleased := true, envelopeTime := 0 } }) }
            ∧ (∃ after, (e.handleEvent lt (ScheduledEvent.NOTE_OFF n vel)).voices.get? slot
                  = some after
                ∧ after.isActive = true ∧ after.envelope.isActive = voice.envelope.isActive
                ∧ after.envelope.isReleased = true
                ∧ after.envelope.currentLevel = voice.envelope.currentLevel)
            ∧ (∀ j : Nat, j ≠ slot →
                (e.handleEvent lt (ScheduledEvent.NOTE_OFF n vel)).voices.get? j
                  = e.voices.get? j)
            ∧ (e.handleEvent lt (ScheduledEvent.NOTE_OFF n vel)).params = e.params
            ∧ (e.handleEvent lt (ScheduledEvent.NOTE_OFF n vel)).pitchBend = e.pitchBend
            ∧ (e.handleEvent lt (ScheduledEvent.NOTE_OFF n vel)).getActiveVoiceCount
                = e.getActiveVoiceCount) := by
  constructor
  · intro hnone
    have hf : e.findVoiceForNote n = none := by
      unfold SamSamplerDSP.findVoiceForNote
      rw [List.findIdx?_eq_none_iff]
      intro x hx
      have := hnone x hx
      cases hxa : x.isActive
      · simp
      · simp only [Bool.true_and, decide_eq_false_iff_not]
        exact fun hxn => this ⟨hxa, hxn⟩
    simp only [SamSamplerDSP.handleEvent, hf]
  · intro slot voice hslot hact hnote hfirst
    have hf := findVoiceForNote_of_first e n slot voice hslot hact hnote hfirst
    have hlt : slot < e.voices.length := by
      rcases Nat.lt_or_ge slot e.voices.length with h | h
      · exact h
      · rw [List.get?_eq_none.mpr h] at hslot
        exact absurd hslot (by simp)
    have hget : e.voices.get ⟨slot, hlt⟩ = voice := by
      rw [List.get?_eq_get hlt] at hslot
      exact Option.some.inj hslot
    have hev : e.handleEvent lt (ScheduledEvent.NOTE_OFF n vel)
        = { e with voices := e.voices.modify (fun voice => voice.stopNote vel) slot } := by
      simp only [SamSamplerDSP.handleEvent, hf]
    have hset : e.voices.modify (fun voice => voice.stopNote vel) slot
        = e.voices.set slot ({ voice with envelope :=
            { voice.envelope with isReleased := true, envelopeTime := 0 } }) := by
      rw [List.modify_eq_set_get _ hlt, hget]
      rfl
    refine ⟨by rw [hev, hset], ?_, ?_, by rw [hev], by rw [hev], ?_⟩
    · refine ⟨{ voice with envelope :=
          { voice.envelope with isReleased := true, envelopeTime := 0 } }, ?_, hact, rfl, rfl,
          rfl⟩
      rw [hev, hset]
      simp [List.getElem?_set, hlt]
    · intro j hj
      rw [hev, hset]
      simp [List.getElem?_set, Ne.symm hj]
    · rw [hev]
      unfold SamSamplerDSP.getActiveVoiceCount
      exact congrArg Nat.cast (countP_modify_of_preserved
        (fun v : SamSamplerVoice α => v.isActive)
        (fun voice : SamSamplerVoice α => voice.stopNote vel) (fun _ => rfl) e.voices slot)

/-- Witness for C18: `NOTE_OFF(60)` on the prepared engine after `NOTE_ON(60, 0.8)`; the voice
of slot 0 is the first active voice bound to note 60 and it is released in place. -/
theorem C18_noteOff_frame_witness :
    (∃ voice, noteOnEngine.voices.get? 0 = some voice ∧ voice.isActive = true
        ∧ voice.midiNote = 60)
      ∧ (noteOnEngine.handleEvent ratTables (ScheduledEvent.NOTE_OFF 60 0)).getActiveVoiceCount
          = noteOnEngine.getActiveVoiceCount
      ∧ (noteOnEngine.handleEvent ratTables (ScheduledEvent.NOTE_OFF 60 0)).params
          = noteOnEngine.params :=
  ⟨⟨noteOnEngine.voices.get ⟨0, by decide!⟩, List.get?_eq_get _, by decide!, by decide!⟩,
    ((C18_noteOff_frame ratTables noteOnEngine 60 0).2 0
      (noteOnEngine.voices.get ⟨0, by decide!⟩) (List.get?_eq_get _) (by decide!) (by decide!)
      (fun j w hj => absurd hj (Nat.not_lt_zero j))).2.2.2.2.2,
    ((C18_noteOff_frame ratTables noteOnEngine 60 0).2 0
      (noteOnEngine.voices.get ⟨0, by decide!⟩) (List.get?_eq_get _) (by decide!) (by decide!)
      (fun j w hj => absurd hj (Nat.not_lt_zero j))).2.2.2.1⟩


/-! ## Configuration -/

/-- C21, amended: `prepare` does not validate its arguments.  For every engine, sample rate and
block size (zero and negative values included) it returns true, stores both values, resets
every voice, keeps the parameters and the pitch bend, and keeps the sample cache or extends
it. -/
theorem C21_prepare_accepts_every_configuration {α : Type} [LinearOrderedField α] [FloorRing α]
    (m : Libm α) (lt : LookupTables α) (e : SamSamplerDSP α) (sampleRate : α) (blockSize : Int) :
    (e.prepare m lt sampleRate blockSize).2 = true
      ∧ (e.prepare m lt sampleRate blockSize).1.sampleRate = sampleRate
      ∧ (e.prepare m lt sampleRate blockSize).1.blockSize = blockSize
      ∧ (e.prepare m lt sampleRate blockSize).1.voices = e.voices.map SamSamplerVoice.reset
      ∧ (e.prepare m lt sampleRate blockSize).1.params = e.params
      ∧ (e.prepare m lt sampleRate blockSize).1.pitchBend = e.pitchBend
      ∧ ∃ added, (e.prepare m lt sampleRate blockSize).1.sampleCache = e.sampleCache ++ added := by
  unfold SamSamplerDSP.prepare
  dsimp only
  split_ifs
  · exact ⟨rfl, rfl, rfl, rfl, rfl, rfl, _, rfl⟩
  · exact ⟨rfl, rfl, rfl, rfl, rfl, rfl, [], (List.append_nil _).symm⟩

/-- C21 as stated fails: on a newly constructed engine `prepare(-1, 0)` returns true and
stores the sample rate -1 and the block size 0 in place of 48000 and 512. -/
theorem C21_prepare_accepts_every_configuration_counterexample :
    ((SamSamplerDSP.init : SamSamplerDSP ℚ).prepare ratLibm ratTables (-1) 0).2 = true
      ∧ ((SamSamplerDSP.init : SamSamplerDSP ℚ).prepare ratLibm ratTables (-1) 0).1.sampleRate
          = -1
      ∧ ((SamSamplerDSP.init : SamSamplerDSP ℚ).prepare ratLibm ratTables (-1) 0).1.blockSize = 0
      ∧ (SamSamplerDSP.init : SamSamplerDSP ℚ).sampleRate = 48000
      ∧ (SamSamplerDSP.init : SamSamplerDSP ℚ).blockSize = 512 := by
  decide!

/-- C30: `prepare(sr)` leaves the filter's `sampleRate` field as it was (the assignment in
the source is of the parameter to itself), so the next coefficient computation divides by the
old sample rate; on a newly constructed filter `prepare(44100)` leaves 48000.  The states of
both channels are cleared and the coefficients are marked dirty. -/
theorem C30_prepare_keeps_sample_rate {α : Type} [LinearOrderedField α] (m : Libm α)
    (f : StateVariableFilter α) (sr : α) :
    (f.prepare sr).sampleRate = f.sampleRate
      ∧ ((f.prepare sr).process m (fun _ _ => 0) 1 0).1.cachedG
          = m.tan (m.pi * ((f.prepare sr).process m (fun _ _ => 0) 1 0).1.cutoff / f.sampleRate)
      ∧ ((StateVariableFilter.init : StateVariableFilter α).prepare 44100).sampleRate = 48000
      ∧ (f.prepare sr).s1 0 = 0 ∧ (f.prepare sr).s1 1 = 0
      ∧ (f.prepare sr).s2 0 = 0 ∧ (f.prepare sr).s2 1 = 0
      ∧ (f.prepare sr).coefficientsDirty = true := by
  refine ⟨rfl, ?_, rfl, ?_, ?_, ?_, ?_, rfl⟩ <;>
    simp [StateVariableFilter.prepare, StateVariableFilter.reset, StateVariableFilter.process]

/-! ## Coefficient cache -/

section CoefficientCache

variable {α : Type} [LinearOrderedField α]

/-- The fields of the filter after one `process` call, in terms of the fields before it. -/
theorem process_fields (m : Libm α) (f : StateVariableFilter α) (samples : Nat → Nat → α)
    (numChannels numSamples : Nat) :
    (f.process m samples numChannels numSamples).1.cutoff
        = max 20 (min 20000 (f.cutoff + (f.cutoffSmooth - f.cutoff) * (1 - f.smoothingCoeff)))
      ∧ (f.process m samples numChannels numSamples).1.resonance
        = max 0 (min 1 (f.resonance + (f.resonanceSmooth - f.resonance)
            * (1 - f.smoothingCoeff)))
      ∧ (f.process m samples numChannels numSamples).1.cutoffSmooth = f.cutoffSmooth
      ∧ (f.process m samples numChannels numSamples).1.resonanceSmooth = f.resonanceSmooth
      ∧ (f.process m samples numChannels numSamples).1.smoothingCoeff = f.smoothingCoeff
      ∧ (f.process m samples numChannels numSamples).1.sampleRate = f.sampleRate
      ∧ (f.process m samples numChannels numSamples).1.coefficientsDirty = false
      ∧ (f.process m samples numChannels numSamples).1.cachedG
        = (if f.coefficientsDirty then
            m.tan (m.pi * (f.process m samples numChannels numSamples).1.cutoff / f.sampleRate)
          else f.cachedG)
      ∧ (f.process m samples numChannels numSamples).1.cachedR
        = (if f.coefficientsDirty then
            1 - (f.process m samples numChannels numSamples).1.resonance * (99 / 100)
          else f.cachedR) :=
  ⟨rfl, rfl, rfl, rfl, rfl, rfl, rfl, rfl, rfl⟩

theorem retunedFilter_fields (α : Type) [LinearOrderedField α] :
    (retunedFilter : StateVariableFilter α).cutoff = 20000
      ∧ (retunedFilter : StateVariableFilter α).resonance = 0
      ∧ (retunedFilter : StateVariableFilter α).cutoffSmooth = 1000
      ∧ (retunedFilter : StateVariableFilter α).resonanceSmooth = 1 / 2
      ∧ (retunedFilter : StateVariableFilter α).smoothingCoeff = 999 / 1000
      ∧ (retunedFilter : StateVariableFilter α).sampleRate = 48000
      ∧ (retunedFilter : StateVariableFilter α).coefficientsDirty = true := by
  have hne : ((StateVariableFilter.init : StateVariableFilter α).prepare 48000).cutoffSmooth
        ≠ 1000
      ∨ ((StateVariableFilter.init : StateVariableFilter α).prepare 48000).resonanceSmooth
        ≠ 1 / 2 :=
    Or.inl (by
      show (20000 : α) ≠ 1000
      norm_num)
  unfold retunedFilter StateVariableFilter.setParameters
  rw [if_pos hne]
  exact ⟨rfl, rfl, rfl, rfl, rfl, rfl, rfl⟩

/-- The first block after `setParameters(1000, 0.5)` on the default filter: one smoothing
step, coefficients computed and cached. -/
theorem retunedFilter_block1 (m : Libm α) :
    (filterAfterBlocks m (retunedFilter : StateVariableFilter α) 1).cutoff = 19981
      ∧ (filterAfterBlocks m (retunedFilter : StateVariableFilter α) 1).resonance = 1 / 2000
      ∧ (filterAfterBlocks m (retunedFilter : StateVariableFilter α) 1).cutoffSmooth = 1000
      ∧ (filterAfterBlocks m (retunedFilter : StateVariableFilter α) 1).resonanceSmooth = 1 / 2
      ∧ (filterAfterBlocks m (retunedFilter : StateVariableFilter α) 1).smoothingCoeff
          = 999 / 1000
      ∧ (filterAfterBlocks m (retunedFilter : StateVariableFilter α) 1).sampleRate = 48000
      ∧ (filterAfterBlocks m (retunedFilter : StateVariableFilter α) 1).coefficientsDirty = false
      ∧ (filterAfterBlocks m (retunedFilter : StateVariableFilter α) 1).cachedG
          = m.tan (m.pi * 19981 / 48000)
      ∧ (filterAfterBlocks m (retunedFilter : StateVariableFilter α) 1).cachedR
          = 1 - 1 / 2000 * (99 / 100) := by
  have h1 : max (20 : α) (min 20000 (20000 + (1000 - 20000) * (1 - 999 / 1000))) = 19981 := by
    rw [show (20000 : α) + (1000 - 20000) * (1 - 999 / 1000) = 19981 by norm_num,
      min_eq_right (by norm_num), max_eq_right (by norm_num)]
  have h2 : max (0 : α) (min 1 (0 + (1 / 2 - 0) * (1 - 999 / 1000))) = 1 / 2000 := by
    rw [show (0 : α) + (1 / 2 - 0) * (1 - 999 / 1000) = 1 / 2000 by norm_num,
      min_eq_right (by norm_num), max_eq_right (by norm_num)]
  obtain ⟨c0, r0, cs, rs, sc, sr, d⟩ := retunedFilter_fields α
  obtain ⟨p1, p2, p3, p4, p5, p6, p7, p8, p9⟩ :=
    process_fields m (retunedFilter : StateVariableFilter α) (fun _ _ => 0) 1 1
  rw [c0, cs, sc, h1] at p1
  rw [r0, rs, sc, h2] at p2
  rw [d, if_pos rfl, p1, sr] at p8
  rw [d, if_pos rfl, p2] at p9
  exact ⟨p1, p2, p3.trans cs, p4.trans rs, p5.trans sc, p6.trans sr, p7, p8, p9⟩

/-- The second block: one more smoothing step, the cached coefficients are reused. -/
theorem retunedFilter_block2 (m : Libm α) :
    (filterAfterBlocks m (retunedFilter : StateVariableFilter α) 2).cutoff = 19962019 / 1000
      ∧ (filterAfterBlocks m (retunedFilter : StateVariableFilter α) 2).resonance
          = 1999 / 2000000
      ∧ (filterAfterBlocks m (retunedFilter : StateVariableFilter α) 2).sampleRate = 48000
      ∧ (filterAfterBlocks m (retunedFilter : StateVariableFilter α) 2).cachedG
          = m.tan (m.pi * 19981 / 48000)
      ∧ (filterAfterBlocks m (retunedFilter : StateVariableFilter α) 2).cachedR
          = 1 - 1 / 2000 * (99 / 100) := by
  have h1 : max (20 : α) (min 20000 (19981 + (1000 - 19981) * (1 - 999 / 1000)))
      = 19962019 / 1000 := by
    rw [show (19981 : α) + (1000 - 19981) * (1 - 999 / 1000) = 19962019 / 1000 by norm_num,
      min_eq_right (by norm_num), max_eq_right (by norm_num)]
  have h2 : max (0 : α) (min 1 (1 / 2000 + (1 / 2 - 1 / 2000) * (1 - 999 / 1000)))
      = 1999 / 2000000 := by
    rw [show (1 / 2000 : α) + (1 / 2 - 1 / 2000) * (1 - 999 / 1000) = 1999 / 2000000 by
      norm_num, min_eq_right (by norm_num), max_eq_right (by norm_num)]
  obtain ⟨c0, r0, cs, rs, sc, sr, d, g0, R0⟩ := retunedFilter_block1 m
  obtain ⟨p1, p2, -, -, -, p6, -, p8, p9⟩ :=
    process_fields m (filterAfterBlocks m (retunedFilter : StateVariableFilter α) 1)
      (fun _ _ => 0) 1 1
  rw [c0, cs, sc, h1] at p1
  rw [r0, rs, sc, h2] at p2
  rw [d, if_neg (by simp), g0] at p8
  rw [d, if_neg (by simp), R0] at p9
  exact ⟨p1, p2, p6.trans sr, p8, p9⟩

end CoefficientCache

/-- C26: on the default filter after `setParameters(1000, 0.5)`, the first `process` call
smooths the cutoff to 19981 Hz and the resonance to 0.0005 and caches the coefficients; the
second call smooths them on to 19962.019 Hz and 0.0009995 but filters its block with the cached
coefficients of the first: `g = tan(pi * 19981 / 48000)`, not `tan(pi * 19962.019 / 48000)`,
and `R = 1 - 0.99 * 0.0005`, not `1 - 0.99 * 0.0009995`. -/
theorem C26_cached_coefficients_go_stale :
    (filterAfterBlocks (⟨Real.sqrt, Real.cos, Real.tan, Real.pi⟩ : Libm ℝ) retunedFilter 2).cutoff
        = 19962019 / 1000
      ∧ (filterAfterBlocks (⟨Real.sqrt, Real.cos, Real.tan, Real.pi⟩ : Libm ℝ)
          retunedFilter 2).resonance = 1999 / 2000000
      ∧ (filterAfterBlocks (⟨Real.sqrt, Real.cos, Real.tan, Real.pi⟩ : Libm ℝ)
          retunedFilter 2).cachedG = Real.tan (Real.pi * 19981 / 48000)
      ∧ (filterAfterBlocks (⟨Real.sqrt, Real.cos, Real.tan, Real.pi⟩ : Libm ℝ)
          retunedFilter 2).cachedG
        ≠ Real.tan (Real.pi
            * (filterAfterBlocks (⟨Real.sqrt, Real.cos, Real.tan, Real.pi⟩ : Libm ℝ)
                retunedFilter 2).cutoff
            / (filterAfterBlocks (⟨Real.sqrt, Real.cos, Real.tan, Real.pi⟩ : Libm ℝ)
                retunedFilter 2).sampleRate)
      ∧ (filterAfterBlocks (⟨Real.sqrt, Real.cos, Real.tan, Real.pi⟩ : Libm ℝ)
          retunedFilter 2).cachedR
        ≠ 1 - (filterAfterBlocks (⟨Real.sqrt, Real.cos, Real.tan, Real.pi⟩ : Libm ℝ)
            retunedFilter 2).resonance * (99 / 100) := by
  obtain ⟨c, r, sr, g, R⟩ :=
    retunedFilter_block2 (⟨Real.sqrt, Real.cos, Real.tan, Real.pi⟩ : Libm ℝ)
  have hpi := Real.pi_pos
  refine ⟨c, r, g, ?_, ?_⟩
  · rw [g, c, sr]
    have hlt : Real.tan (Real.pi * (19962019 / 1000) / 48000)
        < Real.tan (Real.pi * 19981 / 48000) :=
      Real.tan_lt_tan_of_lt_of_lt_pi_div_two (by linarith) (by linarith) (by linarith)
    exact ne_of_gt hlt
  · rw [R, r]
    norm_num

/-! ## Lowpass DC gain -/

/-- C27: for coefficients `g > 0`, `R > 0`, `h = 1 / (1 + g (2R + g))` and a constant input
`x`, at a state that the per-sample update maps to itself the Lowpass output is `x / g²`: it
differs from `x` whenever `x ≠ 0` and `g ≠ 1`, and exceeds `x` for `x > 0` and `g < 1`. -/
theorem C27_lowpass_dc_gain {α : Type} [LinearOrderedField α] (g R x : α)
    (hg : 0 < g) (hR : 0 < R) (s : α × α)
    (h1 : (svfStep FilterType.Lowpass g R (1 / (1 + g * (2 * R + g))) x s).1 = s.1)
    (h2 : (svfStep FilterType.Lowpass g R (1 / (1 + g * (2 * R + g))) x s).2.1 = s.2) :
    (svfStep FilterType.Lowpass g R (1 / (1 + g * (2 * R + g))) x s).2.2 = x / g ^ 2
      ∧ (x ≠ 0 → g ≠ 1 →
          (svfStep FilterType.Lowpass g R (1 / (1 + g * (2 * R + g))) x s).2.2 ≠ x)
      ∧ (0 < x → g < 1 →
          x < (svfStep FilterType.Lowpass g R (1 / (1 + g * (2 * R + g))) x s).2.2) := by
  have hh : (1 / (1 + g * (2 * R + g))) ≠ 0 := by positivity
  have hg2 : 0 < g ^ 2 := by positivity
  simp only [svfStep_eq] at h1 h2 ⊢
  set hp := (x - (1 + g * 2 * R) * s.1 - g * g * s.2) * (1 / (1 + g * (2 * R + g))) with hpdef
  have hhp : hp = 0 := by
    have : g * hp = 0 := by linarith
    rcases mul_eq_zero.mp this with h | h
    · exact absurd h hg.ne'
    · exact h
  have hs1 : s.1 = 0 := by
    have : g * (g * hp + s.1) = 0 := by linarith
    rcases mul_eq_zero.mp this with h | h
    · exact absurd h hg.ne'
    · rw [hhp] at h; linarith
  have hnum : x - (1 + g * 2 * R) * s.1 - g * g * s.2 = 0 := by
    rcases mul_eq_zero.mp (hpdef ▸ hhp) with h | h
    · exact h
    · exact absurd h hh
  have hs2 : s.2 = x / g ^ 2 := by
    rw [hs1] at hnum
    rw [eq_div_iff hg2.ne']
    linarith
  have hout : g * (g * hp + s.1) + s.2 = x / g ^ 2 := by
    rw [hhp, hs1, hs2]
    ring
  simp only [if_true]
  rw [hout]
  refine ⟨rfl, fun hx hg1 heq => ?_, fun hx hg1 => ?_⟩
  · rw [div_eq_iff hg2.ne'] at heq
    have h3 : x * (g ^ 2 - 1) = 0 := by linarith
    rcases mul_eq_zero.mp h3 with h | h
    · exact hx h
    · have h4 : (g - 1) * (g + 1) = 0 := by linarith
      rcases mul_eq_zero.mp h4 with h5 | h5
      · exact hg1 (by linarith)
      · linarith
  · rw [lt_div_iff₀ hg2]
    have : g ^ 2 < 1 := by nlinarith
    nlinarith

/-- Witness for C27: `g = 1/2`, `R = 1`, input 1 and the steady state (0, 4), where the
Lowpass output is 4. -/
theorem C27_lowpass_dc_gain_witness :
    (0 : ℚ) < 1 / 2 ∧ (0 : ℚ) < 1
      ∧ (svfStep FilterType.Lowpass (1 / 2 : ℚ) 1 (1 / (1 + 1 / 2 * (2 * 1 + 1 / 2))) 1
          (0, 4)).2.2 = 1 / (1 / 2) ^ 2
      ∧ (svfStep FilterType.Lowpass (1 / 2 : ℚ) 1 (1 / (1 + 1 / 2 * (2 * 1 + 1 / 2))) 1
          (0, 4)).2.2 ≠ 1 :=
  ⟨by decide!, by decide,
    (C27_lowpass_dc_gain (1 / 2 : ℚ) 1 1 (by decide!) (by decide) (0, 4)
      (by decide!) (by decide!)).1,
    (C27_lowpass_dc_gain (1 / 2 : ℚ) 1 1 (by decide!) (by decide) (0, 4)
      (by decide!) (by decide!)).2.1 (by decide) (by decide!)⟩

/-! ## Stage durations -/

theorem applyCurve_one {α : Type} [LinearOrderedField α] (m : Libm α) (c : EnvelopeCurve)
    (hsqrt : m.sqrt 1 = 1) (hcos : m.cos m.pi = -1) : ADSREnvelope.applyCurve m 1 c = 1 := by
  unfold ADSREnvelope.applyCurve
  split_ifs
  · rfl
  · norm_num
  · exact hsqrt
  · rw [one_mul, hcos]
    norm_num
  · rfl

/-- C28, amended: with a positive sample rate and a clock that is not negative, every division
by `attack`, `decay` or `releaseTime` that `process` evaluates has a positive divisor.  With
`attack ≤ 0` the first `process` after `start` returns 1 when `attack + hold > 0`, the decay
value at time `-(attack + hold)` when `attack + hold ≤ 0 < attack + hold + decay`, and the
sustain level otherwise; with `attack = 0` and `hold ≥ 0` this is 1 when `hold` or `decay` is
positive and the sustain level otherwise.  With `releaseTime ≤ 0` the first `process` after
`release` returns 0 and deactivates the envelope. -/
theorem C28_stage_durations {α : Type} [LinearOrderedField α] (m : Libm α)
    (e : ADSREnvelope α) (sampleRate : α) (numSamples : Int) (hsr : 0 < sampleRate) :
    (0 ≤ e.envelopeTime → ∀ d ∈ e.processDivisors sampleRate, 0 < d)
      ∧ (e.attack ≤ 0 →
          (e.start.process m sampleRate numSamples).2
            = if 0 < e.attack + e.hold then 1
              else if 0 < e.attack + e.hold + e.decay then
                e.sustain + (1 - e.sustain) *
                  ADSREnvelope.applyCurve m (1 - (0 - e.attack - e.hold) / e.decay) e.decayCurve
              else e.sustain)
      ∧ (e.attack = 0 → 0 ≤ e.hold → m.sqrt 1 = 1 → m.cos m.pi = -1 →
          (e.start.process m sampleRate numSamples).2
            = if 0 < e.hold ∨ 0 < e.decay then 1 else e.sustain)
      ∧ (e.releaseTime ≤ 0 →
          (e.release.process m sampleRate numSamples).2 = 0
            ∧ (e.release.process m sampleRate numSamples).1.isActive = false) := by
  have hstart : (e.start.process m sampleRate numSamples).2
      = if (0 : α) < e.attack then ADSREnvelope.applyCurve m (0 / e.attack) e.attackCurve
        else if 0 < e.attack + e.hold then 1
        else if 0 < e.attack + e.hold + e.decay then
          e.sustain + (1 - e.sustain) *
            ADSREnvelope.applyCurve m (1 - (0 - e.attack - e.hold) / e.decay) e.decayCurve
        else e.sustain := by
    simp [ADSREnvelope.process, ADSREnvelope.start]
  refine ⟨fun ht d hd => ?_, fun ha => ?_, fun ha hh hsqrt hcos => ?_, fun hr => ?_⟩
  · have htime : 0 ≤ e.envelopeTime / sampleRate := div_nonneg ht hsr.le
    unfold ADSREnvelope.processDivisors at hd
    dsimp only at hd
    split_ifs at hd with c1 c2 c3 c4 c5 c6 <;> simp at hd
    · rw [hd]; linarith
    · rw [hd]; linarith
    · rw [hd]; linarith
  · rw [hstart, if_neg (not_lt.mpr ha)]
  · rw [hstart, if_neg (not_lt.mpr ha.le), ha]
    by_cases hh0 : 0 < e.hold
    · rw [if_pos (by linarith), if_pos (Or.inl hh0)]
    · have hh1 : e.hold = 0 := le_antisymm (not_lt.mp hh0) hh
      rw [if_neg (by linarith), hh1]
      by_cases hd0 : 0 < e.decay
      · rw [if_pos (by linarith), if_pos (Or.inr hd0)]
        have : (1 : α) - (0 - 0 - 0) / e.decay = 1 := by simp
        rw [this, applyCurve_one m _ hsqrt hcos]
        ring
      · rw [if_neg (by linarith), if_neg (by
          rintro (h | h)
          · exact hh0 (hh1 ▸ h)
          · exact hd0 h)]
  · by_cases hact : e.isActive
    · simp [ADSREnvelope.process, ADSREnvelope.release, hact, not_lt.mpr hr]
    · simp [ADSREnvelope.process, ADSREnvelope.release, hact]

/-- Witness for C28 as amended: the default envelope with `attack = 0`, `hold = 0` and
`decay = 0.1` at 48000 Hz returns 1 on the first `process` after `start`, and its only
division is by `decay`. -/
theorem C28_stage_durations_witness :
    (0 : ℚ) < 48000
      ∧ (({ (ADSREnvelope.init : ADSREnvelope ℚ) with attack := 0 }).start.process
          ⟨fun t => t, fun _ => -1, fun t => t, 3⟩ 48000 1).2 = 1
      ∧ ∀ d ∈ (({ (ADSREnvelope.init : ADSREnvelope ℚ) with attack := 0 }).start).processDivisors
          48000, 0 < d :=
  ⟨by decide,
    ((C28_stage_durations ⟨fun t => t, fun _ => -1, fun t => t, 3⟩
      ({ (ADSREnvelope.init : ADSREnvelope ℚ) with attack := 0 }) 48000 1 (by decide)).2.2.1
      rfl (by decide!) rfl rfl).trans (by decide!),
    (C28_stage_durations ⟨fun t => t, fun _ => -1, fun t => t, 3⟩
      (({ (ADSREnvelope.init : ADSREnvelope ℚ) with attack := 0 }).start) 48000 1
      (by decide)).1 (by decide!)⟩

/-- C28 as stated fails: with `attack = -1` and the positive `hold = 0.5` (decay 0.1, sustain
0.7) the first `process` after `start` returns the sustain level 0.7, not 1. -/
theorem C28_stage_durations_counterexample :
    (0 : ℚ) < 1 / 2
      ∧ (({ (ADSREnvelope.init : ADSREnvelope ℚ) with attack := -1, hold := 1 / 2 }).start.process
          ratLibm 48000 1).2 = 7 / 10
      ∧ (({ (ADSREnvelope.init : ADSREnvelope ℚ) with attack := -1, hold := 1 / 2 }).start.process
          ratLibm 48000 1).2 ≠ 1 := by
  decide!

/-! ## Interpolation -/

section Interpolation

variable {α : Type} [LinearOrderedField α] [FloorRing α]

theorem interpolateLinear_invalid (v : SamSamplerVoice α) (position : α)
    (h : sampleOk v.sample = false) : v.interpolateLinear position = 0 := by
  unfold SamSamplerVoice.interpolateLinear
  cases hs : v.sample with
  | none => rfl
  | some smp =>
    rw [hs] at h
    simp only [sampleOk] at h
    simp [h]

theorem interpolateCubic_invalid (v : SamSamplerVoice α) (position : α)
    (h : sampleOk v.sample = false) : v.interpolateCubic position = 0 := by
  unfold SamSamplerVoice.interpolateCubic
  cases hs : v.sample with
  | none => rfl
  | some smp =>
    rw [hs] at h
    simp only [sampleOk] at h
    simp [h]

theorem interpolate_invalid (v : SamSamplerVoice α) (position : α)
    (h : sampleOk v.sample = false) : v.interpolate position = 0 := by
  unfold SamSamplerVoice.interpolate
  split_ifs
  · exact interpolateCubic_invalid v position h
  · exact interpolateLinear_invalid v position h

theorem isValid_numSamples_pos {β : Type} [LinearOrderedField β] (smp : Sample β)
    (h : smp.isValid = true) : 0 < smp.numSamples := by
  simp [Sample.isValid] at h
  exact h.2

/-- What `interpolateLinear` computes, in terms of the indices it reads: nothing is read and
the result is 0, or two elements are read and blended by the fraction of the position. -/
theorem interpolateLinear_reads (v : SamSamplerVoice α) (smp : Sample α)
    (hs : v.sample = some smp) (position : α) :
    (v.interpolateLinearReads position = [] ∧ v.interpolateLinear position = 0)
      ∨ ∃ i0 i1 : Int, v.interpolateLinearReads position = [i0, i1]
          ∧ v.interpolateLinear position
            = smp.read i0 * (1 - (position - ((truncToInt position : Int) : α)))
              + smp.read i1 * (position - ((truncToInt position : Int) : α)) := by
  unfold SamSamplerVoice.interpolateLinearReads SamSamplerVoice.interpolateLinear
  rw [hs]
  dsimp only
  split_ifs
  · exact Or.inl ⟨rfl, rfl⟩
  · exact Or.inr ⟨_, _, rfl, rfl⟩
  · exact Or.inl ⟨rfl, rfl⟩
  · exact Or.inr ⟨_, _, rfl, rfl⟩
  · exact Or.inl ⟨rfl, rfl⟩
  · exact Or.inl ⟨rfl, rfl⟩

/-- What `interpolateCubic` computes, in terms of the indices it reads: four elements
combined by the cubic formula, or the reads and the result of `interpolateLinear`. -/
theorem interpolateCubic_reads (v : SamSamplerVoice α) (smp : Sample α)
    (hs : v.sample = some smp) (position : α) :
    (v.interpolateCubicReads position = v.interpolateLinearReads position
        ∧ v.interpolateCubic position = v.interpolateLinear position)
      ∨ ∃ i0 i1 i2 i3 : Int, v.interpolateCubicReads position = [i0, i1, i2, i3]
          ∧ v.interpolateCubic position
            = smp.read i1 + (1 / 2) * (position - ((truncToInt position : Int) : α))
                * (smp.read i2 - smp.read i0
                  + (position - ((truncToInt position : Int) : α))
                    * (2 * smp.read i0 - 5 * smp.read i1 + 4 * smp.read i2 - smp.read i3
                      + (position - ((truncToInt position : Int) : α))
                        * (3 * (smp.read i1 - smp.read i2) + smp.read i3 - smp.read i0))) := by
  by_cases hvalid : smp.isValid = true
  · unfold SamSamplerVoice.interpolateCubicReads SamSamplerVoice.interpolateCubic
    rw [hs]
    simp only [hvalid, Bool.not_true, Bool.false_eq_true, if_false]
    split_ifs
    · exact Or.inr ⟨_, _, _, _, rfl, rfl⟩
    · exact Or.inl ⟨rfl, rfl⟩
    · exact Or.inr ⟨_, _, _, _, rfl, rfl⟩
    · exact Or.inl ⟨rfl, rfl⟩
    · exact Or.inl ⟨rfl, rfl⟩
  · have hbad : sampleOk v.sample = false := by
      rw [hs]
      simpa [sampleOk] using hvalid
    refine Or.inl ⟨?_, ?_⟩
    · unfold SamSamplerVoice.interpolateCubicReads SamSamplerVoice.interpolateLinearReads
      rw [hs]
      simp [hvalid]
    · rw [interpolateCubic_invalid v position hbad, interpolateLinear_invalid v position hbad]

/-- The indices that `interpolateLinear` reads are within `numSamples * numChannels`. -/
theorem interpolateLinearReads_bounds (v : SamSamplerVoice α) (smp : Sample α)
    (hs : v.sample = some smp) (position : α) :
    ∀ i ∈ v.interpolateLinearReads position,
      0 ≤ i ∧ i < smp.numSamples * smp.numChannels := by
  intro i hi
  have hb := truncToInt_bounds position
  unfold SamSamplerVoice.interpolateLinearReads at hi
  rw [hs] at hi
  dsimp only at hi
  split_ifs at hi with c1 c2 c3 c4 c5 <;> simp at hi
  · have hN := isValid_numSamples_pos smp (by simpa using c1)
    rw [c2]
    unfold wrapInt at hi c3
    omega
  · have hN := isValid_numSamples_pos smp (by simpa using c1)
    rw [c4]
    unfold wrapInt at hi c5
    omega

/-- The indices that `interpolateCubic` reads are within `numSamples * numChannels`. -/
theorem interpolateCubicReads_bounds (v : SamSamplerVoice α) (smp : Sample α)
    (hs : v.sample = some smp)
    (hcount : smp.numSamples * smp.numChannels ≤ 2147483647) (position : α) :
    ∀ i ∈ v.interpolateCubicReads position,
      0 ≤ i ∧ i < smp.numSamples * smp.numChannels := by
  intro i hi
  have hb := truncToInt_bounds position
  unfold SamSamplerVoice.interpolateCubicReads at hi
  rw [hs] at hi
  dsimp only at hi
  split_ifs at hi with c1 c2 c3 c4 c5
  · simp at hi
  · have hN := isValid_numSamples_pos smp (by simpa using c1)
    simp at hi
    rw [c2] at hcount ⊢
    unfold wrapInt at hi c3
    omega
  · exact interpolateLinearReads_bounds v smp hs position i hi
  · have hN := isValid_numSamples_pos smp (by simpa using c1)
    simp at hi
    rw [c4] at hcount ⊢
    unfold wrapInt at hi c5
    omega
  · exact interpolateLinearReads_bounds v smp hs position i hi
  · exact interpolateLinearReads_bounds v smp hs position i hi

/-- At a frame index that is at least `numSamples - 1`, or negative and (for a stereo sample)
not below -2^30, `interpolateLinear` reads nothing. -/
theorem interpolateLinearReads_outside (v : SamSamplerVoice α) (smp : Sample α)
    (hs : v.sample = some smp) (position : α)
    (hout : truncToInt position ≥ smp.numSamples - 1
      ∨ (truncToInt position < 0
          ∧ (smp.numChannels = 2 → -1073741824 ≤ truncToInt position))) :
    v.interpolateLinearReads position = [] := by
  have hb := truncToInt_bounds position
  unfold SamSamplerVoice.interpolateLinearReads
  rw [hs]
  dsimp only
  split_ifs with c1 c2 c3 c4 c5
  · rfl
  · exfalso
    have hN := isValid_numSamples_pos smp (by simpa using c1)
    unfold wrapInt at c3
    omega
  · rfl
  · exfalso
    have hN := isValid_numSamples_pos smp (by simpa using c1)
    unfold wrapInt at c5
    omega
  · rfl
  · rfl

/-- Linear interpolation at an integer position within the range of `int`, for a valid mono
or stereo sample whose element count is within the range of `int`; for a stereo sample the
position is at least -2^30, so that `index0 * 2` does not wrap. -/
theorem interpolateLinear_intCast (v : SamSamplerVoice α) (smp : Sample α)
    (hs : v.sample = some smp) (hvalid : smp.isValid = true)
    (hch : smp.numChannels = 1 ∨ smp.numChannels = 2)
    (hcount : smp.numSamples * smp.numChannels ≤ 2147483647)
    (p : Int) (h1 : -2147483648 ≤ p) (h2 : p ≤ 2147483647)
    (hwrap : smp.numChannels = 2 → -1073741824 ≤ p) :
    v.interpolateLinear ((p : Int) : α)
      = if 0 ≤ p ∧ p < smp.numSamples - 1 then smp.read (p * smp.numChannels) else 0 := by
  have hN := isValid_numSamples_pos smp hvalid
  unfold SamSamplerVoice.interpolateLinear
  rw [hs]
  simp only [hvalid, Bool.not_true, Bool.false_eq_true, if_false, truncToInt_intCast p h1 h2,
    sub_self, sub_zero, mul_one, mul_zero, add_zero]
  rcases hch with c1 | c2
  · rw [c1] at hcount
    rw [if_pos c1, c1, mul_one, wrapInt_of_mem (smp.numSamples - 1) (by omega) (by omega)]
  · have hne : ¬ smp.numChannels = 1 := by omega
    have hp := hwrap c2
    rw [c2] at hcount
    rw [if_neg hne, if_pos c2, c2,
      wrapInt_of_mem (smp.numSamples * 2) (by omega) (by omega),
      wrapInt_of_mem (smp.numSamples * 2 - 2) (by omega) (by omega)]
    by_cases hin : 0 ≤ p ∧ p < smp.numSamples - 1
    · rw [wrapInt_of_mem (p * 2) (by omega) (by omega), if_pos ⟨by omega, by omega⟩, if_pos hin]
    · rw [if_neg hin, if_neg]
      intro hg
      unfold wrapInt at hg
      omega

/-- The cubic interpolator returns the result of the linear one when the frame index is at
least `numSamples - 2`, or below 1 and (for a stereo sample) not below -2^30. -/
theorem interpolateCubic_fallback (v : SamSamplerVoice α) (smp : Sample α)
    (hs : v.sample = some smp) (hcount : smp.numSamples * smp.numChannels ≤ 2147483647)
    (position : α)
    (h : (truncToInt position < 1
          ∧ (smp.numChannels = 2 → -1073741824 ≤ truncToInt position))
        ∨ truncToInt position ≥ smp.numSamples - 2) :
    v.interpolateCubic position = v.interpolateLinear position := by
  have hb := truncToInt_bounds position
  by_cases hvalid : smp.isValid = true
  · have hN := isValid_numSamples_pos smp hvalid
    unfold SamSamplerVoice.interpolateCubic
    rw [hs]
    simp only [hvalid, Bool.not_true, Bool.false_eq_true, if_false]
    split_ifs with c1 c2 c3 c4
    · exfalso
      rw [c1] at hcount
      unfold wrapInt at c2
      omega
    · rfl
    · exfalso
      rw [c3] at hcount
      unfold wrapInt at c4
      omega
    · rfl
    · rfl
  · have hbad : sampleOk v.sample = false := by
      rw [hs]
      simpa [sampleOk] using hvalid
    rw [interpolateCubic_invalid v position hbad, interpolateLinear_invalid v position hbad]

/-- At an integer position within the range of `int` the cubic interpolator returns the result
of the linear one. -/
theorem interpolateCubic_intCast (v : SamSamplerVoice α) (smp : Sample α)
    (hs : v.sample = some smp) (hcount : smp.numSamples * smp.numChannels ≤ 2147483647)
    (p : Int) (h1 : -2147483648 ≤ p) (h2 : p ≤ 2147483647) :
    v.interpolateCubic ((p : Int) : α) = v.interpolateLinear ((p : Int) : α) := by
  by_cases hvalid : smp.isValid = true
  · have hN := isValid_numSamples_pos smp hvalid
    have hmono : smp.numChannels = 1 → (p ≥ 1 ∧ p < wrapInt (smp.numSamples - 2)) →
        (p ≥ 0 ∧ p < wrapInt (smp.numSamples - 1)) := by
      intro c h
      rw [c] at hcount
      unfold wrapInt at h ⊢
      omega
    have hstereo : smp.numChannels = 2 →
        (wrapInt (p * 2) ≥ 2 ∧ wrapInt (p * 2) < wrapInt (wrapInt (smp.numSamples * 2) - 4)) →
        (wrapInt (p * 2) ≥ 0
          ∧ wrapInt (p * 2) < wrapInt (wrapInt (smp.numSamples * 2) - 2)) := by
      intro c h
      rw [c] at hcount
      unfold wrapInt at h ⊢
      omega
    unfold SamSamplerVoice.interpolateCubic SamSamplerVoice.interpolateLinear
    rw [hs]
    simp only [hvalid, Bool.not_true, Bool.false_eq_true, if_false, truncToInt_intCast p h1 h2,
      sub_self, sub_zero, mul_one, mul_zero, zero_mul, add_zero]
    split_ifs <;> first | rfl | (exfalso; tauto)
  · have hbad : sampleOk v.sample = false := by
      rw [hs]
      simpa [sampleOk] using hvalid
    rw [interpolateCubic_invalid v _ hbad, interpolateLinear_invalid v _ hbad]

end Interpolation

/-- C24: for a valid mono or stereo sample whose buffer holds `numSamples * numChannels`
values, at most 2^31 - 1 of them, and every integer position `p` within the range of `int`,
`interpolateCubic(p) = interpolateLinear(p)`; for a mono sample, and for a stereo sample when
`p ≥ -2^30`, both are the left-channel value of frame `p` (an element of the buffer) when
`0 ≤ p < numSamples - 1` and 0 otherwise.  For every position whose integer part is within the
range of `int` and whose frame index is at least `numSamples - 2`, or below 1 and (stereo) not
below -2^30, the cubic result is the linear one. -/
theorem C24_cubic_agrees_with_linear {α : Type} [LinearOrderedField α] [FloorRing α]
    (v : SamSamplerVoice α) (smp : Sample α) (hs : v.sample = some smp)
    (hvalid : smp.isValid = true) (hch : smp.numChannels = 1 ∨ smp.numChannels = 2)
    (hlen : (smp.audioData.length : Int) = smp.numSamples * smp.numChannels)
    (hcount : smp.numSamples * smp.numChannels ≤ 2147483647) :
    (∀ p : Int, -2147483648 ≤ p → p ≤ 2147483647 →
        v.interpolateCubic ((p : Int) : α) = v.interpolateLinear ((p : Int) : α)
          ∧ ((smp.numChannels = 2 → -1073741824 ≤ p) →
              v.interpolateLinear ((p : Int) : α)
                = (if 0 ≤ p ∧ p < smp.numSamples - 1 then smp.read (p * smp.numChannels)
                    else 0))
          ∧ (0 ≤ p ∧ p < smp.numSamples - 1 →
              0 ≤ p * smp.numChannels ∧ p * smp.numChannels < (smp.audioData.length : Int)))
      ∧ (∀ position : α, -2147483649 < position → position < 2147483648 →
          (truncToInt position < 1
              ∧ (smp.numChannels = 2 → -1073741824 ≤ truncToInt position))
            ∨ truncToInt position ≥ smp.numSamples - 2 →
            v.interpolateCubic position = v.interpolateLinear position) := by
  refine ⟨fun p h1 h2 => ⟨interpolateCubic_intCast v smp hs hcount p h1 h2,
      fun hwrap => interpolateLinear_intCast v smp hs hvalid hch hcount p h1 h2 hwrap,
      fun hp => ?_⟩,
    fun position _ _ h => interpolateCubic_fallback v smp hs hcount position h⟩
  rw [hlen]
  rcases hch with c1 | c2
  · rw [c1]; omega
  · rw [c2]; omega

/-- Witness for C24: the eight-frame mono sample `rampSample` at position 3, where both
interpolators return the stored value 3/4. -/
theorem C24_cubic_agrees_with_linear_witness :
    rampVoice.sample = some rampSample ∧ rampSample.isValid = true
      ∧ rampVoice.interpolateCubic ((3 : Int) : ℚ) = rampVoice.interpolateLinear ((3 : Int) : ℚ)
      ∧ rampVoice.interpolateLinear ((3 : Int) : ℚ) = 3 / 4 :=
  ⟨rfl, by decide!,
    ((C24_cubic_agrees_with_linear rampVoice rampSample rfl (by decide!) (Or.inl rfl)
      (by decide!) (by decide!)).1 3 (by decide) (by decide)).1,
    ((((C24_cubic_agrees_with_linear rampVoice rampSample rfl (by decide!) (Or.inl rfl)
      (by decide!) (by decide!)).1 3 (by decide) (by decide)).2.1)
        (fun h => absurd h (by decide!))).trans (by decide!)⟩

/-- Counterexample to C24 as stated: the eight-frame stereo sample `stereoRampSample` (valid,
16 values) at the integer position -2147483647, which is not in `0 ≤ p < numSamples - 1`:
`index0 * 2` wraps to 2 and `interpolateLinear` returns `audioData[2] = 1/4`, not 0. -/
theorem C24_cubic_agrees_with_linear_counterexample :
    stereoRampVoice.sample = some stereoRampSample ∧ stereoRampSample.isValid = true
      ∧ stereoRampSample.numChannels = 2
      ∧ (stereoRampSample.audioData.length : Int)
          = stereoRampSample.numSamples * stereoRampSample.numChannels
      ∧ ¬ (0 ≤ (-2147483647 : Int) ∧ (-2147483647 : Int) < stereoRampSample.numSamples - 1)
      ∧ stereoRampVoice.interpolateLinear (((-2147483647 : Int) : Int) : ℚ) = 1 / 4
      ∧ stereoRampVoice.interpolateLinear (((-2147483647 : Int) : Int) : ℚ) ≠ 0 := by
  refine ⟨rfl, by decide!, rfl, by decide!, by decide!, by decide!, by decide!⟩

/-- C29: for a sample with a buffer of exactly `numSamples * numChannels` values, at most
2^31 - 1 of them (one or two channels and `numSamples > 0` in particular; with another channel
count nothing is read), and every position whose integer part is within the range of `int`:
every index of `audioData` that `interpolateLinear` or `interpolateCubic` reads lies within
the buffer, where the indices read are those from which the result is computed (the linear
result is 0 with nothing read, or the blend of the two elements read; the cubic result is the
linear one with the same reads, or the cubic formula over the four elements read); at a
position whose frame index is at least `numSamples - 1`, or negative and (for a stereo sample)
not below -2^30, `interpolateLinear` reads nothing and returns 0. -/
theorem C29_interpolation_reads_in_bounds {α : Type} [LinearOrderedField α] [FloorRing α]
    (v : SamSamplerVoice α) (smp : Sample α) (hs : v.sample = some smp)
    (hlen : (smp.audioData.length : Int) = smp.numSamples * smp.numChannels)
    (hcount : smp.numSamples * smp.numChannels ≤ 2147483647) :
    ∀ position : α, -2147483649 < position → position < 2147483648 →
      (∀ i ∈ v.interpolateLinearReads position, 0 ≤ i ∧ i < (smp.audioData.length : Int))
      ∧ (∀ i ∈ v.interpolateCubicReads position, 0 ≤ i ∧ i < (smp.audioData.length : Int))
      ∧ ((v.interpolateLinearReads position = [] ∧ v.interpolateLinear position = 0)
          ∨ ∃ i0 i1 : Int, v.interpolateLinearReads position = [i0, i1]
              ∧ v.interpolateLinear position
                = smp.read i0 * (1 - (position - ((truncToInt position : Int) : α)))
                  + smp.read i1 * (position - ((truncToInt position : Int) : α)))
      ∧ ((v.interpolateCubicReads position = v.interpolateLinearReads position
            ∧ v.interpolateCubic position = v.interpolateLinear position)
          ∨ ∃ i0 i1 i2 i3 : Int, v.interpolateCubicReads position = [i0, i1, i2, i3]
              ∧ v.interpolateCubic position
                = smp.read i1 + (1 / 2) * (position - ((truncToInt position : Int) : α))
                    * (smp.read i2 - smp.read i0
                      + (position - ((truncToInt position : Int) : α))
                        * (2 * smp.read i0 - 5 * smp.read i1 + 4 * smp.read i2 - smp.read i3
                          + (position - ((truncToInt position : Int) : α))
                            * (3 * (smp.read i1 - smp.read i2) + smp.read i3 - smp.read i0))))
      ∧ (truncToInt position ≥ smp.numSamples - 1
            ∨ (truncToInt position < 0
                ∧ (smp.numChannels = 2 → -1073741824 ≤ truncToInt position)) →
          v.interpolateLinearReads position = [] ∧ v.interpolateLinear position = 0) := by
  intro position _ _
  rw [hlen]
  refine ⟨interpolateLinearReads_bounds v smp hs position,
    interpolateCubicReads_bounds v smp hs hcount position,
    interpolateLinear_reads v smp hs position,
    interpolateCubic_reads v smp hs position, fun hout => ?_⟩
  have hnone := interpolateLinearReads_outside v smp hs position hout
  refine ⟨hnone, ?_⟩
  rcases interpolateLinear_reads v smp hs position with h | ⟨i0, i1, h, -⟩
  · exact h.2
  · rw [hnone] at h
    exact absurd h (by simp)

/-- Witness for C29: the eight-frame mono sample `rampSample` at position 5.5, where the
cubic interpolator reads the indices 4, 5, 6 and 7. -/
theorem C29_interpolation_reads_in_bounds_witness :
    rampVoice.sample = some rampSample
      ∧ (rampSample.audioData.length : Int) = rampSample.numSamples * rampSample.numChannels
      ∧ rampVoice.interpolateCubicReads (11 / 2 : ℚ) = [4, 5, 6, 7]
      ∧ ∀ i ∈ rampVoice.interpolateCubicReads (11 / 2 : ℚ),
          0 ≤ i ∧ i < (rampSample.audioData.length : Int) :=
  ⟨rfl, by decide!, by decide!,
    (C29_interpolation_reads_in_bounds rampVoice rampSample rfl (by decide!) (by decide!)
      (11 / 2) (by norm_num) (by norm_num)).2.1⟩

/-- Counterexample to C29 as stated: the eight-frame stereo sample `stereoRampSample` (two
channels, 16 values) at the position -2147483647, whose integer part is representable and
whose frame index is negative: `index0 * 2` wraps to 2, `interpolateLinear` reads the indices
2 and 4 and returns `audioData[2] = 1/4`. -/
theorem C29_interpolation_reads_in_bounds_counterexample :
    stereoRampVoice.sample = some stereoRampSample
      ∧ stereoRampSample.numChannels = 2 ∧ stereoRampSample.numSamples > 0
      ∧ (stereoRampSample.audioData.length : Int)
          = stereoRampSample.numSamples * stereoRampSample.numChannels
      ∧ truncToInt (-2147483647 : ℚ) = -2147483647
      ∧ stereoRampVoice.interpolateLinearReads (-2147483647 : ℚ) = [2, 4]
      ∧ stereoRampVoice.interpolateLinear (-2147483647 : ℚ) = 1 / 4 := by
  refine ⟨rfl, rfl, by decide!, by decide!, by decide!, by decide!, by decide!⟩

/-! ## Loop crossfade -/

/-- C25: with a sample bound and crossfade length `c = loopCrossfade * sampleRate` of the
sample: when looping is on, `c > 0` and `position ≥ loopEnd - c`, `processLoopCrossfade`
returns `(1 - w) * interp(position) + w * interp(loopStart + position - (loopEnd - c))` with
`w = clamp(1 - (loopEnd - position) / c, 0, 1)`; for `c > 0` the weight is 0 at `loopEnd - c`,
1 at `loopEnd`, non-decreasing in the position and within [0, 1]; when looping is off or
`position < loopEnd - c` the result is `interp(position)`. -/
theorem C25_loop_crossfade_weight {α : Type} [LinearOrderedField α] [FloorRing α]
    (v : SamSamplerVoice α) (smp : Sample α) (hs : v.sample = some smp) (position : α)
    (channel : Int) :
    (v.isLooping = true → 0 < v.loopCrossfade * (smp.sampleRate : α) →
        position ≥ v.loopEnd - v.loopCrossfade * (smp.sampleRate : α) →
        v.processLoopCrossfade position channel
          = (1 - crossfadeWeight (v.loopCrossfade * (smp.sampleRate : α)) v.loopEnd position)
              * v.interpolate position
            + crossfadeWeight (v.loopCrossfade * (smp.sampleRate : α)) v.loopEnd position
              * v.interpolate (v.loopStart + position
                  - (v.loopEnd - v.loopCrossfade * (smp.sampleRate : α))))
      ∧ (0 < v.loopCrossfade * (smp.sampleRate : α) →
          crossfadeWeight (v.loopCrossfade * (smp.sampleRate : α)) v.loopEnd
              (v.loopEnd - v.loopCrossfade * (smp.sampleRate : α)) = 0
            ∧ crossfadeWeight (v.loopCrossfade * (smp.sampleRate : α)) v.loopEnd v.loopEnd = 1
            ∧ (∀ p q : α, p ≤ q →
                crossfadeWeight (v.loopCrossfade * (smp.sampleRate : α)) v.loopEnd p
                  ≤ crossfadeWeight (v.loopCrossfade * (smp.sampleRate : α)) v.loopEnd q)
            ∧ (∀ p : α,
                0 ≤ crossfadeWeight (v.loopCrossfade * (smp.sampleRate : α)) v.loopEnd p
                  ∧ crossfadeWeight (v.loopCrossfade * (smp.sampleRate : α)) v.loopEnd p ≤ 1))
      ∧ (v.isLooping = false ∨ position < v.loopEnd - v.loopCrossfade * (smp.sampleRate : α) →
          v.processLoopCrossfade position channel = v.interpolate position) := by
  refine ⟨fun hloop _ hpos => ?_, fun hc => ⟨?_, ?_, fun p q hpq => ?_, fun p => ?_⟩,
    fun hoff => ?_⟩
  · by_cases hvalid : smp.isValid = true
    · unfold SamSamplerVoice.processLoopCrossfade
      rw [hs]
      simp only [hvalid, Bool.not_true, Bool.false_eq_true, if_false]
      rw [if_pos ⟨hloop, hpos⟩]
      unfold crossfadeWeight clamp
      rw [show v.loopStart + (position - (v.loopEnd - v.loopCrossfade * (smp.sampleRate : α)))
        = v.loopStart + position - (v.loopEnd - v.loopCrossfade * (smp.sampleRate : α)) by ring]
      ring
    · have hbad : sampleOk v.sample = false := by
        rw [hs]
        simpa [sampleOk] using hvalid
      have h0 : v.processLoopCrossfade position channel = 0 := by
        unfold SamSamplerVoice.processLoopCrossfade
        rw [hs]
        simp [hvalid]
      rw [h0, interpolate_invalid v _ hbad, interpolate_invalid v _ hbad]
      ring
  · unfold crossfadeWeight clamp
    rw [show v.loopEnd - (v.loopEnd - v.loopCrossfade * (smp.sampleRate : α))
      = v.loopCrossfade * (smp.sampleRate : α) by ring, div_self hc.ne']
    simp
  · unfold crossfadeWeight clamp
    simp
  · unfold crossfadeWeight clamp
    have hdiv : (v.loopEnd - q) / (v.loopCrossfade * (smp.sampleRate : α))
        ≤ (v.loopEnd - p) / (v.loopCrossfade * (smp.sampleRate : α)) :=
      div_le_div_of_nonneg_right (by linarith) hc.le
    exact max_le_max (le_refl 0) (min_le_min (le_refl 1) (by linarith))
  · unfold crossfadeWeight
    exact clamp_mem _ 0 1 (by norm_num)
  · by_cases hvalid : smp.isValid = true
    · unfold SamSamplerVoice.processLoopCrossfade
      rw [hs]
      simp only [hvalid, Bool.not_true, Bool.false_eq_true, if_false]
      rw [if_neg]
      rintro ⟨hl, hp⟩
      rcases hoff with h | h
      · rw [hl] at h
        exact Bool.noConfusion h
      · exact absurd hp (not_le.mpr h)
    · have hbad : sampleOk v.sample = false := by
        rw [hs]
        simpa [sampleOk] using hvalid
      rw [interpolate_invalid v _ hbad]
      unfold SamSamplerVoice.processLoopCrossfade
      rw [hs]
      simp [hvalid]

/-- Witness for C25: `loopingRampVoice` at position 5, one frame before the loop end and
inside the two-frame crossfade: the weight is 1/2 and the result is
`(3/4) / 2 + (1/2) / 2 = 5/8`. -/
theorem C25_loop_crossfade_weight_witness :
    loopingRampVoice.sample = some rampSample ∧ loopingRampVoice.isLooping = true
      ∧ crossfadeWeight (loopingRampVoice.loopCrossfade * (rampSample.sampleRate : ℚ))
          loopingRampVoice.loopEnd 5 = 1 / 2
      ∧ loopingRampVoice.processLoopCrossfade 5 0 = 5 / 8 :=
  ⟨rfl, rfl, by decide!,
    ((C25_loop_crossfade_weight loopingRampVoice rampSample rfl 5 0).1 rfl (by decide!)
      (by decide!)).trans (by decide!)⟩


/-! ## Preset text: digits -/

section PresetDigits

theorem digitValue_digitChar (d : Nat) (h : d < 10) : digitValue (digitChar d) = some d := by
  interval_cases d <;> rfl

/-- The characters of a printed number: the minus sign, the point and the digits. -/
theorem digitChar_mem (d : Nat) :
    digitChar d ∈ ['0', '1', '2', '3', '4', '5', '6', '7', '8', '9'] := by
  unfold digitChar
  split <;> simp

theorem natDigitsAux_mem (fuel : Nat) :
    ∀ n : Nat, ∀ c ∈ natDigitsAux fuel n,
      c ∈ ['0', '1', '2', '3', '4', '5', '6', '7', '8', '9'] := by
  induction fuel with
  | zero =>
    intro n c hc
    simp only [natDigitsAux, List.mem_singleton] at hc
    rw [hc]
    exact digitChar_mem _
  | succ fuel ih =>
    intro n c hc
    simp only [natDigitsAux] at hc
    split_ifs at hc
    · rw [List.mem_singleton] at hc
      rw [hc]
      exact digitChar_mem _
    · rw [List.mem_append, List.mem_singleton] at hc
      rcases hc with h | h
      · exact ih _ c h
      · rw [h]
        exact digitChar_mem _

theorem fixedDigits_mem (k : Nat) :
    ∀ n : Nat, ∀ c ∈ fixedDigits k n,
      c ∈ ['0', '1', '2', '3', '4', '5', '6', '7', '8', '9'] := by
  induction k with
  | zero =>
    intro n c hc
    simp [fixedDigits] at hc
  | succ k ih =>
    intro n c hc
    simp only [fixedDigits, List.mem_append, List.mem_singleton] at hc
    rcases hc with h | h
    · exact ih _ c h
    · rw [h]
      exact digitChar_mem _

theorem fixedDigits_length (k : Nat) : ∀ n : Nat, (fixedDigits k n).length = k := by
  induction k with
  | zero => intro n; rfl
  | succ k ih =>
    intro n
    simp [fixedDigits, ih]

theorem readDigits_digit (acc count d : Nat) (h : d < 10) (rest : List Char) :
    readDigits acc count (digitChar d :: rest) = readDigits (acc * 10 + d) (count + 1) rest := by
  simp only [readDigits, digitValue_digitChar d h]

theorem readDigits_stop (acc count : Nat) (rest : List Char)
    (h : ∀ c, rest.head? = some c → digitValue c = none) :
    readDigits acc count rest = (acc, count, rest) := by
  cases rest with
  | nil => rfl
  | cons c t =>
    have hc := h c rfl
    simp only [readDigits, hc]

/-- Reading back the fixed-width digits of a number. -/
theorem readDigits_fixedDigits (k : Nat) :
    ∀ (n acc count : Nat) (rest : List Char),
      readDigits acc count (fixedDigits k n ++ rest)
        = readDigits (acc * 10 ^ k + n % 10 ^ k) (count + k) rest := by
  induction k with
  | zero =>
    intro n acc count rest
    simp [fixedDigits, Nat.mod_one]
  | succ k ih =>
    intro n acc count rest
    simp only [fixedDigits, List.append_assoc, List.singleton_append]
    rw [ih, readDigits_digit _ _ _ (Nat.mod_lt _ (by norm_num))]
    have harith : (acc * 10 ^ k + n / 10 % 10 ^ k) * 10 + n % 10
        = acc * 10 ^ (k + 1) + n % 10 ^ (k + 1) := by
      rw [pow_succ, Nat.mul_comm (10 ^ k) 10, Nat.mod_mul]
      ring
    rw [harith, Nat.add_assoc]

/-- Reading back the digits of a number. -/
theorem readDigits_natDigitsAux (fuel : Nat) :
    ∀ (n acc count : Nat) (rest : List Char), n < 10 ^ (fuel + 1) →
      readDigits acc count (natDigitsAux fuel n ++ rest)
        = readDigits (acc * 10 ^ (natDigitsAux fuel n).length + n)
            (count + (natDigitsAux fuel n).length) rest := by
  induction fuel with
  | zero =>
    intro n acc count rest hn
    have h10 : n < 10 := by simpa using hn
    simp only [natDigitsAux, List.singleton_append, List.length_singleton, pow_one,
      Nat.mod_eq_of_lt h10]
    exact readDigits_digit _ _ _ h10 _
  | succ fuel ih =>
    intro n acc count rest hn
    simp only [natDigitsAux]
    split_ifs with h10
    · simp only [List.singleton_append, List.length_singleton, pow_one]
      exact readDigits_digit _ _ _ h10 _
    · have hdiv : n / 10 < 10 ^ (fuel + 1) := by
        rw [Nat.div_lt_iff_lt_mul (by norm_num)]
        calc n < 10 ^ (fuel + 1 + 1) := hn
          _ = 10 ^ (fuel + 1) * 10 := by rw [pow_succ]
      simp only [List.append_assoc, List.singleton_append, List.length_append,
        List.length_singleton]
      rw [ih _ _ _ _ hdiv, readDigits_digit _ _ _ (Nat.mod_lt _ (by norm_num))]
      have harith : (acc * 10 ^ (natDigitsAux fuel (n / 10)).length + n / 10) * 10 + n % 10
          = acc * 10 ^ ((natDigitsAux fuel (n / 10)).length + 1) + n := by
        have := Nat.div_add_mod n 10
        rw [pow_succ]
        nlinarith
      rw [harith, Nat.add_assoc]

theorem lt_ten_pow_succ (n : Nat) : n < 10 ^ (n + 1) :=
  calc n < 2 ^ n := Nat.lt_two_pow n
    _ ≤ 10 ^ n := Nat.pow_le_pow_left (by norm_num) n
    _ ≤ 10 ^ (n + 1) := Nat.pow_le_pow_right (by norm_num) (Nat.le_succ n)

theorem readDigits_natDigits (n acc count : Nat) (rest : List Char) :
    readDigits acc count (natDigits n ++ rest)
      = readDigits (acc * 10 ^ (natDigits n).length + n) (count + (natDigits n).length) rest :=
  readDigits_natDigitsAux n n acc count rest (lt_ten_pow_succ n)

theorem natDigitsAux_ne_nil (fuel n : Nat) : natDigitsAux fuel n ≠ [] := by
  cases fuel with
  | zero => simp [natDigitsAux]
  | succ fuel =>
    simp only [natDigitsAux]
    split_ifs <;> simp

theorem natDigits_length_pos (n : Nat) : 0 < (natDigits n).length :=
  List.length_pos.mpr (natDigitsAux_ne_nil n n)

/-- A number below 100 has at most two digits. -/
theorem natDigits_length_le_two (n : Nat) (h : n < 100) : (natDigits n).length ≤ 2 := by
  unfold natDigits
  cases n with
  | zero => simp [natDigitsAux]
  | succ k =>
    simp only [natDigitsAux]
    split_ifs with h10
    · simp
    · cases k with
      | zero => omega
      | succ j =>
        simp only [natDigitsAux, List.length_append, List.length_singleton]
        have : (j + 1 + 1) / 10 < 10 := by omega
        rw [if_pos this]
        simp

end PresetDigits

/-! ## Preset text: numbers -/

section PresetNumbers

variable {α : Type} [LinearOrderedField α]

theorem digit_props (c : Char)
    (hc : c ∈ ['0', '1', '2', '3', '4', '5', '6', '7', '8', '9']) :
    isSpace c = false ∧ c ≠ '-' ∧ c ≠ '+' ∧ c ≠ '\x22' ∧ c ≠ '\x00' := by
  simp only [List.mem_cons, List.mem_singleton, List.not_mem_nil, or_false] at hc
  rcases hc with rfl | rfl | rfl | rfl | rfl | rfl | rfl | rfl | rfl | rfl <;> decide

theorem natDigits_eq_cons (n : Nat) :
    ∃ c t, natDigits n = c :: t ∧ c ∈ ['0', '1', '2', '3', '4', '5', '6', '7', '8', '9'] := by
  cases h : natDigits n with
  | nil => exact absurd h (natDigitsAux_ne_nil n n)
  | cons c t =>
    refine ⟨c, t, rfl, natDigitsAux_mem n n c ?_⟩
    unfold natDigits at h
    rw [h]
    exact List.mem_cons_self c t

/-- The value that `atof` reads from digits, a point and six digits, followed by a text that
does not continue the number. -/
theorem atof_unsigned (I F : Nat) (rest : List Char) (hF : F < 10 ^ 6)
    (hrest : ∀ c, rest.head? = some c → digitValue c = none ∧ c ≠ 'e' ∧ c ≠ 'E') :
    (atof (natDigits I ++ '.' :: (fixedDigits 6 F ++ rest)) : α)
      = (I : α) + (F : α) / 10 ^ 6 := by
  obtain ⟨c, t, hct, hc⟩ := natDigits_eq_cons I
  obtain ⟨hsp, hminus, hplus, -, -⟩ := digit_props c hc
  have hdrop : (natDigits I ++ '.' :: (fixedDigits 6 F ++ rest)).dropWhile isSpace
      = natDigits I ++ '.' :: (fixedDigits 6 F ++ rest) := by
    rw [hct, List.cons_append, List.dropWhile_cons_of_neg (by simp [hsp])]
  have hhead : (natDigits I ++ '.' :: (fixedDigits 6 F ++ rest)).head? = some c := by
    rw [hct]
    rfl
  have hip : readDigits 0 0 (natDigits I ++ '.' :: (fixedDigits 6 F ++ rest))
      = (I, (natDigits I).length, '.' :: (fixedDigits 6 F ++ rest)) := by
    rw [readDigits_natDigits, readDigits_stop _ _ _ (fun c hc => by
      simp only [List.head?_cons, Option.some.injEq] at hc
      rw [← hc]
      rfl)]
    simp
  have hfp : readDigits 0 0 (fixedDigits 6 F ++ rest) = (F, 6, rest) := by
    rw [readDigits_fixedDigits, readDigits_stop _ _ _ (fun c hc => (hrest c hc).1),
      Nat.mod_eq_of_lt hF]
    simp
  have hlen := natDigits_length_pos I
  have hex : ¬ (rest.head? = some 'e' ∨ rest.head? = some 'E') := by
    rintro (h | h)
    · exact (hrest _ h).2.1 rfl
    · exact (hrest _ h).2.2 rfl
  unfold atof
  simp only [hdrop, hhead, Option.some.injEq, hminus, hplus, or_self, if_false, hip,
    List.head?_cons, List.tail_cons, if_true, hfp, hex, false_and]
  rw [if_neg (by omega)]
  simp

theorem atof_signed (I F : Nat) (rest : List Char) (hF : F < 10 ^ 6)
    (hrest : ∀ c, rest.head? = some c → digitValue c = none ∧ c ≠ 'e' ∧ c ≠ 'E') :
    (atof ('-' :: (natDigits I ++ '.' :: (fixedDigits 6 F ++ rest))) : α)
      = -((I : α) + (F : α) / 10 ^ 6) := by
  have hdrop : ('-' :: (natDigits I ++ '.' :: (fixedDigits 6 F ++ rest))).dropWhile isSpace
      = '-' :: (natDigits I ++ '.' :: (fixedDigits 6 F ++ rest)) :=
    List.dropWhile_cons_of_neg (by decide)
  have hip : readDigits 0 0 (natDigits I ++ '.' :: (fixedDigits 6 F ++ rest))
      = (I, (natDigits I).length, '.' :: (fixedDigits 6 F ++ rest)) := by
    rw [readDigits_natDigits, readDigits_stop _ _ _ (fun c hc => by
      simp only [List.head?_cons, Option.some.injEq] at hc
      rw [← hc]
      rfl)]
    simp
  have hfp : readDigits 0 0 (fixedDigits 6 F ++ rest) = (F, 6, rest) := by
    rw [readDigits_fixedDigits, readDigits_stop _ _ _ (fun c hc => (hrest c hc).1),
      Nat.mod_eq_of_lt hF]
    simp
  have hlen := natDigits_length_pos I
  have hex : ¬ (rest.head? = some 'e' ∨ rest.head? = some 'E') := by
    rintro (h | h)
    · exact (hrest _ h).2.1 rfl
    · exact (hrest _ h).2.2 rfl
  unfold atof
  simp only [hdrop, List.head?_cons, true_or, if_true, List.tail_cons, hip, hfp, hex,
    false_and, if_false]
  rw [if_neg (by omega)]
  simp

/-- Reading back what `%.6f` printed gives the value rounded to six decimal places. -/
theorem atof_formatFixed6 [FloorRing α] (value : α) (rest : List Char)
    (hrest : ∀ c, rest.head? = some c → digitValue c = none ∧ c ≠ 'e' ∧ c ≠ 'E') :
    (atof (formatFixed6 value ++ rest) : α) = round6 value := by
  have hF : roundHalfEven (|value| * 1000000) % 1000000 < 10 ^ 6 :=
    Nat.mod_lt _ (by norm_num)
  have hsplit : ((roundHalfEven (|value| * 1000000) / 1000000 : Nat) : α)
      + ((roundHalfEven (|value| * 1000000) % 1000000 : Nat) : α) / 10 ^ 6
      = ((roundHalfEven (|value| * 1000000) : Nat) : α) / 1000000 := by
    have h := Nat.div_add_mod (roundHalfEven (|value| * 1000000)) 1000000
    have hc : ((roundHalfEven (|value| * 1000000) : Nat) : α)
        = 1000000 * ((roundHalfEven (|value| * 1000000) / 1000000 : Nat) : α)
          + ((roundHalfEven (|value| * 1000000) % 1000000 : Nat) : α) := by
      exact_mod_cast h.symm
    rw [hc]
    field_simp
    ring
  unfold formatFixed6 round6
  by_cases hneg : value < 0
  · rw [if_pos hneg, if_pos hneg]
    simp only [List.singleton_append, List.cons_append, List.append_assoc, List.nil_append]
    rw [atof_signed _ _ _ hF hrest, hsplit]
    ring
  · rw [if_neg hneg, if_neg hneg]
    simp only [List.nil_append, List.cons_append, List.append_assoc]
    rw [atof_unsigned _ _ _ hF hrest, hsplit]
    ring

end PresetNumbers

/-! ## Preset text: searching the record -/

section PresetSearch

theorem strstr_cons_of_head_ne (c q : Char) (rest nt : List Char) (h : c ≠ q) :
    strstr (c :: rest) (q :: nt) = strstr rest (q :: nt) := by
  have hb : (q == c) = false := by
    rw [beq_eq_false_iff_ne]
    exact fun hqc => h hqc.symm
  simp only [strstr, List.isPrefixOf_cons₂, hb, Bool.false_and, Bool.false_eq_true, if_false]

theorem strstr_append_of_forall_ne (pre rest : List Char) (q : Char) (nt : List Char)
    (h : ∀ c ∈ pre, c ≠ q) : strstr (pre ++ rest) (q :: nt) = strstr rest (q :: nt) := by
  induction pre with
  | nil => rfl
  | cons c t ih =>
    rw [List.cons_append, strstr_cons_of_head_ne c q _ nt (h c (List.mem_cons_self c t))]
    exact ih (fun d hd => h d (List.mem_cons_of_mem c hd))

theorem strstr_of_miss (c : Char) (rest needle : List Char)
    (h : needle.isPrefixOf (c :: rest) = false) :
    strstr (c :: rest) needle = strstr rest needle := by
  simp only [strstr, h, Bool.false_eq_true, if_false]

theorem strstr_of_hit (c : Char) (rest needle : List Char)
    (h : needle.isPrefixOf (c :: rest) = true) :
    strstr (c :: rest) needle = some (c :: rest) := by
  simp only [strstr, h, if_true]

theorem formatFixed6_mem {α : Type} [LinearOrderedField α] [FloorRing α] (value : α) :
    ∀ c ∈ formatFixed6 value,
      c ∈ ['-', '.', '0', '1', '2', '3', '4', '5', '6', '7', '8', '9'] := by
  intro c hc
  unfold formatFixed6 at hc
  simp only [List.mem_append, List.mem_cons] at hc
  rcases hc with (h | h) | h | h
  · split_ifs at h with hneg
    · simp only [List.mem_singleton] at h
      simp [h]
    · simp at h
  · have := natDigitsAux_mem _ _ c h
    simp only [List.mem_cons, List.mem_singleton, List.not_mem_nil, or_false] at this ⊢
    tauto
  · simp [h]
  · have := fixedDigits_mem _ _ c h
    simp only [List.mem_cons, List.mem_singleton, List.not_mem_nil, or_false] at this ⊢
    tauto

theorem formatFixed6_no_quote {α : Type} [LinearOrderedField α] [FloorRing α] (value : α) :
    ∀ c ∈ formatFixed6 value, c ≠ '\x22' := by
  intro c hc
  have := formatFixed6_mem value c hc
  simp only [List.mem_cons, List.mem_singleton, List.not_mem_nil, or_false] at this
  rcases this with rfl | rfl | rfl | rfl | rfl | rfl | rfl | rfl | rfl | rfl | rfl | rfl <;>
    decide

theorem formatFixed6_no_nul {α : Type} [LinearOrderedField α] [FloorRing α] (value : α) :
    ∀ c ∈ formatFixed6 value, c ≠ '\x00' := by
  intro c hc
  have := formatFixed6_mem value c hc
  simp only [List.mem_cons, List.mem_singleton, List.not_mem_nil, or_false] at this
  rcases this with rfl | rfl | rfl | rfl | rfl | rfl | rfl | rfl | rfl | rfl | rfl | rfl <;>
    decide

theorem key_masterVolume :
    "masterVolume".toList = ['m', 'a', 's', 't', 'e', 'r', 'V', 'o', 'l', 'u', 'm', 'e'] := rfl

theorem key_pitchBendRange :
    "pitchBendRange".toList
      = ['p', 'i', 't', 'c', 'h', 'B', 'e', 'n', 'd', 'R', 'a', 'n', 'g', 'e'] := rfl

theorem key_envAttack :
    "envAttack".toList = ['e', 'n', 'v', 'A', 't', 't', 'a', 'c', 'k'] := rfl

theorem key_envDecay : "envDecay".toList = ['e', 'n', 'v', 'D', 'e', 'c', 'a', 'y'] := rfl

theorem key_envSustain :
    "envSustain".toList = ['e', 'n', 'v', 'S', 'u', 's', 't', 'a', 'i', 'n'] := rfl

theorem key_envRelease :
    "envRelease".toList = ['e', 'n', 'v', 'R', 'e', 'l', 'e', 'a', 's', 'e'] := rfl

set_option maxHeartbeats 1000000 in
set_option maxRecDepth 4000 in
/-- The search for the key `masterVolume` in a preset record finds field number 1: the text
found starts with the key, followed by the printed value and a comma or the closing brace. -/
theorem strstr_masterVolume {α : Type} [LinearOrderedField α] [FloorRing α]
    (p : Parameters α) :
    ∃ tail, strstr (presetRecord p) ('\x22' :: "masterVolume".toList ++ ['\x22', ':'])
        = some (('\x22' :: "masterVolume".toList ++ ['\x22', ':'])
            ++ (formatFixed6 p.masterVolume ++ tail))
      ∧ (tail.head? = some ',' ∨ tail.head? = some '\x7d') := by
  constructor
  constructor
  · unfold presetRecord formatJsonParameter
    simp only [key_masterVolume, key_pitchBendRange, key_envAttack, key_envDecay,
      key_envSustain, key_envRelease, List.cons_append, List.append_assoc, List.nil_append]
    rw [strstr_cons_of_head_ne _ _ _ _ (by decide)]
    rw [strstr_of_hit _ _ _ (by simp [List.isPrefixOf_cons₂])]
  · exact Or.inl rfl

set_option maxHeartbeats 1000000 in
set_option maxRecDepth 4000 in
/-- The search for the key `pitchBendRange` in a preset record finds field number 2: the text
found starts with the key, followed by the printed value and a comma or the closing brace. -/
theorem strstr_pitchBendRange {α : Type} [LinearOrderedField α] [FloorRing α]
    (p : Parameters α) :
    ∃ tail, strstr (presetRecord p) ('\x22' :: "pitchBendRange".toList ++ ['\x22', ':'])
        = some (('\x22' :: "pitchBendRange".toList ++ ['\x22', ':'])
            ++ (formatFixed6 p.pitchBendRange ++ tail))
      ∧ (tail.head? = some ',' ∨ tail.head? = some '\x7d') := by
  constructor
  constructor
  · unfold presetRecord formatJsonParameter
    simp only [key_masterVolume, key_pitchBendRange, key_envAttack, key_envDecay,
      key_envSustain, key_envRelease, List.cons_append, List.append_assoc, List.nil_append]
    rw [strstr_cons_of_head_ne _ _ _ _ (by decide)]
    rw [strstr_of_miss _ _ _ (by rfl)]
    repeat rw [strstr_cons_of_head_ne _ _ _ _ (by decide)]
    rw [strstr_of_miss _ _ _ (by rfl)]
    rw [strstr_cons_of_head_ne _ _ _ _ (by decide)]
    rw [strstr_append_of_forall_ne _ _ _ _ (formatFixed6_no_quote _)]
    rw [strstr_cons_of_head_ne _ _ _ _ (by decide)]
    rw [strstr_of_hit _ _ _ (by simp [List.isPrefixOf_cons₂])]
  · exact Or.inl rfl

set_option maxHeartbeats 1000000 in
set_option maxRecDepth 4000 in
/-- The search for the key `envAttack` in a preset record finds field number 3: the text
found starts with the key, followed by the printed value and a comma or the closing brace. -/
theorem strstr_envAttack {α : Type} [LinearOrderedField α] [FloorRing α]
    (p : Parameters α) :
    ∃ tail, strstr (presetRecord p) ('\x22' :: "envAttack".toList ++ ['\x22', ':'])
        = some (('\x22' :: "envAttack".toList ++ ['\x22', ':'])
            ++ (formatFixed6 p.envAttack ++ tail))
      ∧ (tail.head? = some ',' ∨ tail.head? = some '\x7d') := by
  constructor
  constructor
  · unfold presetRecord formatJsonParameter
    simp only [key_masterVolume, key_pitchBendRange, key_envAttack, key_envDecay,
      key_envSustain, key_envRelease, List.cons_append, List.append_assoc, List.nil_append]
    rw [strstr_cons_of_head_ne _ _ _ _ (by decide)]
    rw [strstr_of_miss _ _ _ (by rfl)]
    repeat rw [strstr_cons_of_head_ne _ _ _ _ (by decide)]
    rw [strstr_of_miss _ _ _ (by rfl)]
    rw [strstr_cons_of_head_ne _ _ _ _ (by decide)]
    rw [strstr_append_of_forall_ne _ _ _ _ (formatFixed6_no_quote _)]
    rw [strstr_cons_of_head_ne _ _ _ _ (by decide)]
    rw [strstr_of_miss _ _ _ (by rfl)]
    repeat rw [strstr_cons_of_head_ne _ _ _ _ (by decide)]
    rw [strstr_of_miss _ _ _ (by rfl)]
    rw [strstr_cons_of_head_ne _ _ _ _ (by decide)]
    rw [strstr_append_of_forall_ne _ _ _ _ (formatFixed6_no_quote _)]
    rw [strstr_cons_of_head_ne _ _ _ _ (by decide)]
    rw [strstr_of_hit _ _ _ (by simp [List.isPrefixOf_cons₂])]
  · exact Or.inl rfl

set_option maxHeartbeats 1000000 in
set_option maxRecDepth 4000 in
/-- The search for the key `envDecay` in a preset record finds field number 4: the text
found starts with the key, followed by the printed value and a comma or the closing brace. -/
theorem strstr_envDecay {α : Type} [LinearOrderedField α] [FloorRing α]
    (p : Parameters α) :
    ∃ tail, strstr (presetRecord p) ('\x22' :: "envDecay".toList ++ ['\x22', ':'])
        = some (('\x22' :: "envDecay".toList ++ ['\x22', ':'])
            ++ (formatFixed6 p.envDecay ++ tail))
      ∧ (tail.head? = some ',' ∨ tail.head? = some '\x7d') := by
  constructor
  constructor
  · unfold presetRecord formatJsonParameter
    simp only [key_masterVolume, key_pitchBendRange, key_envAttack, key_envDecay,
      key_envSustain, key_envRelease, List.cons_append, List.append_assoc, List.nil_append]
    rw [strstr_cons_of_head_ne _ _ _ _ (by decide)]
    rw [strstr_of_miss _ _ _ (by rfl)]
    repeat rw [strstr_cons_of_head_ne _ _ _ _ (by decide)]
    rw [strstr_of_miss _ _ _ (by rfl)]
    rw [strstr_cons_of_head_ne _ _ _ _ (by decide)]
    rw [strstr_append_of_forall_ne _ _ _ _ (formatFixed6_no_quote _)]
    rw [strstr_cons_of_head_ne _ _ _ _ (by decide)]
    rw [strstr_of_miss _ _ _ (by rfl)]
    repeat rw [strstr_cons_of_head_ne _ _ _ _ (by decide)]
    rw [strstr_of_miss _ _ _ (by rfl)]
    rw [strstr_cons_of_head_ne _ _ _ _ (by decide)]
    rw [strstr_append_of_forall_ne _ _ _ _ (formatFixed6_no_quote _)]
    rw [strstr_cons_of_head_ne _ _ _ _ (by decide)]
    rw [strstr_of_miss _ _ _ (by rfl)]
    repeat rw [strstr_cons_of_head_ne _ _ _ _ (by decide)]
    rw [strstr_of_miss _ _ _ (by rfl)]
    rw [strstr_cons_of_head_ne _ _ _ _ (by decide)]
    rw [strstr_append_of_forall_ne _ _ _ _ (formatFixed6_no_quote _)]
    rw [strstr_cons_of_head_ne _ _ _ _ (by decide)]
    rw [strstr_of_hit _ _ _ (by simp [List.isPrefixOf_cons₂])]
  · exact Or.inl rfl

set_option maxHeartbeats 1000000 in
set_option maxRecDepth 4000 in
/-- The search for the key `envSustain` in a preset record finds field number 5: the text
found starts with the key, followed by the printed value and a comma or the closing brace. -/
theorem strstr_envSustain {α : Type} [LinearOrderedField α] [FloorRing α]
    (p : Parameters α) :
    ∃ tail, strstr (presetRecord p) ('\x22' :: "envSustain".toList ++ ['\x22', ':'])
        = some (('\x22' :: "envSustain".toList ++ ['\x22', ':'])
            ++ (formatFixed6 p.envSustain ++ tail))
      ∧ (tail.head? = some ',' ∨ tail.head? = some '\x7d') := by
  constructor
  constructor
  · unfold presetRecord formatJsonParameter
    simp only [key_masterVolume, key_pitchBendRange, key_envAttack, key_envDecay,
      key_envSustain, key_envRelease, List.cons_append, List.append_assoc, List.nil_append]
    rw [strstr_cons_of_head_ne _ _ _ _ (by decide)]
    rw [strstr_of_miss _ _ _ (by rfl)]
    repeat rw [strstr_cons_of_head_ne _ _ _ _ (by decide)]
    rw [strstr_of_miss _ _ _ (by rfl)]
    rw [strstr_cons_of_head_ne _ _ _ _ (by decide)]
    rw [strstr_append_of_forall_ne _ _ _ _ (formatFixed6_no_quote _)]
    rw [strstr_cons_of_head_ne _ _ _ _ (by decide)]
    rw [strstr_of_miss _ _ _ (by rfl)]
    repeat rw [strstr_cons_of_head_ne _ _ _ _ (by decide)]
    rw [strstr_of_miss _ _ _ (by rfl)]
    rw [strstr_cons_of_head_ne _ _ _ _ (by decide)]
    rw [strstr_append_of_forall_ne _ _ _ _ (formatFixed6_no_quote _)]
    rw [strstr_cons_of_head_ne _ _ _ _ (by decide)]
    rw [strstr_of_miss _ _ _ (by rfl)]
    repeat rw [strstr_cons_of_head_ne _ _ _ _ (by decide)]
    rw [strstr_of_miss _ _ _ (by rfl)]
    rw [strstr_cons_of_head_ne _ _ _ _ (by decide)]
    rw [strstr_append_of_forall_ne _ _ _ _ (formatFixed6_no_quote _)]
    rw [strstr_cons_of_head_ne _ _ _ _ (by decide)]
    rw [strstr_of_miss _ _ _ (by rfl)]
    repeat rw [strstr_cons_of_head_ne _ _ _ _ (by decide)]
    rw [strstr_of_miss _ _ _ (by rfl)]
    rw [strstr_cons_of_head_ne _ _ _ _ (by decide)]
    rw [strstr_append_of_forall_ne _ _ _ _ (formatFixed6_no_quote _)]
    rw [strstr_cons_of_head_ne _ _ _ _ (by decide)]
    rw [strstr_of_hit _ _ _ (by simp [List.isPrefixOf_cons₂])]
  · exact Or.inl rfl

set_option maxHeartbeats 1000000 in
set_option maxRecDepth 4000 in
/-- The search for the key `envRelease` in a preset record finds field number 6: the text
found starts with the key, followed by the printed value and a comma or the closing brace. -/
theorem strstr_envRelease {α : Type} [LinearOrderedField α] [FloorRing α]
    (p : Parameters α) :
    ∃ tail, strstr (presetRecord p) ('\x22' :: "envRelease".toList ++ ['\x22', ':'])
        = some (('\x22' :: "envRelease".toList ++ ['\x22', ':'])
            ++ (formatFixed6 p.envRelease ++ tail))
      ∧ (tail.head? = some ',' ∨ tail.head? = some '\x7d') := by
  constructor
  constructor
  · unfold presetRecord formatJsonParameter
    simp only [key_masterVolume, key_pitchBendRange, key_envAttack, key_envDecay,
      key_envSustain, key_envRelease, List.cons_append, List.append_assoc, List.nil_append]
    rw [strstr_cons_of_head_ne _ _ _ _ (by decide)]
    rw [strstr_of_miss _ _ _ (by rfl)]
    repeat rw [strstr_cons_of_head_ne _ _ _ _ (by decide)]
    rw [strstr_of_miss _ _ _ (by rfl)]
    rw [strstr_cons_of_head_ne _ _ _ _ (by decide)]
    rw [strstr_append_of_forall_ne _ _ _ _ (formatFixed6_no_quote _)]
    rw [strstr_cons_of_head_ne _ _ _ _ (by decide)]
    rw [strstr_of_miss _ _ _ (by rfl)]
    repeat rw [strstr_cons_of_head_ne _ _ _ _ (by decide)]
    rw [strstr_of_miss _ _ _ (by rfl)]
    rw [strstr_cons_of_head_ne _ _ _ _ (by decide)]
    rw [strstr_append_of_forall_ne _ _ _ _ (formatFixed6_no_quote _)]
    rw [strstr_cons_of_head_ne _ _ _ _ (by decide)]
    rw [strstr_of_miss _ _ _ (by rfl)]
    repeat rw [strstr_cons_of_head_ne _ _ _ _ (by decide)]
    rw [strstr_of_miss _ _ _ (by rfl)]
    rw [strstr_cons_of_head_ne _ _ _ _ (by decide)]
    rw [strstr_append_of_forall_ne _ _ _ _ (formatFixed6_no_quote _)]
    rw [strstr_cons_of_head_ne _ _ _ _ (by decide)]
    rw [strstr_of_miss _ _ _ (by rfl)]
    repeat rw [strstr_cons_of_head_ne _ _ _ _ (by decide)]
    rw [strstr_of_miss _ _ _ (by rfl)]
    rw [strstr_cons_of_head_ne _ _ _ _ (by decide)]
    rw [strstr_append_of_forall_ne _ _ _ _ (formatFixed6_no_quote _)]
    rw [strstr_cons_of_head_ne _ _ _ _ (by decide)]
    rw [strstr_of_miss _ _ _ (by rfl)]
    repeat rw [strstr_cons_of_head_ne _ _ _ _ (by decide)]
    rw [strstr_of_miss _ _ _ (by rfl)]
    rw [strstr_cons_of_head_ne _ _ _ _ (by decide)]
    rw [strstr_append_of_forall_ne _ _ _ _ (formatFixed6_no_quote _)]
    rw [strstr_cons_of_head_ne _ _ _ _ (by decide)]
    rw [strstr_of_hit _ _ _ (by simp [List.isPrefixOf_cons₂])]
  · exact Or.inr rfl

/-- The key of a short parameter name fits the array `search` of `parseJsonParameter`. -/
theorem search_take (param : String) (h : param.toList.length ≤ 124) :
    ('\x22' :: param.toList ++ ['\x22', ':']).take 127
      = '\x22' :: param.toList ++ ['\x22', ':'] := by
  apply List.take_of_length_le
  simp only [List.length_cons, List.length_append, List.length_nil]
  omega

/-- Parsing a parameter of a preset record gives the value that was printed, rounded to six
decimal places. -/
theorem parse_presetRecord {α : Type} [LinearOrderedField α] [FloorRing α] (p : Parameters α) :
    (SamSamplerDSP.parseJsonParameter (presetRecord p) "masterVolume" : Option α)
        = some (round6 p.masterVolume)
      ∧ (SamSamplerDSP.parseJsonParameter (presetRecord p) "pitchBendRange" : Option α)
        = some (round6 p.pitchBendRange)
      ∧ (SamSamplerDSP.parseJsonParameter (presetRecord p) "envAttack" : Option α)
        = some (round6 p.envAttack)
      ∧ (SamSamplerDSP.parseJsonParameter (presetRecord p) "envDecay" : Option α)
        = some (round6 p.envDecay)
      ∧ (SamSamplerDSP.parseJsonParameter (presetRecord p) "envSustain" : Option α)
        = some (round6 p.envSustain)
      ∧ (SamSamplerDSP.parseJsonParameter (presetRecord p) "envRelease" : Option α)
        = some (round6 p.envRelease) := by
  have hrest : ∀ tail : List Char, (tail.head? = some ',' ∨ tail.head? = some '\x7d') →
      ∀ c, tail.head? = some c → digitValue c = none ∧ c ≠ 'e' ∧ c ≠ 'E' := by
    intro tail ht c hc
    rcases ht with h | h
    · rw [h] at hc
      rw [← Option.some.inj hc]
      decide
    · rw [h] at hc
      rw [← Option.some.inj hc]
      decide
  refine ⟨?_, ?_, ?_, ?_, ?_, ?_⟩
  · obtain ⟨tail, hs, ht⟩ := strstr_masterVolume p
    unfold SamSamplerDSP.parseJsonParameter
    simp only [search_take "masterVolume" (by decide), hs, List.drop_left,
      atof_formatFixed6 _ _ (hrest tail ht)]
  · obtain ⟨tail, hs, ht⟩ := strstr_pitchBendRange p
    unfold SamSamplerDSP.parseJsonParameter
    simp only [search_take "pitchBendRange" (by decide), hs, List.drop_left,
      atof_formatFixed6 _ _ (hrest tail ht)]
  · obtain ⟨tail, hs, ht⟩ := strstr_envAttack p
    unfold SamSamplerDSP.parseJsonParameter
    simp only [search_take "envAttack" (by decide), hs, List.drop_left,
      atof_formatFixed6 _ _ (hrest tail ht)]
  · obtain ⟨tail, hs, ht⟩ := strstr_envDecay p
    unfold SamSamplerDSP.parseJsonParameter
    simp only [search_take "envDecay" (by decide), hs, List.drop_left,
      atof_formatFixed6 _ _ (hrest tail ht)]
  · obtain ⟨tail, hs, ht⟩ := strstr_envSustain p
    unfold SamSamplerDSP.parseJsonParameter
    simp only [search_take "envSustain" (by decide), hs, List.drop_left,
      atof_formatFixed6 _ _ (hrest tail ht)]
  · obtain ⟨tail, hs, ht⟩ := strstr_envRelease p
    unfold SamSamplerDSP.parseJsonParameter
    simp only [search_take "envRelease" (by decide), hs, List.drop_left,
      atof_formatFixed6 _ _ (hrest tail ht)]

end PresetSearch

/-! ## Preset text: saving and loading -/

section PresetSaveLoad

variable {α : Type} [LinearOrderedField α] [FloorRing α]

theorem putChar_bind (c : Char) (b : List Char) (size : Int) (f : List Char → Option (List Char))
    (h : (b.length : Int) < size) : (putChar c b size >>= f) = f (b ++ [c]) := by
  unfold putChar
  rw [if_neg (not_le.mpr h)]
  rfl

/-- A text shorter than 128 characters is stored in `temp` as a whole, and the characters
copied from `temp` are the text. -/
theorem take_temp (text : List Char) (h : text.length < 128) :
    (text.take 127 ++ ['\x00'] ++ List.replicate (text.length - 128) '\x00').take text.length
      = text := by
  have h1 : text.take 127 = text := List.take_of_length_le (by omega)
  have h2 : text.length - 128 = 0 := by omega
  rw [h1, h2]
  simp

theorem writeJsonParameter_bind (name : String) (value : α) (b : List Char) (size : Int)
    (f : List Char → Option (List Char))
    (hfit : (formatJsonParameter name value).length < 128)
    (h : (b.length : Int) + ((formatJsonParameter name value).length : Int) < size) :
    (SamSamplerDSP.writeJsonParameter name value b size >>= f)
      = f (b ++ formatJsonParameter name value) := by
  unfold SamSamplerDSP.writeJsonParameter
  dsimp only
  rw [if_neg (not_le.mpr h), take_temp _ hfit]
  rfl

theorem presetRecord_length (p : Parameters α) :
    (presetRecord p).length
      = (formatJsonParameter "masterVolume" p.masterVolume).length
        + (formatJsonParameter "pitchBendRange" p.pitchBendRange).length
        + (formatJsonParameter "envAttack" p.envAttack).length
        + (formatJsonParameter "envDecay" p.envDecay).length
        + (formatJsonParameter "envSustain" p.envSustain).length
        + (formatJsonParameter "envRelease" p.envRelease).length + 7 := by
  unfold presetRecord
  simp only [List.length_cons, List.length_append, List.length_nil]
  omega

/-- In a buffer longer than the record, `savePreset` writes the record and a NUL and returns
true, when each field of the record is shorter than the 128 characters of `temp`. -/
theorem savePreset_eq (e : SamSamplerDSP α) (size : Int) (hfit : PresetFieldsFit e.params)
    (h : ((presetRecord e.params).length : Int) < size) :
    e.savePreset size = some (presetRecord e.params ++ ['\x00']) := by
  have hlen := presetRecord_length e.params
  have hpos : ¬ size ≤ 0 := by omega
  obtain ⟨f1, f2, f3, f4, f5, f6⟩ := hfit
  unfold SamSamplerDSP.savePreset
  rw [if_neg hpos]
  rw [putChar_bind, writeJsonParameter_bind _ _ _ _ _ f1, putChar_bind,
    writeJsonParameter_bind _ _ _ _ _ f2, putChar_bind,
    writeJsonParameter_bind _ _ _ _ _ f3, putChar_bind,
    writeJsonParameter_bind _ _ _ _ _ f4, putChar_bind,
    writeJsonParameter_bind _ _ _ _ _ f5, putChar_bind,
    writeJsonParameter_bind _ _ _ _ _ f6, putChar_bind]
  · unfold putChar
    rw [if_neg]
    · unfold presetRecord
      simp only [List.append_assoc, List.cons_append, List.nil_append, List.singleton_append]
    · simp only [List.length_append, List.length_cons, List.length_nil, List.length_singleton]
      push_cast
      omega
  all_goals
    simp only [List.length_append, List.length_cons, List.length_nil, List.length_singleton]
    push_cast
    omega

theorem formatJsonParameter_no_nul (name : String) (value : α)
    (hname : ∀ c ∈ name.toList, c ≠ '\x00') :
    ∀ c ∈ formatJsonParameter name value, c ≠ '\x00' := by
  intro c hc
  unfold formatJsonParameter at hc
  simp only [List.mem_cons, List.mem_append] at hc
  rcases hc with (rfl | h) | rfl | rfl | h
  · decide
  · exact hname c h
  · decide
  · decide
  · exact formatFixed6_no_nul value c h

/-- The C string in the buffer that `savePreset` filled is the record. -/
theorem cString_presetRecord (p : Parameters α) :
    cString (presetRecord p ++ ['\x00']) = presetRecord p := by
  have hno : ∀ c ∈ presetRecord p, c ≠ '\x00' := by
    intro c hc
    unfold presetRecord at hc
    simp only [List.mem_cons, List.mem_append, List.mem_singleton, List.not_mem_nil,
      or_false] at hc
    rcases hc with rfl | h | rfl | h | rfl | h | rfl | h | rfl | h | rfl | h | rfl
    · decide
    · exact formatJsonParameter_no_nul _ _ (by decide) c h
    · decide
    · exact formatJsonParameter_no_nul _ _ (by decide) c h
    · decide
    · exact formatJsonParameter_no_nul _ _ (by decide) c h
    · decide
    · exact formatJsonParameter_no_nul _ _ (by decide) c h
    · decide
    · exact formatJsonParameter_no_nul _ _ (by decide) c h
    · decide
    · exact formatJsonParameter_no_nul _ _ (by decide) c h
    · decide
  unfold cString
  rw [List.takeWhile_append_of_pos (fun c hc => by simpa using hno c hc)]
  simp

/-- Loading a preset record sets the six parameters of the record to the printed values and
leaves the rest of the engine as it is. -/
theorem loadPreset_presetRecord (b : SamSamplerDSP α) (p : Parameters α) :
    (b.loadPreset (presetRecord p)).1
      = { b with params := { b.params with
            masterVolume := round6 p.masterVolume, pitchBendRange := round6 p.pitchBendRange,
            envAttack := round6 p.envAttack, envDecay := round6 p.envDecay,
            envSustain := round6 p.envSustain, envRelease := round6 p.envRelease } } := by
  obtain ⟨h1, h2, h3, h4, h5, h6⟩ := parse_presetRecord p
  unfold SamSamplerDSP.loadPreset
  rw [h1, h2, h3, h4, h5, h6]
  rfl

end PresetSaveLoad

/-! ## Preset text: rounding and lengths -/

section PresetRounding

variable {α : Type} [LinearOrderedField α] [FloorRing α]

theorem floor_toNat_cast (x : α) (hx : 0 ≤ x) :
    (((Int.floor x).toNat : Nat) : α) = ((Int.floor x : Int) : α) := by
  have h : (((Int.floor x).toNat : Nat) : Int) = Int.floor x :=
    Int.toNat_of_nonneg (Int.floor_nonneg.mpr hx)
  exact_mod_cast congrArg (fun z : Int => (z : α)) h

theorem roundHalfEven_near (x : α) (hx : 0 ≤ x) :
    |((roundHalfEven x : Nat) : α) - x| ≤ 1 / 2 := by
  have hc := floor_toNat_cast x hx
  have h1 := Int.floor_le x
  have h2 := Int.lt_floor_add_one x
  rw [abs_le]
  unfold roundHalfEven
  split_ifs with c1 c2 c3
  · constructor <;> linarith
  · push_cast
    constructor <;> linarith
  · constructor <;> linarith
  · push_cast
    constructor <;> linarith

theorem roundHalfEven_le (x : α) (hx : 0 ≤ x) (M : Nat) (hM : x ≤ (M : α)) :
    roundHalfEven x ≤ M := by
  have hc := floor_toNat_cast x hx
  have h1 := Int.floor_le x
  have hn : (Int.floor x).toNat ≤ M := by
    have : (((Int.floor x).toNat : Nat) : α) ≤ (M : α) := by linarith
    exact_mod_cast this
  unfold roundHalfEven
  split_ifs with c1 c2 c3
  · exact hn
  · have : (((Int.floor x).toNat : Nat) : α) < (M : α) := by linarith
    have : (Int.floor x).toNat < M := by exact_mod_cast this
    omega
  · exact hn
  · have hlt : (((Int.floor x).toNat : Nat) : α) < (M : α) := by
      have : (1 : α) / 2 ≤ x - (((Int.floor x).toNat : Nat) : α) := not_lt.mp c1
      linarith
    have : (Int.floor x).toNat < M := by exact_mod_cast hlt
    omega

theorem roundHalfEven_natCast (k : Nat) : roundHalfEven ((k : Nat) : α) = k := by
  unfold roundHalfEven
  have hf : Int.floor ((k : Nat) : α) = (k : Int) := Int.floor_natCast k
  have ht : (Int.floor ((k : Nat) : α)).toNat = k := by
    rw [hf]
    exact Int.toNat_natCast k
  rw [ht, if_pos (by simp)]

/-- The value printed by `%.6f` is within half a unit of the sixth decimal place. -/
theorem round6_near (value : α) : |round6 value - value| ≤ 5 / 10000000 := by
  have hnear := roundHalfEven_near (|value| * 1000000) (by positivity)
  rw [abs_le] at hnear ⊢
  unfold round6
  by_cases hneg : value < 0
  · rw [if_pos hneg]
    rw [abs_of_neg hneg] at hnear ⊢
    constructor <;> linarith [hnear.1, hnear.2]
  · rw [if_neg hneg]
    rw [abs_of_nonneg (not_lt.mp hneg)] at hnear ⊢
    constructor <;> linarith [hnear.1, hnear.2]

/-- A value with at most six decimal places is printed exactly. -/
theorem round6_of_grid (k : Nat) : round6 (((k : Nat) : α) / 1000000) = ((k : Nat) : α) / 1000000 := by
  have hnn : (0 : α) ≤ ((k : Nat) : α) / 1000000 := by positivity
  have habs : |((k : Nat) : α) / 1000000| * 1000000 = ((k : Nat) : α) := by
    rw [abs_of_nonneg hnn]
    field_simp
  unfold round6
  rw [if_neg (not_lt.mpr hnn), habs, roundHalfEven_natCast]
  ring

theorem formatFixed6_length_le (value : α) (h0 : 0 ≤ value) (h1 : value ≤ 99) :
    (formatFixed6 value).length ≤ 9 := by
  have hN : roundHalfEven (|value| * 1000000) ≤ 99000000 := by
    apply roundHalfEven_le _ (by positivity)
    rw [abs_of_nonneg h0]
    push_cast
    linarith
  have hI : roundHalfEven (|value| * 1000000) / 1000000 < 100 := by omega
  have hd := natDigits_length_le_two _ hI
  unfold formatFixed6
  rw [if_neg (not_lt.mpr h0)]
  simp only [List.nil_append, List.length_append, List.length_cons, fixedDigits_length]
  omega

theorem formatJsonParameter_length (name : String) (value : α) :
    (formatJsonParameter name value).length
      = name.toList.length + (formatFixed6 value).length + 3 := by
  unfold formatJsonParameter
  simp only [List.length_cons, List.length_append]
  omega

/-- Each field of the record of parameters within their documented ranges has at most 26
characters, fewer than the 128 of `temp`. -/
theorem presetFieldsFit_of_inRange (p : Parameters α) (h : PresetValuesInRange p) :
    PresetFieldsFit p := by
  obtain ⟨⟨a1, a2⟩, ⟨b1, b2⟩, ⟨c1, c2⟩, ⟨d1, d2⟩, ⟨e1, e2⟩, ⟨f1, f2⟩⟩ := h
  have l1 := formatFixed6_length_le p.masterVolume a1 (by linarith)
  have l2 := formatFixed6_length_le p.pitchBendRange b1 (by linarith)
  have l3 := formatFixed6_length_le p.envAttack (by linarith) (by linarith)
  have l4 := formatFixed6_length_le p.envDecay (by linarith) (by linarith)
  have l5 := formatFixed6_length_le p.envSustain e1 (by linarith)
  have l6 := formatFixed6_length_le p.envRelease (by linarith) (by linarith)
  unfold PresetFieldsFit
  simp only [formatJsonParameter_length, key_masterVolume, key_pitchBendRange, key_envAttack,
    key_envDecay, key_envSustain, key_envRelease, List.length_cons, List.length_nil]
  omega

/-- The record of parameters within their documented ranges has at most 142 characters. -/
theorem presetRecord_length_le (p : Parameters α) (h : PresetValuesInRange p) :
    (presetRecord p).length ≤ 142 := by
  obtain ⟨⟨a1, a2⟩, ⟨b1, b2⟩, ⟨c1, c2⟩, ⟨d1, d2⟩, ⟨e1, e2⟩, ⟨f1, f2⟩⟩ := h
  have l1 := formatFixed6_length_le p.masterVolume a1 (by linarith)
  have l2 := formatFixed6_length_le p.pitchBendRange b1 (by linarith)
  have l3 := formatFixed6_length_le p.envAttack (by linarith) (by linarith)
  have l4 := formatFixed6_length_le p.envDecay (by linarith) (by linarith)
  have l5 := formatFixed6_length_le p.envSustain e1 (by linarith)
  have l6 := formatFixed6_length_le p.envRelease (by linarith) (by linarith)
  rw [presetRecord_length]
  simp only [formatJsonParameter_length, key_masterVolume, key_pitchBendRange, key_envAttack,
    key_envDecay, key_envSustain, key_envRelease, List.length_cons, List.length_nil]
  omega

end PresetRounding

/-! ## Presets -/

/-- The six parameters of the record as `getParameter` reads them after loading a record. -/
theorem getParameter_loadPreset_presetRecord {α : Type} [LinearOrderedField α] [FloorRing α]
    (a b : SamSamplerDSP α) :
    ∀ name ∈ presetNames,
      (b.loadPreset (presetRecord a.params)).1.getParameter name
        = round6 (a.getParameter name) := by
  intro name hn
  rw [loadPreset_presetRecord]
  simp only [presetNames, List.mem_cons, List.mem_singleton, List.not_mem_nil, or_false] at hn
  rcases hn with rfl | rfl | rfl | rfl | rfl | rfl <;> rfl

/-- Loading any text leaves the parameters outside the record as `getParameter` reads them. -/
theorem getParameter_loadPreset_unsaved {α : Type} [LinearOrderedField α] [FloorRing α]
    (b : SamSamplerDSP α) (text : List Char) :
    ∀ name ∈ unsavedNames, (b.loadPreset text).1.getParameter name = b.getParameter name := by
  intro name hn
  simp only [unsavedNames, List.mem_cons, List.mem_singleton, List.not_mem_nil, or_false] at hn
  rcases hn with rfl | rfl | rfl | rfl | rfl | rfl | rfl | rfl | rfl <;> rfl

/-- C22: for an engine whose six persisted parameters are within their documented ranges the
record has at most 142 characters, and in every buffer that is longer than the record
`savePreset` returns true and writes a NUL-terminated text; `loadPreset` of that text on any
engine returns true and sets each of the six parameters to the saved value rounded to six
decimal places, which is within 5e-7 of the saved value and equal to it when the saved value
has at most six decimal places (0.05 is read back as 0.05). -/
theorem C22_preset_round_trip {α : Type} [LinearOrderedField α] [FloorRing α]
    (a b : SamSamplerDSP α) (jsonBufferSize : Int) (hrange : PresetValuesInRange a.params)
    (hsize : ((presetRecord a.params).length : Int) < jsonBufferSize) :
    (presetRecord a.params).length ≤ 142
      ∧ ∃ buffer, a.savePreset jsonBufferSize = some buffer
          ∧ buffer.getLast? = some '\x00'
          ∧ (b.loadPreset (cString buffer)).2 = true
          ∧ ∀ name ∈ presetNames,
              (b.loadPreset (cString buffer)).1.getParameter name
                  = round6 (a.getParameter name)
                ∧ |(b.loadPreset (cString buffer)).1.getParameter name - a.getParameter name|
                    ≤ 5 / 10000000
                ∧ ∀ k : Nat, a.getParameter name = ((k : Nat) : α) / 1000000 →
                    (b.loadPreset (cString buffer)).1.getParameter name
                      = a.getParameter name := by
  refine ⟨presetRecord_length_le a.params hrange, presetRecord a.params ++ ['\x00'],
    savePreset_eq a jsonBufferSize (presetFieldsFit_of_inRange a.params hrange) hsize, by simp,
    rfl, fun name hn => ?_⟩
  rw [cString_presetRecord, getParameter_loadPreset_presetRecord a b name hn]
  refine ⟨rfl, round6_near _, fun k hk => ?_⟩
  rw [hk, round6_of_grid]

/-- Witness for C22: the engine with `envAttack = 0.05` and `masterVolume = 0.8` saved into a
buffer of 256 characters and loaded into a newly constructed engine, which then reads
`envAttack` as 0.05. -/
theorem C22_preset_round_trip_witness :
    PresetValuesInRange presetEngine.params
      ∧ ((presetRecord presetEngine.params).length : Int) < 256
      ∧ ∃ buffer, presetEngine.savePreset 256 = some buffer
          ∧ ((SamSamplerDSP.init : SamSamplerDSP ℚ).loadPreset (cString buffer)).1.getParameter
              "envAttack" = 1 / 20 :=
  ⟨by unfold PresetValuesInRange; decide!, by decide!,
    (C22_preset_round_trip presetEngine (SamSamplerDSP.init : SamSamplerDSP ℚ) 256
      (by unfold PresetValuesInRange; decide!) (by decide!)).2.elim
      (fun buffer h => ⟨buffer, h.1,
        (h.2.2.2 "envAttack" (by simp [presetNames])).2.2 50000 (by decide!)
          |>.trans (by decide!)⟩)⟩

/-- Beyond the array `temp`: with `masterVolume = 10^120` (stored by `loadPreset`, which does
not clamp) the first field has 143 characters; `savePreset` in a buffer of 4096 characters
copies its first 127 characters and a NUL, so the C string saved has 128 characters and
loading it into a newly constructed engine reads `masterVolume` as 10^111 and leaves
`pitchBendRange` at its 2. -/
theorem savePreset_hugeVolume :
    hugeVolumeEngine.params.masterVolume = 10 ^ 120
      ∧ (formatJsonParameter "masterVolume" hugeVolumeEngine.params.masterVolume).length = 143
      ∧ (hugeVolumeEngine.savePreset 4096).map (fun buffer => (cString buffer).length)
          = some 128
      ∧ (hugeVolumeEngine.savePreset 4096).map
          (fun buffer => ((SamSamplerDSP.init : SamSamplerDSP ℚ).loadPreset
            (cString buffer)).1.getParameter "masterVolume") = some (10 ^ 111)
      ∧ (hugeVolumeEngine.setParameter "pitchBendRange" 12).getParameter "pitchBendRange" = 12
      ∧ ((hugeVolumeEngine.setParameter "pitchBendRange" 12).savePreset 4096).map
          (fun buffer => ((SamSamplerDSP.init : SamSamplerDSP ℚ).loadPreset
            (cString buffer)).1.getParameter "pitchBendRange") = some 2 := by
  refine ⟨by decide!, by decide!, by decide!, by decide!, by decide!, by decide!⟩

/-- C23, amended: the preset record holds six parameters.  For an engine whose six persisted
parameters are within their documented ranges (each field `"name":value` is then shorter than
the 128 characters of the array `temp` of `writeJsonParameter`), in a buffer longer than the
record, `savePreset` returns true and the text written is the record of `masterVolume`,
`pitchBendRange`, `envAttack`, `envDecay`, `envSustain` and `envRelease`; loading it into any
engine sets these six to the saved values rounded to six decimal places and leaves every other
parameter that `getParameter` reads (`basePitch`, `envHold`, the three curve selectors,
`filterCutoff`, `filterResonance`, `filterEnabled`, `filterType`) as it was in that engine, as
does loading any other text. -/
theorem C23_preset_record_holds_six {α : Type} [LinearOrderedField α] [FloorRing α]
    (a b : SamSamplerDSP α) (jsonBufferSize : Int) (hrange : PresetValuesInRange a.params)
    (hsize : ((presetRecord a.params).length : Int) < jsonBufferSize) :
    PresetFieldsFit a.params
      ∧ (∃ buffer, a.savePreset jsonBufferSize = some buffer
        ∧ cString buffer = presetRecord a.params
        ∧ (∀ name ∈ presetNames,
            (b.loadPreset (cString buffer)).1.getParameter name
              = round6 (a.getParameter name))
        ∧ (∀ name ∈ unsavedNames,
            (b.loadPreset (cString buffer)).1.getParameter name = b.getParameter name))
      ∧ ∀ (text : List Char), ∀ name ∈ unsavedNames,
          (b.loadPreset text).1.getParameter name = b.getParameter name := by
  have hfit := presetFieldsFit_of_inRange a.params hrange
  refine ⟨hfit, ⟨presetRecord a.params ++ ['\x00'], savePreset_eq a jsonBufferSize hfit hsize,
    cString_presetRecord a.params, ?_, ?_⟩,
    fun text => getParameter_loadPreset_unsaved b text⟩
  · rw [cString_presetRecord]
    exact getParameter_loadPreset_presetRecord a b
  · exact getParameter_loadPreset_unsaved b _

/-- Witness for C23 as amended: the engine `presetEngine` (`envHold = 1`) saved into a buffer
of 256 characters and loaded into a newly constructed engine: `masterVolume` is read as 0.8
and `envHold` stays 0. -/
theorem C23_preset_record_holds_six_witness :
    PresetValuesInRange presetEngine.params
      ∧ ((presetRecord presetEngine.params).length : Int) < 256
      ∧ ∃ buffer, presetEngine.savePreset 256 = some buffer
          ∧ ((SamSamplerDSP.init : SamSamplerDSP ℚ).loadPreset (cString buffer)).1.getParameter
              "masterVolume" = round6 (4 / 5)
          ∧ ((SamSamplerDSP.init : SamSamplerDSP ℚ).loadPreset (cString buffer)).1.getParameter
              "envHold" = 0 :=
  ⟨by unfold PresetValuesInRange; decide!, by decide!,
    (C23_preset_record_holds_six presetEngine (SamSamplerDSP.init : SamSamplerDSP ℚ) 256
      (by unfold PresetValuesInRange; decide!) (by decide!)).2.1.elim
      (fun buffer h => ⟨buffer, h.1,
        (h.2.2.1 "masterVolume" (by simp [presetNames])).trans (by decide!),
        (h.2.2.2 "envHold" (by simp [unsavedNames])).trans (by decide!)⟩)⟩

/-- C23 as stated fails: the engine `presetEngine` has `envHold = 1`; its preset, saved into a
buffer of 256 characters and loaded into a newly constructed engine, leaves `envHold` at the
0 of that engine. -/
theorem C23_preset_record_holds_six_counterexample :
    presetEngine.getParameter "envHold" = 1
      ∧ (presetEngine.savePreset 256).map
          (fun buffer => ((SamSamplerDSP.init : SamSamplerDSP ℚ).loadPreset
            (cString buffer)).1.getParameter "envHold") = some 0 := by
  decide!

end DSP
